import Mathlib

/-!
SimpleSDF: the frame loop of the RSM-capable renderer (SDFCornell).

A shallow embedding of `src/src/SDFCornell.cpp` and `src/include/SDFCornell.hpp`.

* The members of the `SDFCornell` object that hold integers, booleans and
  object handles are fields of `State`.  Members of type `float` that are only
  copied into the uniform block (slider values, angles, pointer position) are
  not part of this state.
* The graphics engine is a collaborator.  Its calls are kept as an ordered
  trace of `Event`s inside the state, and its resource manager is modelled by a
  counter that numbers every object it creates, the table of named resources,
  and the list of handles it has destroyed.
* The arithmetic of `updateUniformBuffer` on the `float` members (rotation,
  light direction, basis and origin of the light camera) is modelled apart
  from this state: once generic in the number type, which gives the exact
  arithmetic of the formulas, see `updateUniformFloats`, and once in binary32,
  where every operation is rounded to the nearest binary32 number, see
  `toFloat32` and `updateUniformFloats32`.
* The light-direction widget, the pointer callbacks of `SDFCornell` and of
  `SDF2D` (`src/src/SDF2D.cpp`) and the declaration of the uniform block, with
  the sizes and `alignas` values of its members, are modelled in the same way,
  see `lightControl`, `cursorPosCallback`, `SDF2D.cursorPosCallback` and
  `uniformMembers`.
* Everything the collaborators decide (the acquired image index, the result of
  the queue submission, what the user did with a widget) is an input of the
  frame, see `FrameInput`.
-/

namespace SDFCornell

/-! ## Handles, names and objects -/

/-- Identity of an object created by the engine; `0` is `VK_NULL_HANDLE`. -/
abbrev Handle := Nat

/-- The null handle `VK_NULL_HANDLE`. -/
def VK_NULL_HANDLE : Handle := 0

/-- The result code `VK_SUCCESS` of a Vulkan call. -/
def VK_SUCCESS : Int := 0

/-- The constant `UINT64_MAX`. -/
def UINT64_MAX : Nat := 2 ^ 64 - 1

/-- Names under which the program registers resources with the resource manager.
Each constructor stands for the string used in the source, see `ResName.str`. -/
inductive ResName where
  | renderPass
  | mainFb (i : Nat)
  | rsmPosition
  | rsmNormal
  | rsmFlux
  | rsmRenderPass
  | rsmFb
  | rsmSampler
  | vertexBuffer
  | flowerTexture
  | flowerSampler
  | descriptorLayout
  | descriptorSet (i : Nat)
  | vert
  | frag
  | pipeline
  | rsmVert
  | rsmFrag
  | rsmPipeline
  deriving DecidableEq, Repr

/-- The string of the source that a name stands for. -/
def ResName.str : ResName → String
  | .renderPass => "SDFCornell-render-pass"
  | .mainFb i => "SDFCornell-fb-" ++ toString i
  | .rsmPosition => "rsm_position"
  | .rsmNormal => "rsm_normal"
  | .rsmFlux => "rsm_flux"
  | .rsmRenderPass => "rsm-render-pass"
  | .rsmFb => "rsm-fb"
  | .rsmSampler => "rsm-sampler"
  | .vertexBuffer => "SDFCornell-vertex-buffer"
  | .flowerTexture => "flower-texture"
  | .flowerSampler => "flower-sampler"
  | .descriptorLayout => "SDFCornell_descriptor_layout"
  | .descriptorSet i => "SDFCornell_descriptor_set_" ++ toString i
  | .vert => "SDFCornell-vert"
  | .frag => "SDFCornell-frag"
  | .pipeline => "SDFCornell-pipeline"
  | .rsmVert => "rsm-vert"
  | .rsmFrag => "rsm-frag"
  | .rsmPipeline => "rsm-pipeline"

/-- The `VkObjectType` values passed to `clearResource`. -/
inductive ObjType where
  | framebuffer
  | image
  | descriptorSet
  deriving DecidableEq, Repr

/-- The image formats used by the program. -/
inductive Format where
  | r16g16b16a16Sfloat
  | r8g8b8a8Srgb
  deriving DecidableEq, Repr

/-- The image layouts used by the program. -/
inductive Layout where
  | undefined
  | shaderReadOnlyOptimal
  | presentSrc
  deriving DecidableEq, Repr

/-- What the image builder returns (`ev::ImageInfo` and the allocation). -/
structure ImageInfo where
  image : Handle
  imageView : Handle
  allocation : Handle
  deriving DecidableEq, Repr

/-- A framebuffer object: its handle and what it was built with. -/
structure Framebuffer where
  handle : Handle
  attachments : List Handle
  width : Nat
  height : Nat
  renderPass : Handle
  deriving DecidableEq, Repr

/-- The value of a `VkFramebuffer` member before it is built. -/
def Framebuffer.null : Framebuffer := ⟨VK_NULL_HANDLE, [], 0, 0, VK_NULL_HANDLE⟩

/-- A descriptor set object: its handle and what it was built with.  `images`
lists every image descriptor as (binding, image view, sampler). -/
structure DescriptorSet where
  handle : Handle
  layout : Handle
  uniformBuffer : Handle
  images : List (Nat × Handle × Handle)
  deriving DecidableEq, Repr

/-- The value of a `VkDescriptorSet` entry before it is built. -/
def DescriptorSet.null : DescriptorSet := ⟨VK_NULL_HANDLE, VK_NULL_HANDLE, VK_NULL_HANDLE, []⟩

/-- The image views a descriptor set references. -/
def DescriptorSet.views (d : DescriptorSet) : List Handle :=
  d.images.map (fun b => b.2.1)

/-! ## The uniform block -/

/-- The integer- and flag-valued members of `SDFCornellUniforms`.  A member of
type `float` that the code fills from an integer or a boolean is given by its
numeric value (`1.0f` is `1`). -/
structure SDFCornellUniforms where
  iResolution : List Nat
  iFrame : Int
  enableLights : List Int
  rsmResolution : List Nat
  rsmParams : List Nat
  debugParams : List Nat
  pbrParams0 : Nat
  deriving DecidableEq, Repr

/-! ## Calls to the collaborators -/

/-- A call made while a command buffer is recorded. -/
inductive Cmd where
  | beginCommandBuffer
  | beginRenderPass (renderPass : Handle) (framebuffer : Framebuffer)
      (extent : Nat × Nat) (clearValues : List (List ℚ))
  | bindPipeline (pipeline : Handle)
  | setViewport (width height : Nat)
  | setScissor (extent : Nat × Nat)
  | bindDescriptorSets (layout : Handle) (set : DescriptorSet)
  | bindVertexBuffers (buffer : Handle)
  | draw (vertexCount instanceCount firstVertex firstInstance : Nat)
  | endRenderPass
  | transitionImageLayout (image : Handle) (oldLayout newLayout : Layout)
  | imguiBeginFrame
  | imguiEndFrame
  | imguiRecord
  | endCommandBuffer
  deriving DecidableEq, Repr

/-- The arguments of `vkQueueSubmit`: semaphores and fence are named by the
slot index they were fetched with. -/
structure Submit where
  waitSemaphore : Nat
  signalSemaphore : Nat
  commandBuffer : Handle
  fence : Nat
  result : Int
  deriving DecidableEq, Repr

/-- A call to the engine, the window system or the device, in program order. -/
inductive Event where
  | pollEvents
  | waitForFences (slot : Nat) (waitAll : Bool) (timeout : Nat)
  | deviceWaitIdle
  | clearResource (name : ResName) (type : ObjType) (destroyed : List Handle)
  | build (name : ResName) (handle : Handle)
  | buildImage (name : ResName) (format : Format) (width height : Nat) (info : ImageInfo)
  | buildFramebuffer (name : ResName) (fb : Framebuffer)
  | buildDescriptorSet (name : ResName) (set : DescriptorSet)
  | createSwapchain (images views : List Handle)
  | createUniformBuffer (buffer allocation : Handle)
  | buildCommandBuffers (handles : List Handle)
  | acquireNextImage (semaphoreSlot : Nat) (imageIndex : Nat)
  | resetFences (slot : Nat)
  | uploadUniforms (buffer : Handle) (u : SDFCornellUniforms)
  | resetCommandBuffer (commandBuffer : Handle)
  | recordCommandBuffer (commandBuffer : Handle) (cmds : List Cmd)
  | queueSubmit (submit : Submit)
  | presentImage (imageIndex : Nat) (waitSlot : Nat)
  deriving DecidableEq, Repr

/-! ## Configuration, inputs and state -/

/-- What the collaborators fix for the whole run: the pipeline depth
`frameNum`, how many images and image views the swapchain has, its extent,
whether there is an ImGui manager, and whether `glfwInit` succeeds. -/
structure Config where
  frameNum : Nat
  swapchainImageCount : Nat
  swapchainImageViewCount : Nat
  extent : Nat × Nat
  hasImGui : Bool
  glfwInitOk : Bool
  deriving DecidableEq, Repr

/-- What the user did with the widgets of one frame.  `some v` means that the
widget wrote `v` into its variable (and, for a combo, returned true). -/
structure UiInput where
  key : Option Bool := none
  fill : Option Bool := none
  rim : Option Bool := none
  env : Option Bool := none
  enableRSM : Option Bool := none
  indirectLighting : Option Bool := none
  importanceSampling : Option Bool := none
  showRSMOnly : Option Bool := none
  showIndirectOnly : Option Bool := none
  rsmResolution : Option Int := none
  enablePBR : Option Bool := none
  material : Option Int := none
  deriving DecidableEq, Repr

/-- What the collaborators decide during one iteration of the main loop. -/
structure FrameInput where
  imageIndex : Nat
  submitResult : Int := VK_SUCCESS
  ui : UiInput := {}
  deriving DecidableEq, Repr

/-- The members of the `SDFCornell` object (first group, with the initial
values of the header) and the state of the engine (second group, from
`swapchainImages` on: what `getSwapchainImages()` and `getSwapchainImageViews()`
return, the number of the next object, the named resources, the destroyed
handles and the calls made so far). -/
structure State where
  device : Option Handle := none
  currentFrame : Nat := 0
  commandPool : Handle := VK_NULL_HANDLE
  fullscreenVertexBuffer : Handle := VK_NULL_HANDLE
  commandBuffers : List Handle := []
  framebuffers : List Framebuffer := []
  renderPass : Handle := VK_NULL_HANDLE
  pipelineLayout : Handle := VK_NULL_HANDLE
  pipeline : Handle := VK_NULL_HANDLE
  uniformBuffer : Handle := VK_NULL_HANDLE
  uniformBufferAllocation : Handle := VK_NULL_HANDLE
  descriptorSetLayout : Handle := VK_NULL_HANDLE
  descriptorSets : List DescriptorSet := []
  frameCounter : Int := 0
  enableKey : Bool := true
  enableFill : Bool := true
  enableRim : Bool := true
  enableEnv : Bool := true
  enableRSM : Bool := false
  enableIndirectLighting : Bool := true
  enableImportanceSampling : Bool := true
  rsmWidth : Nat := 1024
  rsmHeight : Nat := 1024
  rsmResolutionIndex : Int := 1
  rsmRecreatePending : Bool := false
  rsmPendingSize : Nat := 1024
  showRSMOnly : Bool := false
  showIndirectOnly : Bool := false
  enablePBR : Bool := false
  selectedMaterial : Int := 0
  rsmRenderPass : Handle := VK_NULL_HANDLE
  rsmFramebuffer : Framebuffer := Framebuffer.null
  rsmPipeline : Handle := VK_NULL_HANDLE
  rsmPipelineLayout : Handle := VK_NULL_HANDLE
  rsmPositionImage : Handle := VK_NULL_HANDLE
  rsmNormalImage : Handle := VK_NULL_HANDLE
  rsmFluxImage : Handle := VK_NULL_HANDLE
  rsmPositionAlloc : Handle := VK_NULL_HANDLE
  rsmNormalAlloc : Handle := VK_NULL_HANDLE
  rsmFluxAlloc : Handle := VK_NULL_HANDLE
  rsmPositionView : Handle := VK_NULL_HANDLE
  rsmNormalView : Handle := VK_NULL_HANDLE
  rsmFluxView : Handle := VK_NULL_HANDLE
  rsmSampler : Handle := VK_NULL_HANDLE
  flowerTexture : Handle := VK_NULL_HANDLE
  flowerTextureAllocation : Handle := VK_NULL_HANDLE
  flowerTextureView : Handle := VK_NULL_HANDLE
  flowerTextureSampler : Handle := VK_NULL_HANDLE
  swapchainImages : List Handle := []
  swapchainImageViews : List Handle := []
  nextHandle : Nat := 1
  registry : ResName → List Handle := fun _ => []
  destroyed : List Handle := []
  trace : List Event := []

/-- How a call ended: it returned, it threw a `std::runtime_error`, or it
indexed a vector out of range (undefined behaviour in the source; the model
stops there). -/
inductive Outcome where
  | ok
  | threw (what : String)
  | outOfRange
  deriving DecidableEq, Repr

/-- The state a call leaves behind together with how it ended. -/
structure Result where
  state : State
  outcome : Outcome

/-! ## The engine collaborator -/

/-- Append one call to the trace. -/
def State.log (e : Event) (s : State) : State :=
  { s with trace := s.trace ++ [e] }

/-- The resource manager destroys what is registered under `name` and forgets
the name (`resourceManager->clearResource(name, type)`). -/
def clearResource (name : ResName) (type : ObjType) (s : State) : State :=
  { s with
    registry := Function.update s.registry name [],
    destroyed := s.destroyed ++ s.registry name,
    trace := s.trace ++ [Event.clearResource name type (s.registry name)] }

/-- A builder of the resource manager that yields one handle
(`builder.build(name)` for render passes, samplers, buffers, shader modules,
pipelines and layouts). -/
def build (name : ResName) (s : State) : Handle × State :=
  (s.nextHandle,
   { s with
     nextHandle := s.nextHandle + 1,
     registry := Function.update s.registry name [s.nextHandle],
     trace := s.trace ++ [Event.build name s.nextHandle] })

/-- The image builder: creates the image, its view and its allocation
(`imgBuilder.setFormat(..).setExtent(..).setUsage(..).build(name, &alloc)`). -/
def buildImage (name : ResName) (format : Format) (width height : Nat) (s : State) :
    ImageInfo × State :=
  let info : ImageInfo := ⟨s.nextHandle, s.nextHandle + 1, s.nextHandle + 2⟩
  (info,
   { s with
     nextHandle := s.nextHandle + 3,
     registry := Function.update s.registry name [info.image, info.imageView, info.allocation],
     trace := s.trace ++ [Event.buildImage name format width height info] })

/-- The framebuffer builder
(`fb.addAttachment(..).setDimensions(w, h).build(renderPass, name)`). -/
def buildFramebuffer (name : ResName) (attachments : List Handle) (width height : Nat)
    (renderPass : Handle) (s : State) : Framebuffer × State :=
  let fb : Framebuffer := ⟨s.nextHandle, attachments, width, height, renderPass⟩
  (fb,
   { s with
     nextHandle := s.nextHandle + 1,
     registry := Function.update s.registry name [fb.handle],
     trace := s.trace ++ [Event.buildFramebuffer name fb] })

/-- The descriptor set builder
(`builder.addBinding(..)...addBufferDescriptor(0, ..).addImageDescriptor(1, ..)...build(layout, name)`). -/
def buildDescriptorSet (name : ResName) (layout uniformBuffer : Handle)
    (images : List (Nat × Handle × Handle)) (s : State) : DescriptorSet × State :=
  let d : DescriptorSet := ⟨s.nextHandle, layout, uniformBuffer, images⟩
  (d,
   { s with
     nextHandle := s.nextHandle + 1,
     registry := Function.update s.registry name [d.handle],
     trace := s.trace ++ [Event.buildDescriptorSet name d] })

/-- The C++ `std::vector::resize(count)`: keep the first `count` entries and
pad with value-initialised ones. -/
def resize {α : Type} (xs : List α) (count : Nat) (dflt : α) : List α :=
  xs.take count ++ List.replicate (count - xs.length) dflt

/-! ## Creation of the resources (`initVulkanPC` and what it calls) -/

/-- The function `SDFCornell::createRenderPass`. -/
def createRenderPass (s : State) : State :=
  let r := build .renderPass s
  { r.2 with renderPass := r.1 }

/-- The call `swapchainManager->createSwapchain()`: the swapchain manager
creates the images and one view for each. -/
def createSwapchain (cfg : Config) (s : State) : State :=
  let images := (List.range cfg.swapchainImageCount).map (fun i => s.nextHandle + i)
  let views := (List.range cfg.swapchainImageViewCount).map
    (fun i => s.nextHandle + cfg.swapchainImageCount + i)
  { s with
    swapchainImages := images,
    swapchainImageViews := views,
    nextHandle := s.nextHandle + cfg.swapchainImageCount + cfg.swapchainImageViewCount,
    trace := s.trace ++ [Event.createSwapchain images views] }

/-- One iteration of the loop of `SDFCornell::createFramebuffers`. -/
def createFramebuffer (cfg : Config) (s : State) (i : Nat) : State :=
  let r := buildFramebuffer (.mainFb i) [s.swapchainImageViews.getD i VK_NULL_HANDLE]
    cfg.extent.1 cfg.extent.2 s.renderPass s
  { r.2 with framebuffers := r.2.framebuffers.set i r.1 }

/-- The function `SDFCornell::createFramebuffers`. -/
def createFramebuffers (cfg : Config) (s : State) : State :=
  let count := s.swapchainImageViews.length
  let s := { s with framebuffers := resize s.framebuffers count Framebuffer.null }
  (List.range count).foldl (createFramebuffer cfg) s

/-- The three offscreen attachments are created at `rsmWidth x rsmHeight`
(the lambda `createAttachment`, and `recreateAttachment`, called three times). -/
def createAttachments (s : State) : State :=
  let p := buildImage .rsmPosition .r16g16b16a16Sfloat s.rsmWidth s.rsmHeight s
  let s := { p.2 with rsmPositionImage := p.1.image, rsmPositionAlloc := p.1.allocation,
                      rsmPositionView := p.1.imageView }
  let n := buildImage .rsmNormal .r16g16b16a16Sfloat s.rsmWidth s.rsmHeight s
  let s := { n.2 with rsmNormalImage := n.1.image, rsmNormalAlloc := n.1.allocation,
                      rsmNormalView := n.1.imageView }
  let f := buildImage .rsmFlux .r16g16b16a16Sfloat s.rsmWidth s.rsmHeight s
  { f.2 with rsmFluxImage := f.1.image, rsmFluxAlloc := f.1.allocation,
             rsmFluxView := f.1.imageView }

/-- The offscreen framebuffer is built over the three views ("rsm-fb"). -/
def createRSMFramebuffer (s : State) : State :=
  let r := buildFramebuffer .rsmFb [s.rsmPositionView, s.rsmNormalView, s.rsmFluxView]
    s.rsmWidth s.rsmHeight s.rsmRenderPass s
  { r.2 with rsmFramebuffer := r.1 }

/-- The function `SDFCornell::createRSMPassResources`. -/
def createRSMPassResources (s : State) : State :=
  let s := createAttachments s
  let rp := build .rsmRenderPass s
  let s := { rp.2 with rsmRenderPass := rp.1 }
  let s := createRSMFramebuffer s
  let sm := build .rsmSampler s
  { sm.2 with rsmSampler := sm.1 }

/-- The function `SDFCornell::createVertexBuffer`. -/
def createVertexBuffer (s : State) : State :=
  let r := build .vertexBuffer s
  { r.2 with fullscreenVertexBuffer := r.1 }

/-- The function `SDFCornell::createUniformBuffer`: one buffer, made by
`ev::ResourceUtils::createBuffer` and not registered under a name. -/
def createUniformBuffer (s : State) : State :=
  { s with
    uniformBuffer := s.nextHandle,
    uniformBufferAllocation := s.nextHandle + 1,
    nextHandle := s.nextHandle + 2,
    trace := s.trace ++ [Event.createUniformBuffer s.nextHandle (s.nextHandle + 1)] }

/-- The function `SDFCornell::createFlowerTexture`.  The extent of the texture
is that of the file it is loaded from and is recorded as `0 x 0`. -/
def createFlowerTexture (s : State) : State :=
  let t := buildImage .flowerTexture .r8g8b8a8Srgb 0 0 s
  let s := { t.2 with flowerTexture := t.1.image, flowerTextureView := t.1.imageView,
                      flowerTextureAllocation := t.1.allocation }
  let sm := build .flowerSampler s
  { sm.2 with flowerTextureSampler := sm.1 }

/-- The function `SDFCornell::createDescriptorSetLayout`. -/
def createDescriptorSetLayout (s : State) : State :=
  let r := build .descriptorLayout s
  { r.2 with descriptorSetLayout := r.1 }

/-- The image descriptors every descriptor set is built with: the three
offscreen views at bindings 1, 2, 3 and the flower texture at binding 4. -/
def imageDescriptors (s : State) : List (Nat × Handle × Handle) :=
  [(1, s.rsmPositionView, s.rsmSampler), (2, s.rsmNormalView, s.rsmSampler),
   (3, s.rsmFluxView, s.rsmSampler), (4, s.flowerTextureView, s.flowerTextureSampler)]

/-- One iteration of the loop of `SDFCornell::createDescriptorSets`. -/
def createDescriptorSet (s : State) (i : Nat) : State :=
  let r := buildDescriptorSet (.descriptorSet i) s.descriptorSetLayout s.uniformBuffer
    (imageDescriptors s) s
  { r.2 with descriptorSets := r.2.descriptorSets.set i r.1 }

/-- The function `SDFCornell::createDescriptorSets`. -/
def createDescriptorSets (s : State) : State :=
  let count := s.swapchainImages.length
  let s := { s with descriptorSets := resize s.descriptorSets count DescriptorSet.null }
  (List.range count).foldl createDescriptorSet s

/-- The function `SDFCornell::createPipeline`. -/
def createPipeline (s : State) : State :=
  let v := build .vert s
  let f := build .frag v.2
  let p := build .pipeline f.2
  { p.2 with pipeline := p.1, pipelineLayout := p.2.nextHandle, nextHandle := p.2.nextHandle + 1 }

/-- The function `SDFCornell::createRSMPipeline`. -/
def createRSMPipeline (s : State) : State :=
  let v := build .rsmVert s
  let f := build .rsmFrag v.2
  let p := build .rsmPipeline f.2
  { p.2 with rsmPipeline := p.1, rsmPipelineLayout := p.2.nextHandle,
             nextHandle := p.2.nextHandle + 1 }

/-- The function `SDFCornell::createCommandBuffers`: the pool if there is none
yet, then one command buffer per swapchain image view. -/
def createCommandBuffers (s : State) : State :=
  let s := if s.commandPool = VK_NULL_HANDLE then
      { s with commandPool := s.nextHandle, nextHandle := s.nextHandle + 1 }
    else s
  let count := s.swapchainImageViews.length
  let handles := (List.range count).map (fun i => s.nextHandle + i)
  { s with
    commandBuffers := handles,
    nextHandle := s.nextHandle + count,
    trace := s.trace ++ [Event.buildCommandBuffers handles] }

/-- The function `SDFCornell::initVulkanPC`.  The monitor queries, the creation
of the context, the ImGui set-up, the pointer callback and
`createFrameSynchronization(frameNum)` leave this state as it is; `device` is
what the context hands out. -/
def initVulkanPC (cfg : Config) (s : State) : Result :=
  if cfg.glfwInitOk = false then ⟨s, .threw "Failed to initialize GLFW"⟩
  else
    let s := { s with device := some s.nextHandle, nextHandle := s.nextHandle + 1 }
    let s := createSwapchain cfg s
    let s := createRenderPass s
    let s := createFramebuffers cfg s
    let s := createRSMPassResources s
    let s := createVertexBuffer s
    let s := createUniformBuffer s
    let s := createFlowerTexture s
    let s := createDescriptorSetLayout s
    let s := createDescriptorSets s
    let s := createPipeline s
    let s := createRSMPipeline s
    let s := createCommandBuffers s
    ⟨s, .ok⟩

/-- The function `SDFCornell::initVulkan`. -/
def initVulkan (cfg : Config) (s : State) : Result :=
  initVulkanPC cfg s

/-! ## Deferred resize of the offscreen targets -/

/-- The guard `device && device->getLogicalDevice() != VK_NULL_HANDLE`. -/
def deviceReady (s : State) : Bool :=
  match s.device with
  | some d => d != VK_NULL_HANDLE
  | none => false

/-- One iteration of the last loop of `SDFCornell::recreateRSMResources`: the
descriptor set of image `i` is cleared and built again. -/
def recreateDescriptorSet (s : State) (i : Nat) : State :=
  let s := clearResource (.descriptorSet i) .descriptorSet s
  let r := buildDescriptorSet (.descriptorSet i) s.descriptorSetLayout s.uniformBuffer
    (imageDescriptors s) s
  { r.2 with descriptorSets := r.2.descriptorSets.set i r.1 }

/-- The function `SDFCornell::recreateRSMResources`. -/
def recreateRSMResources (newSize : Nat) (s : State) : State :=
  let s := if deviceReady s then s.log .deviceWaitIdle else s
  let s := clearResource .rsmFb .framebuffer s
  let s := clearResource .rsmPosition .image s
  let s := clearResource .rsmNormal .image s
  let s := clearResource .rsmFlux .image s
  let s := { s with
    rsmFramebuffer := Framebuffer.null,
    rsmPositionImage := VK_NULL_HANDLE, rsmNormalImage := VK_NULL_HANDLE,
    rsmFluxImage := VK_NULL_HANDLE,
    rsmPositionView := VK_NULL_HANDLE, rsmNormalView := VK_NULL_HANDLE,
    rsmFluxView := VK_NULL_HANDLE,
    rsmPositionAlloc := VK_NULL_HANDLE, rsmNormalAlloc := VK_NULL_HANDLE,
    rsmFluxAlloc := VK_NULL_HANDLE }
  let s := { s with rsmWidth := newSize, rsmHeight := newSize }
  let s := createAttachments s
  let s := createRSMFramebuffer s
  let count := s.swapchainImages.length
  let s := { s with descriptorSets := resize s.descriptorSets count DescriptorSet.null }
  (List.range count).foldl recreateDescriptorSet s

/-- The lines of `SDFCornell::drawFrame` that apply a pending resize. -/
def applyPendingResize (s : State) : State :=
  if s.rsmRecreatePending then
    { recreateRSMResources s.rsmPendingSize s with rsmRecreatePending := false }
  else s

/-! ## The control panel -/

/-- The `switch` of the "RSM Resolution" handler. -/
def rsmSizeOfIndex (index : Int) : Nat :=
  if index = 0 then 512
  else if index = 1 then 1024
  else if index = 2 then 2048
  else if index = 3 then 4096
  else 1024

/-- The "RSM Resolution" combo and its handler: the block of
`SDFCornell::recordCommandBuffer` that starts at `int prevIndex`. -/
def rsmResolutionCombo (selection : Option Int) (s : State) : State :=
  let prevIndex := s.rsmResolutionIndex
  match selection with
  | none => s
  | some i =>
    let s := { s with rsmResolutionIndex := i }
    if s.rsmResolutionIndex ≠ prevIndex then
      { s with rsmPendingSize := rsmSizeOfIndex s.rsmResolutionIndex, rsmRecreatePending := true }
    else s

/-- A widget called with the address of a member (`ImGui::Checkbox(label, &v)`,
`ImGui::Combo(label, &v, ..)`): `some v` stores `v`, `none` leaves the state. -/
def widget {α : Type} (input : Option α) (store : α → State → State) (s : State) : State :=
  match input with
  | some v => store v s
  | none => s

/-- The two checkboxes that are shown only while `enableRSM` is set. -/
def rsmOptions (ui : UiInput) (s : State) : State :=
  if s.enableRSM then
    let s := widget ui.indirectLighting (fun b s => { s with enableIndirectLighting := b }) s
    widget ui.importanceSampling (fun b s => { s with enableImportanceSampling := b }) s
  else s

/-- The "Material" combo, shown only while `enablePBR` is set. -/
def materialCombo (ui : UiInput) (s : State) : State :=
  if s.enablePBR then widget ui.material (fun i s => { s with selectedMaterial := i }) s
  else s

/-- The widgets between `imgui->beginFrame()` and `imgui->endFrame()` that
write integer or boolean members, in the order of the source. -/
def uiControls (ui : UiInput) (s : State) : State :=
  let s := widget ui.key (fun b s => { s with enableKey := b }) s
  let s := widget ui.fill (fun b s => { s with enableFill := b }) s
  let s := widget ui.rim (fun b s => { s with enableRim := b }) s
  let s := widget ui.env (fun b s => { s with enableEnv := b }) s
  let s := widget ui.enableRSM (fun b s => { s with enableRSM := b }) s
  let s := rsmOptions ui s
  let s := widget ui.showRSMOnly (fun b s => { s with showRSMOnly := b }) s
  let s := widget ui.showIndirectOnly (fun b s => { s with showIndirectOnly := b }) s
  let s := rsmResolutionCombo ui.rsmResolution s
  let s := widget ui.enablePBR (fun b s => { s with enablePBR := b }) s
  materialCombo ui s

/-- The block `if (auto* imgui = context->getImGuiManager())` of
`SDFCornell::recordCommandBuffer`, as far as it changes members. -/
def controlPanel (cfg : Config) (ui : UiInput) (s : State) : State :=
  if cfg.hasImGui then uiControls ui s else s

/-! ## One frame -/

/-- The uniform block that `SDFCornell::updateUniformBuffer` fills. -/
def buildUniforms (cfg : Config) (s : State) : SDFCornellUniforms :=
  { iResolution := [cfg.extent.1, cfg.extent.2],
    iFrame := s.frameCounter,
    enableLights := [if s.enableKey then 1 else 0, if s.enableFill then 1 else 0,
                     if s.enableRim then 1 else 0, if s.enableEnv then 1 else 0],
    rsmResolution := [s.rsmWidth, s.rsmHeight, 0, 0],
    rsmParams := [6, 32, if s.enableRSM && s.enableIndirectLighting then 1 else 0,
                  if s.enableRSM then 1 else 0],
    debugParams := [if s.showRSMOnly then 1 else 0, if s.enableImportanceSampling then 1 else 0,
                    if s.showIndirectOnly then 1 else 0, 0],
    pbrParams0 := if s.enablePBR then 1 else 0 }

/-- The function `SDFCornell::updateUniformBuffer`: the block is filled from
the members and uploaded into the one uniform buffer.  The argument is unused,
as in the source. -/
def updateUniformBuffer (cfg : Config) (_imageIndex : Nat) (s : State) : State :=
  s.log (.uploadUniforms s.uniformBuffer (buildUniforms cfg s))

/-- The offscreen part of `SDFCornell::recordCommandBuffer`: the RSM pass if
`enableRSM`, otherwise the three layout transitions. -/
def offscreenCmds (s : State) (imageIndex : Nat) : List Cmd :=
  if s.enableRSM then
    [ .beginRenderPass s.rsmRenderPass s.rsmFramebuffer (s.rsmWidth, s.rsmHeight)
        [[0, 0, 0, 0], [0, 0, 0, 0], [0, 0, 0, 0]],
      .bindPipeline s.rsmPipeline,
      .setViewport s.rsmWidth s.rsmHeight,
      .setScissor (s.rsmWidth, s.rsmHeight),
      .bindDescriptorSets s.rsmPipelineLayout (s.descriptorSets.getD imageIndex DescriptorSet.null),
      .bindVertexBuffers s.fullscreenVertexBuffer,
      .draw 4 1 0 0,
      .endRenderPass ]
  else
    [ .transitionImageLayout s.rsmPositionImage .undefined .shaderReadOnlyOptimal,
      .transitionImageLayout s.rsmNormalImage .undefined .shaderReadOnlyOptimal,
      .transitionImageLayout s.rsmFluxImage .undefined .shaderReadOnlyOptimal ]

/-- The main pass of `SDFCornell::recordCommandBuffer`, up to its draw call. -/
def mainPassCmds (cfg : Config) (s : State) (imageIndex : Nat) : List Cmd :=
  [ .beginRenderPass s.renderPass (s.framebuffers.getD imageIndex Framebuffer.null) cfg.extent
      [[3 / 100, 5 / 100, 9 / 100, 1]],
    .bindPipeline s.pipeline,
    .setViewport cfg.extent.1 cfg.extent.2,
    .setScissor cfg.extent,
    .bindDescriptorSets s.pipelineLayout (s.descriptorSets.getD imageIndex DescriptorSet.null),
    .bindVertexBuffers s.fullscreenVertexBuffer,
    .draw 4 1 0 0 ]

/-- The calls of the overlay, made if there is an ImGui manager. -/
def uiCmds (cfg : Config) : List Cmd :=
  if cfg.hasImGui then [.imguiBeginFrame, .imguiEndFrame, .imguiRecord] else []

/-- The calls of `SDFCornell::recordCommandBuffer` on the command buffer, from
`vkBeginCommandBuffer` to `vkEndCommandBuffer`. -/
def recordedCmds (cfg : Config) (s : State) (imageIndex : Nat) : List Cmd :=
  [Cmd.beginCommandBuffer] ++ offscreenCmds s imageIndex ++ mainPassCmds cfg s imageIndex
    ++ uiCmds cfg ++ [.endRenderPass, .endCommandBuffer]

/-- The function `SDFCornell::recordCommandBuffer`, called with an index that
is in range.  The calls from `vkBeginCommandBuffer` to `vkEndCommandBuffer`
are one entry of the trace; the widgets run after the main draw call and
change members only. -/
def recordCommandBuffer (cfg : Config) (ui : UiInput) (imageIndex : Nat) (s : State) : State :=
  let cmd := s.commandBuffers.getD imageIndex VK_NULL_HANDLE
  let cmds := recordedCmds cfg s imageIndex
  let s := controlPanel cfg ui s
  s.log (.recordCommandBuffer cmd cmds)

/-- The increment of the `int` member `frameCounter`, wrapping at 32 bits. -/
def incrementInt32 (x : Int) : Int :=
  (x + 1 + 2 ^ 31) % 2 ^ 32 - 2 ^ 31

/-- The function `SDFCornell::drawFrame`. -/
def drawFrame (cfg : Config) (inp : FrameInput) (s : State) : Result :=
  let inFlight := s.currentFrame
  let s := s.log (.waitForFences inFlight true UINT64_MAX)
  let s := applyPendingResize s
  let imageIndex := inp.imageIndex
  let s := s.log (.acquireNextImage s.currentFrame imageIndex)
  let s := s.log (.resetFences inFlight)
  let s := updateUniformBuffer cfg imageIndex s
  if imageIndex < s.commandBuffers.length ∧ imageIndex < s.framebuffers.length
      ∧ imageIndex < s.descriptorSets.length then
    let s := s.log (.resetCommandBuffer (s.commandBuffers.getD imageIndex VK_NULL_HANDLE))
    let s := recordCommandBuffer cfg inp.ui imageIndex s
    let s := s.log (.queueSubmit
      { waitSemaphore := s.currentFrame, signalSemaphore := s.currentFrame,
        commandBuffer := s.commandBuffers.getD imageIndex VK_NULL_HANDLE,
        fence := inFlight, result := inp.submitResult })
    if inp.submitResult ≠ VK_SUCCESS then
      ⟨s, .threw "failed to submit command buffer!"⟩
    else
      let s := s.log (.presentImage imageIndex s.currentFrame)
      let s := { s with currentFrame := (s.currentFrame + 1) % 2 ^ 32 % cfg.frameNum }
      let s := { s with frameCounter := incrementInt32 s.frameCounter }
      ⟨s, .ok⟩
  else ⟨s, .outOfRange⟩

/-! ## The main loop and the program -/

/-- The `while` loop of `SDFCornell::mainLoop`: one entry of the list for every
iteration in which `glfwWindowShouldClose` returned false. -/
def frames (cfg : Config) : List FrameInput → State → Result
  | [], s => ⟨s, .ok⟩
  | inp :: rest, s =>
    let r := drawFrame cfg inp (s.log .pollEvents)
    match r.outcome with
    | .ok => frames cfg rest r.state
    | _ => r

/-- The function `SDFCornell::mainLoop`: the loop, then `vkDeviceWaitIdle`. -/
def mainLoop (cfg : Config) (inputs : List FrameInput) (s : State) : Result :=
  let r := frames cfg inputs s
  match r.outcome with
  | .ok => ⟨r.state.log .deviceWaitIdle, .ok⟩
  | _ => r

/-- The function `SDFCornell::run`. -/
def run (cfg : Config) (inputs : List FrameInput) (s : State) : Result :=
  let r := initVulkan cfg s
  match r.outcome with
  | .ok => mainLoop cfg inputs r.state
  | _ => r


/-! ## The `float` members and the `float` part of the uniform block

The arithmetic of `SDFCornell::updateUniformBuffer` on `float` values is kept
as it is written.  It is generic in the number type `α`: over the real numbers
it is the exact arithmetic of the formulas, over the rational numbers it can be
evaluated.  The functions `std::sin`, `std::cos` and `std::sqrt` are arguments.
These definitions do not round; the same lines with the rounding of binary32
are the definitions of the next section, whose names end in `32`. -/

/-- A `float[3]`: `x`, `y`, `z` are the entries `[0]`, `[1]`, `[2]`. -/
structure Vec3 (α : Type) where
  x : α
  y : α
  z : α
  deriving DecidableEq, Repr

/-- A `float[4]` member of the uniform block: `x`, `y`, `z`, `w` are the
entries `[0]`, `[1]`, `[2]`, `[3]`. -/
structure Vec4 (α : Type) where
  x : α
  y : α
  z : α
  w : α
  deriving DecidableEq, Repr

/-- The functions of `<cmath>` that `updateUniformBuffer` calls. -/
structure CMath (α : Type) where
  sin : α → α
  cos : α → α
  sqrt : α → α

/-- The `float` members of the object that `updateUniformBuffer` uses for the
rotation and for the light; `virtualStick` is `(virtualStick[0], virtualStick[1])`. -/
structure FloatMembers (α : Type) where
  rotationEuler : Vec3 α
  rotationAnimSpeed : α
  virtualStick : α × α
  keyIntensity : α
  lightElevation : α
  lightAzimuth : α
  deriving DecidableEq, Repr

/-- The members of `SDFCornellUniforms` that hold the rotation and the light. -/
structure LightUniforms (α : Type) where
  sphereRotation : Vec4 α
  lightDir : Vec4 α
  lightRight : Vec4 α
  lightUp : Vec4 α
  lightOrigin : Vec4 α
  deriving DecidableEq, Repr

/-- The two lines `rotationEuler[0] += virtualStick[1] * 0.02f;` and
`rotationEuler[1] += virtualStick[0] * 0.02f;` over exact arithmetic, the
literal standing for `0.02`; see `integrateRotation32` for binary32. -/
def integrateRotation {α : Type} [Field α] (f : FloatMembers α) : FloatMembers α :=
  { f with
    rotationEuler :=
      ⟨f.rotationEuler.x + f.virtualStick.2 * (2 / 100),
       f.rotationEuler.y + f.virtualStick.1 * (2 / 100),
       f.rotationEuler.z⟩ }

/-- The array `dir` before it is normalised: the spherical coordinates
`lightElevation`, `lightAzimuth` as a vector. -/
def sphericalDirection {α : Type} [Field α] (m : CMath α) (lightElevation lightAzimuth : α) :
    Vec3 α :=
  let cosElevation := m.cos lightElevation
  ⟨cosElevation * m.sin lightAzimuth, m.sin lightElevation, cosElevation * m.cos lightAzimuth⟩

/-- The array `dir` of `updateUniformBuffer` after `dir[i] /= len`. -/
def lightDirection {α : Type} [Field α] (m : CMath α) (lightElevation lightAzimuth : α) :
    Vec3 α :=
  let dir := sphericalDirection m lightElevation lightAzimuth
  let len := m.sqrt (dir.x * dir.x + dir.y * dir.y + dir.z * dir.z)
  ⟨dir.x / len, dir.y / len, dir.z / len⟩

/-- The array `upCand`: `(0, 1, 0)`, replaced by `(1, 0, 0)` if `std::abs(Ly) > 0.95f`. -/
def upCandidate {α : Type} [LinearOrderedField α] (Ly : α) : Vec3 α :=
  if |Ly| > 95 / 100 then ⟨1, 0, 0⟩ else ⟨0, 1, 0⟩

/-- The cross product `cross(upCand, L)` as the code writes it out (`rx`, `ry`,
`rz` before the division). -/
def crossWithCandidate {α : Type} [LinearOrderedField α] (L : Vec3 α) : Vec3 α :=
  let upCand := upCandidate L.y
  ⟨upCand.y * L.z - upCand.z * L.y, upCand.z * L.x - upCand.x * L.z,
   upCand.x * L.y - upCand.y * L.x⟩

/-- The value `rlen` over exact arithmetic: the length of the cross product
plus `1e-8`; see `rightLength32` for binary32. -/
def rightLength {α : Type} [LinearOrderedField α] (m : CMath α) (L : Vec3 α) : α :=
  let r := crossWithCandidate L
  m.sqrt (r.x * r.x + r.y * r.y + r.z * r.z) + 1 / 10 ^ 8

/-- The basis of the light camera: `(rx, ry, rz)` after the division by `rlen`,
and `(ux, uy, uz)`, for the light direction `L = (Lx, Ly, Lz)`. -/
def lightBasis {α : Type} [LinearOrderedField α] (m : CMath α) (L : Vec3 α) : Vec3 α × Vec3 α :=
  let r := crossWithCandidate L
  let rlen := rightLength m L
  let rx := r.x / rlen
  let ry := r.y / rlen
  let rz := r.z / rlen
  let ux := L.y * rz - L.z * ry
  let uy := L.z * rx - L.x * rz
  let uz := L.x * ry - L.y * rx
  (⟨rx, ry, rz⟩, ⟨ux, uy, uz⟩)

/-- The member `lightOrigin` for the light direction `L`. -/
def lightOrigin {α : Type} [Field α] (L : Vec3 α) : Vec4 α :=
  let originDist : α := 6
  ⟨-L.x * originDist, -L.y * originDist, -L.z * originDist, 1⟩

/-- The `float` part of `SDFCornell::updateUniformBuffer`, called at `t`
seconds after the start: the rotation is integrated, then the members of the
uniform block for rotation and light are filled.  Returns the members after
the call and what is uploaded. -/
def updateUniformFloats {α : Type} [LinearOrderedField α] (m : CMath α) (t : α)
    (f : FloatMembers α) : FloatMembers α × LightUniforms α :=
  let f := integrateRotation f
  let dir := lightDirection m f.lightElevation f.lightAzimuth
  let basis := lightBasis m dir
  (f,
   { sphereRotation :=
       ⟨f.rotationEuler.x, f.rotationEuler.y, f.rotationEuler.z, t * f.rotationAnimSpeed⟩,
     lightDir := ⟨dir.x, dir.y, dir.z, f.keyIntensity⟩,
     lightRight := ⟨basis.1.x, basis.1.y, basis.1.z, 0⟩,
     lightUp := ⟨basis.2.x, basis.2.y, basis.2.z, 0⟩,
     lightOrigin := lightOrigin dir })

/-- The first three entries of a `float[4]`. -/
def Vec4.xyz {α : Type} (v : Vec4 α) : Vec3 α :=
  ⟨v.x, v.y, v.z⟩

/-- The dot product. -/
def Vec3.dot {α : Type} [Field α] (a b : Vec3 α) : α :=
  a.x * b.x + a.y * b.y + a.z * b.z

/-- The cross product. -/
def Vec3.cross {α : Type} [Field α] (a b : Vec3 α) : Vec3 α :=
  ⟨a.y * b.z - a.z * b.y, a.z * b.x - a.x * b.z, a.x * b.y - a.y * b.x⟩

/-! ## Binary32 arithmetic

The type `float` of the source is the IEEE 754 binary32 format.  A finite
binary32 number is a rational number, and every operation of the source on
`float` values returns the binary32 number nearest to the exact result, a tie
going to the even significand.  The definitions below have the same shape as
those above, with every operation rounded in this way, one operation at a
time (no fused multiply-add).  Overflow is not modelled: the exponent has no
upper limit here, and the model is that of the code as long as no result
exceeds `FLT_MAX` in absolute value. -/

/-- What ImGui reports to the light-direction widget in one frame:
`ImGui::GetCursorScreenPos()`, the mouse position if the invisible button is
active and the left button is dragging, and whether "Reset Light" was pressed. -/
structure LightInput (α : Type) where
  canvas_pos : α × α
  drag : Option (α × α)
  reset : Bool
  deriving DecidableEq, Repr

/-- The value `circle_center`, for `canvas_size = (120, 120)`. -/
def circleCenter {α : Type} [Field α] (canvas_pos : α × α) : α × α :=
  (canvas_pos.1 + 120 * (5 / 10), canvas_pos.2 + 120 * (5 / 10))

/-- The value `circle_radius`: `canvas_size.x * 0.4f`. -/
def circleRadius {α : Type} [Field α] : α :=
  120 * (4 / 10)

/-- The point `(light_x, light_y)` at which the indicator is drawn. -/
def lightIndicator {α : Type} [Field α] (canvas_pos : α × α) (f : FloatMembers α) : α × α :=
  let circle_center := circleCenter canvas_pos
  let circle_radius : α := circleRadius
  (circle_center.1 + (f.lightAzimuth / (314 / 100)) * circle_radius * (8 / 10),
   circle_center.2 - (f.lightElevation / (157 / 100)) * circle_radius * (8 / 10))

/-- The values `rel_x`, `rel_y` before the clamp: the offset of the mouse from
the centre, scaled by `circle_radius * 0.8f`, with the vertical axis pointing up. -/
def scaledOffset {α : Type} [Field α] (canvas_pos mouse_pos : α × α) : α × α :=
  let circle_center := circleCenter canvas_pos
  let circle_radius : α := circleRadius
  ((mouse_pos.1 - circle_center.1) / (circle_radius * (8 / 10)),
   (circle_center.2 - mouse_pos.2) / (circle_radius * (8 / 10)))

/-- The handler of a drag: the offset is clamped to the unit circle and stored
as the two angles. -/
def dragLight {α : Type} [LinearOrderedField α] (m : CMath α) (canvas_pos mouse_pos : α × α)
    (f : FloatMembers α) : FloatMembers α :=
  let rel := scaledOffset canvas_pos mouse_pos
  let dist := m.sqrt (rel.1 * rel.1 + rel.2 * rel.2)
  let rel := if dist > 1 then (rel.1 / dist, rel.2 / dist) else rel
  { f with lightAzimuth := rel.1 * (314 / 100), lightElevation := rel.2 * (157 / 100) }

/-- The light-direction widget and the button "Reset Light" in one frame. -/
def lightControl {α : Type} [LinearOrderedField α] (m : CMath α) (inp : LightInput α)
    (f : FloatMembers α) : FloatMembers α :=
  let f := match inp.drag with
    | some mouse_pos => dragLight m inp.canvas_pos mouse_pos f
    | none => f
  if inp.reset then { f with lightElevation := 8 / 10, lightAzimuth := -(7 / 10) } else f

/-- The `float` members over a sequence of frames: every frame runs
`updateUniformBuffer` at its time and then, while the command buffer is
recorded, the widget. -/
def lightFrames {α : Type} [LinearOrderedField α] (m : CMath α)
    (steps : List (α × LightInput α)) (f : FloatMembers α) : FloatMembers α :=
  steps.foldl (fun members p => lightControl m p.2 (updateUniformFloats m p.1 members).1) f

/-! ## The pointer in the simplest variant (`SDF2D`) -/

/-- A data member of a struct: its name, its size in bytes and its alignment. -/
structure Member where
  name : String
  size : Nat
  align : Nat
  deriving DecidableEq, Repr

/-- The next multiple of `align` that is not below `offset`. -/
def alignUp (offset align : Nat) : Nat :=
  (offset + align - 1) / align * align

/-- The byte offsets of the members of a struct laid out from `offset` on, by
the layout rule of the C++ ABIs: the members follow one another in the order
of their declaration, each at the next multiple of its alignment. -/
def layoutFrom (offset : Nat) : List Member → List (String × Nat)
  | [] => []
  | m :: rest => (m.name, alignUp offset m.align) :: layoutFrom (alignUp offset m.align + m.size) rest

/-- The first byte after the last member. -/
def layoutEnd (offset : Nat) : List Member → Nat
  | [] => offset
  | m :: rest => layoutEnd (alignUp offset m.align + m.size) rest

/-- The size of the struct: the end of the last member, rounded up to the
largest alignment of a member. -/
def structSize (members : List Member) : Nat :=
  alignUp (layoutEnd 0 members) (members.foldl (fun a m => max a m.align) 1)

/-- The members of `SDFCornellUniforms` as the header declares them, with
`sizeof(float) = sizeof(int) = 4`: `float[n]` has `4 n` bytes, and the
alignment is that of the `alignas` specifier. -/
def uniformMembers : List Member :=
  [ ⟨"iTime", 4, 16⟩, ⟨"iResolution", 8, 8⟩, ⟨"iMouse", 8, 8⟩, ⟨"iFrame", 4, 4⟩,
    ⟨"sphereRotation", 16, 16⟩, ⟨"sphereColor", 16, 16⟩, ⟨"enableLights", 16, 16⟩,
    ⟨"lightDir", 16, 16⟩, ⟨"lightColors", 48, 16⟩, ⟨"ambientColor", 16, 16⟩,
    ⟨"shadowParams", 16, 16⟩, ⟨"lightRight", 16, 16⟩, ⟨"lightUp", 16, 16⟩,
    ⟨"lightOrigin", 16, 16⟩, ⟨"lightOrthoHalfSize", 16, 16⟩, ⟨"rsmResolution", 16, 16⟩,
    ⟨"rsmParams", 16, 16⟩, ⟨"indirectParams", 16, 16⟩, ⟨"debugParams", 16, 16⟩,
    ⟨"pbrParams", 16, 16⟩, ⟨"roughnessValues", 8, 16⟩, ⟨"metallicValues", 8, 16⟩,
    ⟨"baseColorFactors", 16, 16⟩ ]

/-- The block as the specification describes it for the shader: the same
members, the first four with the base alignments of `float`, `vec2`, `vec2`
and `int` (4, 8, 8, 4), every later one aligned like a `vec4`. -/
def blockMembers : List Member :=
  [ ⟨"iTime", 4, 4⟩, ⟨"iResolution", 8, 8⟩, ⟨"iMouse", 8, 8⟩, ⟨"iFrame", 4, 4⟩ ]
    ++ (uniformMembers.drop 4).map (fun m => { m with align := 16 })

/-! ## The pointer callback of `SDFCornell` -/

/-- The descriptor set built for image `i` by a loop that starts in `s`: the
handle is the `i`-th new one, the descriptors are those of `s`. -/
def rebuiltSet (s : State) (i : Nat) : DescriptorSet :=
  ⟨s.nextHandle + i, s.descriptorSetLayout, s.uniformBuffer, imageDescriptors s⟩

/-- The calls of `n` iterations of the rebuild loop started in `s`. -/
def rebuildEvents (s : State) (n : Nat) : List Event :=
  (List.range n).flatMap (fun i =>
    [Event.clearResource (.descriptorSet i) .descriptorSet (s.registry (.descriptorSet i)),
     Event.buildDescriptorSet (.descriptorSet i) (rebuiltSet s i)])

/-- The named resources after `n` iterations of a loop started in `s` that
registers the `i`-th new handle as descriptor set `i`. -/
def rebuildRegistry (s : State) (n : Nat) : ResName → List Handle :=
  fun name => match name with
    | .descriptorSet i => if i < n then [s.nextHandle + i] else s.registry name
    | _ => s.registry name

/-- The descriptor set that `recreateRSMResources`, started in `s`, builds for
image `i`: the three new views at bindings 1, 2, 3. -/
def recreatedSet (s : State) (i : Nat) : DescriptorSet :=
  ⟨s.nextHandle + 10 + i, s.descriptorSetLayout, s.uniformBuffer,
    [(1, s.nextHandle + 1, s.rsmSampler), (2, s.nextHandle + 4, s.rsmSampler),
     (3, s.nextHandle + 7, s.rsmSampler), (4, s.flowerTextureView, s.flowerTextureSampler)]⟩

/-- The framebuffer that `recreateRSMResources newSize`, started in `s`, builds. -/
def recreatedFramebuffer (newSize : Nat) (s : State) : Framebuffer :=
  ⟨s.nextHandle + 9, [s.nextHandle + 1, s.nextHandle + 4, s.nextHandle + 7], newSize, newSize,
    s.rsmRenderPass⟩

/-- The calls that tear the offscreen targets down: the four `clearResource`
calls at the start of `recreateRSMResources`, started in `s`. -/
def teardownEvents (s : State) : List Event :=
  [ .clearResource .rsmFb .framebuffer (s.registry .rsmFb),
    .clearResource .rsmPosition .image (s.registry .rsmPosition),
    .clearResource .rsmNormal .image (s.registry .rsmNormal),
    .clearResource .rsmFlux .image (s.registry .rsmFlux) ]

/-- The calls that create the offscreen targets again at `newSize`. -/
def creationEvents (newSize : Nat) (s : State) : List Event :=
  [ .buildImage .rsmPosition .r16g16b16a16Sfloat newSize newSize
      ⟨s.nextHandle, s.nextHandle + 1, s.nextHandle + 2⟩,
    .buildImage .rsmNormal .r16g16b16a16Sfloat newSize newSize
      ⟨s.nextHandle + 3, s.nextHandle + 4, s.nextHandle + 5⟩,
    .buildImage .rsmFlux .r16g16b16a16Sfloat newSize newSize
      ⟨s.nextHandle + 6, s.nextHandle + 7, s.nextHandle + 8⟩,
    .buildFramebuffer .rsmFb (recreatedFramebuffer newSize s) ]

/-- The calls that rebuild the descriptor set of every swapchain image. -/
def descriptorRebuildEvents (s : State) : List Event :=
  (List.range s.swapchainImages.length).flatMap (fun i =>
    [ Event.clearResource (.descriptorSet i) .descriptorSet (s.registry (.descriptorSet i)),
      Event.buildDescriptorSet (.descriptorSet i) (recreatedSet s i) ])

/-- The calls of `recreateRSMResources newSize` started in `s`, in order. -/
def recreateEvents (newSize : Nat) (s : State) : List Event :=
  (if deviceReady s then [Event.deviceWaitIdle] else [])
    ++ teardownEvents s ++ creationEvents newSize s ++ descriptorRebuildEvents s

/-- The handles that `recreateRSMResources`, started in `s`, destroys. -/
def recreateDestroyed (s : State) : List Handle :=
  s.registry .rsmFb ++ s.registry .rsmPosition ++ s.registry .rsmNormal ++ s.registry .rsmFlux
    ++ (List.range s.swapchainImages.length).flatMap (fun i => s.registry (.descriptorSet i))

/-- The named resources after `recreateRSMResources`, started in `s`. -/
def recreateRegistry (s : State) : ResName → List Handle :=
  fun name => match name with
    | .rsmFb => [s.nextHandle + 9]
    | .rsmPosition => [s.nextHandle, s.nextHandle + 1, s.nextHandle + 2]
    | .rsmNormal => [s.nextHandle + 3, s.nextHandle + 4, s.nextHandle + 5]
    | .rsmFlux => [s.nextHandle + 6, s.nextHandle + 7, s.nextHandle + 8]
    | .descriptorSet i =>
      if i < s.swapchainImages.length then [s.nextHandle + 10 + i] else s.registry name
    | _ => s.registry name

/-- The size that the "RSM Resolution" handler records for a selection, if it
records a request at all: it does so when the selected index differs from the
index held before. -/
def resizeRequest (selection : Option Int) (s : State) : Option Nat :=
  match selection with
  | some i => if i ≠ s.rsmResolutionIndex then some (rsmSizeOfIndex i) else none
  | none => none

/-- The calls of the deferred resize at the start of a frame that starts in
`s`: those of `recreateRSMResources` if a resize is pending, none otherwise. -/
def resizeEvents (s : State) : List Event :=
  if s.rsmRecreatePending then recreateEvents s.rsmPendingSize s else []

/-- The acquired image index is in range for the three vectors that
`drawFrame` and `recordCommandBuffer` index with it. -/
def indexInRange (imageIndex : Nat) (s : State) : Prop :=
  imageIndex < s.commandBuffers.length ∧ imageIndex < s.framebuffers.length
    ∧ imageIndex < s.descriptorSets.length

instance (imageIndex : Nat) (s : State) : Decidable (indexInRange imageIndex s) := by
  unfold indexInRange; infer_instance

/-- The calls of a frame that starts in `s`, up to the upload of the uniform block. -/
def frameHead (cfg : Config) (inp : FrameInput) (s : State) : List Event :=
  [Event.waitForFences s.currentFrame true UINT64_MAX] ++ resizeEvents s ++
    [ .acquireNextImage s.currentFrame inp.imageIndex,
      .resetFences s.currentFrame,
      .uploadUniforms s.uniformBuffer (buildUniforms cfg (applyPendingResize s)) ]

/-- The command buffer that a frame starting in `s` records and submits. -/
def frameCommandBuffer (inp : FrameInput) (s : State) : Handle :=
  s.commandBuffers.getD inp.imageIndex VK_NULL_HANDLE

/-- The submission of a frame that starts in `s`. -/
def frameSubmit (inp : FrameInput) (s : State) : Submit :=
  { waitSemaphore := s.currentFrame, signalSemaphore := s.currentFrame,
    commandBuffer := frameCommandBuffer inp s, fence := s.currentFrame,
    result := inp.submitResult }

/-- The calls of a frame that starts in `s`, from the reset of the command
buffer to the submission. -/
def frameBody (cfg : Config) (inp : FrameInput) (s : State) : List Event :=
  [ .resetCommandBuffer (frameCommandBuffer inp s),
    .recordCommandBuffer (frameCommandBuffer inp s)
      (recordedCmds cfg (applyPendingResize s) inp.imageIndex),
    .queueSubmit (frameSubmit inp s) ]

/-- The state `s` with the trace replaced by `t`. -/
def State.withTrace (t : List Event) (s : State) : State :=
  { s with trace := t }

/-- The call is `presentImage`. -/
def Event.isPresent : Event → Bool
  | .presentImage _ _ => true
  | _ => false

/-- The call is `vkQueueSubmit`. -/
def Event.isSubmit : Event → Bool
  | .queueSubmit _ => true
  | _ => false

/-- The call creates or destroys a resource or waits for the device to be
idle: every call that `recreateRSMResources` makes is of this kind. -/
def Event.isResourceCall : Event → Bool
  | .deviceWaitIdle => true
  | .clearResource _ _ _ => true
  | .build _ _ => true
  | .buildImage _ _ _ _ _ => true
  | .buildFramebuffer _ _ => true
  | .buildDescriptorSet _ _ => true
  | .createSwapchain _ _ => true
  | .createUniformBuffer _ _ => true
  | .buildCommandBuffers _ => true
  | _ => false

/-- The calls that `f` adds to the trace of `s`. -/
def callsOf (f : State → State) (s : State) : List Event :=
  (f s).trace.drop s.trace.length

/-- The index selected last in a sequence of uses of the "RSM Resolution"
combo that starts with the selection `first`. -/
def lastSelected (first : Int) (more : List (Option Int)) : Int :=
  (more.filterMap id).getLast?.getD first

/-- The state after the combo handler has run for `first` and then, in order,
for every entry of `more`, with no frame in between. -/
def selectAll (first : Int) (more : List (Option Int)) (s : State) : State :=
  more.foldl (fun st sel => rsmResolutionCombo sel st) (rsmResolutionCombo (some first) s)

/-- The recorded call begins a render pass instance. -/
def Cmd.isBeginRenderPass : Cmd → Bool
  | .beginRenderPass _ _ _ _ => true
  | _ => false

/-- The calls of one call of `drawFrame` that starts in `s`. -/
def frameCalls (cfg : Config) (inp : FrameInput) (s : State) : List Event :=
  callsOf (fun st => (drawFrame cfg inp st).state) s

/-- The size of the offscreen framebuffer that a call builds, if the call
builds the framebuffer "rsm-fb". -/
def Event.rsmFramebufferSize : Event → Option (Nat × Nat)
  | .buildFramebuffer .rsmFb fb => some (fb.width, fb.height)
  | _ => none

/-- The state with the trace, the slot index, the frame counter and the
members written by the control panel blanked: what is left are the resources. -/
def State.resources (s : State) : State :=
  { s with
    trace := [], currentFrame := 0, frameCounter := 0,
    enableKey := false, enableFill := false, enableRim := false, enableEnv := false,
    enableRSM := false, enableIndirectLighting := false, enableImportanceSampling := false,
    showRSMOnly := false, showIndirectOnly := false, rsmResolutionIndex := 0,
    rsmPendingSize := 0, rsmRecreatePending := false, enablePBR := false,
    selectedMaterial := 0 }

/-! ## Invariants of the engine state and of the resources -/

/-- The bookkeeping of a resource manager is consistent: destroyed and
registered handles are numbers already handed out, no handle is registered
under two names, and no registered handle is destroyed. -/
structure EngOK (next : Nat) (registry : ResName → List Handle) (destroyed : List Handle) :
    Prop where
  destroyed_lt : ∀ h ∈ destroyed, h < next
  registry_lt : ∀ name, ∀ h ∈ registry name, h < next
  registry_inj : ∀ n1 n2 h, h ∈ registry n1 → h ∈ registry n2 → n1 = n2
  registry_live : ∀ name, ∀ h ∈ registry name, h ∉ destroyed

/-- The bookkeeping of the resource manager in state `s` is consistent. -/
def EngineInv (s : State) : Prop :=
  EngOK s.nextHandle s.registry s.destroyed

/-- The handle was handed out, is not destroyed and is not a named resource. -/
def UnregOK (next : Nat) (registry : ResName → List Handle) (destroyed : List Handle)
    (v : Handle) : Prop :=
  v < next ∧ v ∉ destroyed ∧ ∀ name, v ∉ registry name

/-- The handle was handed out, is not destroyed and is not a named resource
of the resource manager in state `s` (a swapchain image view). -/
def Unregistered (s : State) (v : Handle) : Prop :=
  UnregOK s.nextHandle s.registry s.destroyed v

/-- The members agree with the resource manager: every offscreen object, every
descriptor set and every framebuffer the members hold is the one registered
under its name, every descriptor set holds the live offscreen views and the
flower texture view, and the device is there. -/
structure Inv (s : State) : Prop where
  engine : EngineInv s
  device : deviceReady s = true
  fb : s.registry .rsmFb = [s.rsmFramebuffer.handle]
  fbAttachments :
    s.rsmFramebuffer.attachments = [s.rsmPositionView, s.rsmNormalView, s.rsmFluxView]
  position : s.registry .rsmPosition = [s.rsmPositionImage, s.rsmPositionView, s.rsmPositionAlloc]
  normal : s.registry .rsmNormal = [s.rsmNormalImage, s.rsmNormalView, s.rsmNormalAlloc]
  flux : s.registry .rsmFlux = [s.rsmFluxImage, s.rsmFluxView, s.rsmFluxAlloc]
  setsLength : s.descriptorSets.length = s.swapchainImages.length
  sets : ∀ (i : Nat) (h : i < s.descriptorSets.length),
    s.registry (.descriptorSet i) = [s.descriptorSets[i].handle]
      ∧ s.descriptorSets[i].images = imageDescriptors s
  flower : s.flowerTextureView ∈ s.registry .flowerTexture
  mainFbs : ∀ (i : Nat) (h : i < s.framebuffers.length),
    s.registry (.mainFb i) = [s.framebuffers[i].handle]
      ∧ ∀ a ∈ s.framebuffers[i].attachments, a ∈ s.swapchainImageViews
  views : ∀ v ∈ s.swapchainImageViews, Unregistered s v

/-- The framebuffer that `createFramebuffers`, with its loop started in `s`,
builds for swapchain image view `i`. -/
def builtFramebuffer (cfg : Config) (s : State) (i : Nat) : Framebuffer :=
  ⟨s.nextHandle + i, [s.swapchainImageViews.getD i VK_NULL_HANDLE], cfg.extent.1, cfg.extent.2,
    s.renderPass⟩

/-- The named resources after `n` iterations of a loop started in `s` that
registers the `i`-th new handle as swapchain framebuffer `i`. -/
def framebufferRegistry (s : State) (n : Nat) : ResName → List Handle :=
  fun name => match name with
    | .mainFb i => if i < n then [s.nextHandle + i] else s.registry name
    | _ => s.registry name

/-! ## The state after `initVulkan`

Handles are numbered in creation order: the device is 1, then come the
swapchain images and views, the render pass, the swapchain framebuffers, the
offscreen resources, the buffers, the flower texture, the descriptor sets, the
pipelines and the command buffers. -/

/-- The handle of the main render pass after `initVulkan`. -/
def initBase (cfg : Config) : Nat :=
  2 + cfg.swapchainImageCount + cfg.swapchainImageViewCount

/-- The handle of the position image after `initVulkan`. -/
def initOffscreen (cfg : Config) : Nat :=
  initBase cfg + 1 + cfg.swapchainImageViewCount

/-- The handle of the first shader module after `initVulkan`. -/
def initPipelines (cfg : Config) : Nat :=
  initOffscreen cfg + 20 + cfg.swapchainImageCount

/-- The swapchain image views after `initVulkan`. -/
def initViews (cfg : Config) : List Handle :=
  (List.range cfg.swapchainImageViewCount).map (fun i => 2 + cfg.swapchainImageCount + i)

/-- The swapchain framebuffer of image view `i` after `initVulkan`. -/
def initFramebuffer (cfg : Config) (i : Nat) : Framebuffer :=
  ⟨initBase cfg + 1 + i, [(initViews cfg).getD i VK_NULL_HANDLE], cfg.extent.1, cfg.extent.2,
    initBase cfg⟩

/-- The descriptor set of image `i` after `initVulkan`. -/
def initSet (cfg : Config) (i : Nat) : DescriptorSet :=
  ⟨initOffscreen cfg + 20 + i, initOffscreen cfg + 19, initOffscreen cfg + 13,
    [(1, initOffscreen cfg + 1, initOffscreen cfg + 11),
     (2, initOffscreen cfg + 4, initOffscreen cfg + 11),
     (3, initOffscreen cfg + 7, initOffscreen cfg + 11),
     (4, initOffscreen cfg + 16, initOffscreen cfg + 18)]⟩

/-- The named resources after `initVulkan`. -/
def initRegistry (cfg : Config) : ResName → List Handle
  | .renderPass => [initBase cfg]
  | .mainFb i => if i < cfg.swapchainImageViewCount then [initBase cfg + 1 + i] else []
  | .rsmPosition => [initOffscreen cfg, initOffscreen cfg + 1, initOffscreen cfg + 2]
  | .rsmNormal => [initOffscreen cfg + 3, initOffscreen cfg + 4, initOffscreen cfg + 5]
  | .rsmFlux => [initOffscreen cfg + 6, initOffscreen cfg + 7, initOffscreen cfg + 8]
  | .rsmRenderPass => [initOffscreen cfg + 9]
  | .rsmFb => [initOffscreen cfg + 10]
  | .rsmSampler => [initOffscreen cfg + 11]
  | .vertexBuffer => [initOffscreen cfg + 12]
  | .flowerTexture => [initOffscreen cfg + 15, initOffscreen cfg + 16, initOffscreen cfg + 17]
  | .flowerSampler => [initOffscreen cfg + 18]
  | .descriptorLayout => [initOffscreen cfg + 19]
  | .descriptorSet i => if i < cfg.swapchainImageCount then [initOffscreen cfg + 20 + i] else []
  | .vert => [initPipelines cfg]
  | .frag => [initPipelines cfg + 1]
  | .pipeline => [initPipelines cfg + 2]
  | .rsmVert => [initPipelines cfg + 4]
  | .rsmFrag => [initPipelines cfg + 5]
  | .rsmPipeline => [initPipelines cfg + 6]

/-- The calls of `initVulkan`, in order. -/
def initEvents (cfg : Config) : List Event :=
  [ Event.createSwapchain ((List.range cfg.swapchainImageCount).map (fun i => 2 + i))
      (initViews cfg),
    .build .renderPass (initBase cfg) ]
  ++ (List.range cfg.swapchainImageViewCount).map
      (fun i => Event.buildFramebuffer (.mainFb i) (initFramebuffer cfg i))
  ++ [ .buildImage .rsmPosition .r16g16b16a16Sfloat 1024 1024
         ⟨initOffscreen cfg, initOffscreen cfg + 1, initOffscreen cfg + 2⟩,
       .buildImage .rsmNormal .r16g16b16a16Sfloat 1024 1024
         ⟨initOffscreen cfg + 3, initOffscreen cfg + 4, initOffscreen cfg + 5⟩,
       .buildImage .rsmFlux .r16g16b16a16Sfloat 1024 1024
         ⟨initOffscreen cfg + 6, initOffscreen cfg + 7, initOffscreen cfg + 8⟩,
       .build .rsmRenderPass (initOffscreen cfg + 9),
       .buildFramebuffer .rsmFb
         ⟨initOffscreen cfg + 10,
           [initOffscreen cfg + 1, initOffscreen cfg + 4, initOffscreen cfg + 7], 1024, 1024,
           initOffscreen cfg + 9⟩,
       .build .rsmSampler (initOffscreen cfg + 11),
       .build .vertexBuffer (initOffscreen cfg + 12),
       .createUniformBuffer (initOffscreen cfg + 13) (initOffscreen cfg + 14),
       .buildImage .flowerTexture .r8g8b8a8Srgb 0 0
         ⟨initOffscreen cfg + 15, initOffscreen cfg + 16, initOffscreen cfg + 17⟩,
       .build .flowerSampler (initOffscreen cfg + 18),
       .build .descriptorLayout (initOffscreen cfg + 19) ]
  ++ (List.range cfg.swapchainImageCount).map
      (fun i => Event.buildDescriptorSet (.descriptorSet i) (initSet cfg i))
  ++ [ .build .vert (initPipelines cfg),
       .build .frag (initPipelines cfg + 1),
       .build .pipeline (initPipelines cfg + 2),
       .build .rsmVert (initPipelines cfg + 4),
       .build .rsmFrag (initPipelines cfg + 5),
       .build .rsmPipeline (initPipelines cfg + 6),
       .buildCommandBuffers
         ((List.range cfg.swapchainImageViewCount).map (fun i => initPipelines cfg + 9 + i)) ]

/-- The state that `initVulkan` leaves when `glfwInit` succeeds, starting from
the freshly constructed object. -/
def initState (cfg : Config) : State :=
  { device := some 1,
    commandPool := initPipelines cfg + 8,
    fullscreenVertexBuffer := initOffscreen cfg + 12,
    commandBuffers :=
      (List.range cfg.swapchainImageViewCount).map (fun i => initPipelines cfg + 9 + i),
    framebuffers := (List.range cfg.swapchainImageViewCount).map (initFramebuffer cfg),
    renderPass := initBase cfg,
    pipelineLayout := initPipelines cfg + 3,
    pipeline := initPipelines cfg + 2,
    uniformBuffer := initOffscreen cfg + 13,
    uniformBufferAllocation := initOffscreen cfg + 14,
    descriptorSetLayout := initOffscreen cfg + 19,
    descriptorSets := (List.range cfg.swapchainImageCount).map (initSet cfg),
    rsmRenderPass := initOffscreen cfg + 9,
    rsmFramebuffer :=
      ⟨initOffscreen cfg + 10,
        [initOffscreen cfg + 1, initOffscreen cfg + 4, initOffscreen cfg + 7], 1024, 1024,
        initOffscreen cfg + 9⟩,
    rsmPipeline := initPipelines cfg + 6,
    rsmPipelineLayout := initPipelines cfg + 7,
    rsmPositionImage := initOffscreen cfg,
    rsmPositionView := initOffscreen cfg + 1,
    rsmPositionAlloc := initOffscreen cfg + 2,
    rsmNormalImage := initOffscreen cfg + 3,
    rsmNormalView := initOffscreen cfg + 4,
    rsmNormalAlloc := initOffscreen cfg + 5,
    rsmFluxImage := initOffscreen cfg + 6,
    rsmFluxView := initOffscreen cfg + 7,
    rsmFluxAlloc := initOffscreen cfg + 8,
    rsmSampler := initOffscreen cfg + 11,
    flowerTexture := initOffscreen cfg + 15,
    flowerTextureView := initOffscreen cfg + 16,
    flowerTextureAllocation := initOffscreen cfg + 17,
    flowerTextureSampler := initOffscreen cfg + 18,
    swapchainImages := (List.range cfg.swapchainImageCount).map (fun i => 2 + i),
    swapchainImageViews := initViews cfg,
    nextHandle := initPipelines cfg + 9 + cfg.swapchainImageViewCount,
    registry := initRegistry cfg,
    destroyed := [],
    trace := initEvents cfg }

/-- A desktop configuration: pipeline depth 3, a swapchain of two images at
800 x 600, an ImGui manager, and a window system that starts. -/
def desktop : Config :=
  { frameNum := 3, swapchainImageCount := 2, swapchainImageViewCount := 2, extent := (800, 600),
    hasImGui := true, glfwInitOk := true }

/-! ## A check of the trace for use after destruction -/

/-- The objects a recorded call references: a framebuffer with its attachments,
a descriptor set with the image views it binds, an image. -/
def Cmd.refs : Cmd → List Handle
  | .beginRenderPass _ framebuffer _ _ => framebuffer.handle :: framebuffer.attachments
  | .bindDescriptorSets _ set => set.handle :: set.views
  | .transitionImageLayout image _ _ => [image]
  | _ => []

/-- The handles a call destroys. -/
def Event.destroys : Event → List Handle
  | .clearResource _ _ handles => handles
  | _ => []

/-- The handles destroyed by a list of calls. -/
def destroyedBy (calls : List Event) : List Handle :=
  calls.flatMap Event.destroys

/-- What the check remembers while it reads a trace.  `idle`: there was a
`vkDeviceWaitIdle`, and every call since created or destroyed a resource.
`recorded`: the call directly before recorded this command buffer with these
calls.  `destroyed`: the handles destroyed so far. -/
structure Monitor where
  idle : Bool := false
  recorded : Option (Handle × List Cmd) := none
  destroyed : List Handle := []
  deriving DecidableEq, Repr

/-- One step of the check; `none` means that the call breaks a rule.  A
`clearResource` is allowed only while `idle`.  A `vkQueueSubmit` is allowed
only for the command buffer in `recorded`, and only if none of the objects its
calls reference is destroyed. -/
def Monitor.step (m : Monitor) : Event → Option Monitor
  | .deviceWaitIdle => some { m with idle := true, recorded := none }
  | .clearResource _ _ handles =>
    if m.idle then some { m with destroyed := m.destroyed ++ handles, recorded := none }
    else none
  | .recordCommandBuffer commandBuffer cmds =>
    some { m with idle := false, recorded := some (commandBuffer, cmds) }
  | .queueSubmit submit =>
    match m.recorded with
    | some (commandBuffer, cmds) =>
      if commandBuffer = submit.commandBuffer
          ∧ ∀ h ∈ cmds.flatMap Cmd.refs, h ∉ m.destroyed then
        some { m with idle := false, recorded := none }
      else none
    | none => none
  | e =>
    if e.isResourceCall then some { m with recorded := none }
    else some { m with idle := false, recorded := none }

/-- The check of a list of calls, started in `m`. -/
def Monitor.run : Monitor → List Event → Option Monitor
  | m, [] => some m
  | m, e :: es =>
    match m.step e with
    | some next => next.run es
    | none => none

/-- The trace obeys the rules: an object is destroyed only after a
`vkDeviceWaitIdle` with nothing but creations and destructions in between; a
command buffer is submitted only directly after it was recorded; and what is
submitted references no destroyed object. -/
def safeTrace (trace : List Event) : Bool :=
  (Monitor.run {} trace).isSome

/-- The check accepts the calls made so far in state `s`, and the handles it
has seen destroyed are those the resource manager has destroyed. -/
def Tracked (s : State) : Prop :=
  ∃ m, Monitor.run {} s.trace = some m ∧ m.destroyed = s.destroyed

/-- The call creates a resource. -/
def Event.isCreation : Event → Bool
  | .build _ _ => true
  | .buildImage _ _ _ _ _ => true
  | .buildFramebuffer _ _ => true
  | .buildDescriptorSet _ _ => true
  | .createSwapchain _ _ => true
  | .createUniformBuffer _ _ => true
  | .buildCommandBuffers _ => true
  | _ => false

/-! ## Counting the calls of the loop -/

/-- The slot of a fence wait. -/
def Event.waitedSlot : Event → Option Nat
  | .waitForFences slot _ _ => some slot
  | _ => none

/-- The uniform block of an upload. -/
def Event.uploaded : Event → Option SDFCornellUniforms
  | .uploadUniforms _ u => some u
  | _ => none

/-- The command buffer of a recording. -/
def Event.recordedBuffer : Event → Option Handle
  | .recordCommandBuffer commandBuffer _ => some commandBuffer
  | _ => none

/-- The image of a present. -/
def Event.presentedImage : Event → Option Nat
  | .presentImage imageIndex _ => some imageIndex
  | _ => none

/-- The calls of the loop of `mainLoop` for `inputs`, started in `s`. -/
def loopCalls (cfg : Config) (inputs : List FrameInput) (s : State) : List Event :=
  callsOf (fun st => (frames cfg inputs st).state) s

/-! ## Frames in flight -/

/-- The fences of the submissions that may be incomplete after a call, given
those that may be incomplete before it: `vkQueueSubmit` adds the fence of the
submission; `vkWaitForFences` returns only when the submissions made with that
fence have completed, so it removes them; no other call is taken to complete a
submission. -/
def flightStep (pending : List Nat) : Event → List Nat
  | .waitForFences slot _ _ => pending.filter (fun fence => fence ≠ slot)
  | .queueSubmit submit => pending ++ [submit.fence]
  | _ => pending

/-- The fences of the submissions that may be incomplete after the calls, if the
device completes a submission only when it is waited for. -/
def inFlight (calls : List Event) : List Nat :=
  calls.foldl flightStep []

/-- The fences of the incomplete submissions after the calls, each of which
comes with the fences that the device signals right after it. -/
def inFlightWith (calls : List (Event × List Nat)) : List Nat :=
  calls.foldl
    (fun pending call => (flightStep pending call.1).filter (fun fence => fence ∉ call.2)) []

/-- The bound on the submissions in flight: no two of them use the same fence,
and every fence is one of the `n` slots. -/
def FlightOK (n : Nat) (pending : List Nat) : Prop :=
  pending.Nodup ∧ ∀ fence ∈ pending, fence < n

/-- The bound `FlightOK` holds before and after every one of the calls, when
`pending` are the fences in flight before them. -/
def FlightBounded (n : Nat) : List Nat → List Event → Prop
  | pending, [] => FlightOK n pending
  | pending, e :: es => FlightOK n pending ∧ FlightBounded n (flightStep pending e) es

/-- The call neither submits nor waits for a fence. -/
def Event.isFlightNeutral : Event → Bool
  | .waitForFences _ _ _ => false
  | .queueSubmit _ => false
  | _ => true

/-! ## The objects of a swapchain image -/

/-- The command buffers and the uniform buffer are those that `initVulkan`
created, and every descriptor set holds that one uniform buffer at binding 0. -/
def SharedUniform (cfg : Config) (s : State) : Prop :=
  s.commandBuffers = (initState cfg).commandBuffers
    ∧ s.uniformBuffer = (initState cfg).uniformBuffer
    ∧ ∀ d ∈ s.descriptorSets, d.uniformBuffer = s.uniformBuffer

/-! ## Synchronisation objects, array lengths and the offscreen size -/

/-- The arguments of a fence wait: which fence, `waitAll`, and the timeout in
nanoseconds. -/
structure FenceWait where
  fence : Nat
  waitAll : Bool
  timeout : Nat
  deriving DecidableEq, Repr

/-- The arguments of the fence wait that a call is, if it is one. -/
def Event.fenceWait : Event → Option FenceWait
  | .waitForFences slot waitAll timeout => some ⟨slot, waitAll, timeout⟩
  | _ => none

/-- The slot indices with which the fence and the semaphores of a call were
fetched from the synchronisation manager. -/
def Event.slots : Event → List Nat
  | .waitForFences slot _ _ => [slot]
  | .acquireNextImage semaphoreSlot _ => [semaphoreSlot]
  | .resetFences slot => [slot]
  | .queueSubmit submit => [submit.waitSemaphore, submit.signalSemaphore, submit.fence]
  | .presentImage _ waitSlot => [waitSlot]
  | _ => []

/-- The arrays indexed by swapchain image have one entry per swapchain image. -/
def ImageSized (cfg : Config) (s : State) : Prop :=
  s.swapchainImages.length = cfg.swapchainImageCount
    ∧ s.framebuffers.length = cfg.swapchainImageCount
    ∧ s.descriptorSets.length = cfg.swapchainImageCount
    ∧ s.commandBuffers.length = cfg.swapchainImageCount

instance (cfg : Config) (s : State) : Decidable (ImageSized cfg s) := by
  unfold ImageSized; infer_instance

/-- The slot index is below the pipeline depth, and so is every slot index
with which a call of the trace fetched a fence or a semaphore. -/
def SlotsBounded (cfg : Config) (s : State) : Prop :=
  s.currentFrame < cfg.frameNum ∧ ∀ e ∈ s.trace, ∀ k ∈ e.slots, k < cfg.frameNum

/-- The render pass and the framebuffer of the render pass instance that a
recorded call begins. -/
def Cmd.begun : Cmd → Option (Handle × Framebuffer)
  | .beginRenderPass renderPass framebuffer _ _ => some (renderPass, framebuffer)
  | _ => none

/-- The image and the two layouts of a recorded layout transition. -/
def Cmd.transition : Cmd → Option (Handle × Layout × Layout)
  | .transitionImageLayout image oldLayout newLayout => some (image, oldLayout, newLayout)
  | _ => none

/-- The extent that a recorded call sets: the render area of a render pass
instance, the viewport size, or the scissor extent. -/
def Cmd.extent : Cmd → Option (Nat × Nat)
  | .beginRenderPass _ _ extent _ => some extent
  | .setViewport width height => some (width, height)
  | .setScissor extent => some extent
  | _ => none

/-- The offscreen size is consistent: the targets are square, their size is
one of the four sizes of the combo, a pending request holds the size of the
selected index, and with no request pending the targets have that size. -/
def SizeOK (s : State) : Prop :=
  s.rsmWidth = s.rsmHeight
    ∧ s.rsmWidth ∈ [512, 1024, 2048, 4096]
    ∧ (s.rsmRecreatePending = true → s.rsmPendingSize = rsmSizeOfIndex s.rsmResolutionIndex)
    ∧ (s.rsmRecreatePending = false → s.rsmWidth = rsmSizeOfIndex s.rsmResolutionIndex)

instance (s : State) : Decidable (SizeOK s) := by
  unfold SizeOK; infer_instance

/-- The size with which a call creates the image or the framebuffer with
handle `h`, if it creates it. -/
def Event.createdWith (h : Handle) : Event → Option (Nat × Nat)
  | .buildImage _ _ width height info => if info.image = h then some (width, height) else none
  | .buildFramebuffer _ fb => if fb.handle = h then some (fb.width, fb.height) else none
  | _ => none

/-- The size with which the image or framebuffer `h` was created, by the last
call of the trace that created it. -/
def createdSize (h : Handle) (trace : List Event) : Option (Nat × Nat) :=
  (trace.filterMap (Event.createdWith h)).getLast?

/-- The offscreen framebuffer and the three offscreen images that the members
hold were created with the size `rsmWidth x rsmHeight`. -/
def TargetsSized (s : State) : Prop :=
  s.rsmFramebuffer.width = s.rsmWidth ∧ s.rsmFramebuffer.height = s.rsmHeight
    ∧ createdSize s.rsmFramebuffer.handle s.trace = some (s.rsmWidth, s.rsmHeight)
    ∧ createdSize s.rsmPositionImage s.trace = some (s.rsmWidth, s.rsmHeight)
    ∧ createdSize s.rsmNormalImage s.trace = some (s.rsmWidth, s.rsmHeight)
    ∧ createdSize s.rsmFluxImage s.trace = some (s.rsmWidth, s.rsmHeight)

instance (s : State) : Decidable (TargetsSized s) := by
  unfold TargetsSized; infer_instance

/-- The state in which `drawFrame` is called after `initVulkan` and the
iterations of the loop for `inputs`: the events of the next iteration have
been polled. -/
def frameStart (cfg : Config) (inputs : List FrameInput) : State :=
  (frames cfg inputs (initVulkan cfg {}).state).state.log .pollEvents
/-! ## Basic facts about the engine model -/

theorem length_resize {α : Type} (xs : List α) (count : Nat) (d : α) :
    (resize xs count d).length = count := by
  simp [resize]; omega

theorem rebuildRegistry_zero (s : State) : rebuildRegistry s 0 = s.registry := by
  funext name
  cases name <;> simp [rebuildRegistry]

theorem rebuildRegistry_succ (s : State) (n : Nat) :
    Function.update (Function.update (rebuildRegistry s n) (.descriptorSet n) [])
      (.descriptorSet n) [s.nextHandle + n] = rebuildRegistry s (n + 1) := by
  funext name
  by_cases h : name = .descriptorSet n
  · subst h; simp [rebuildRegistry]
  · rw [Function.update_noteq h, Function.update_noteq h]
    cases name <;> simp [rebuildRegistry] at h ⊢
    rename_i i
    have : i < n + 1 ↔ i < n := by omega
    simp [this]

theorem rebuildRegistry_self (s : State) (n : Nat) :
    rebuildRegistry s n (.descriptorSet n) = s.registry (.descriptorSet n) := by
  simp [rebuildRegistry]

theorem set_map_range_append_drop {α : Type} (f : Nat → α) (xs : List α) (n : Nat)
    (h : n < xs.length) (x : α) (hx : x = f n) :
    ((List.range n).map f ++ xs.drop n).set n x
      = (List.range (n + 1)).map f ++ xs.drop (n + 1) := by
  subst hx
  have hlen : ((List.range n).map f).length = n := by simp
  have hd : xs.drop n = xs[n] :: xs.drop (n + 1) := List.drop_eq_getElem_cons h
  rw [List.set_append_right _ _ (by omega), hlen, Nat.sub_self, hd]
  simp only [List.set_cons_zero, List.range_succ, List.map_append, List.map_cons, List.map_nil,
    List.append_assoc, List.singleton_append]

/-- The rebuild loop of `recreateRSMResources` in closed form. -/
theorem foldl_recreateDescriptorSet (n : Nat) (s : State) (h : n ≤ s.descriptorSets.length) :
    (List.range n).foldl recreateDescriptorSet s =
      { s with
        nextHandle := s.nextHandle + n,
        registry := rebuildRegistry s n,
        destroyed := s.destroyed ++ (List.range n).flatMap (fun i => s.registry (.descriptorSet i)),
        trace := s.trace ++ rebuildEvents s n,
        descriptorSets := (List.range n).map (rebuiltSet s) ++ s.descriptorSets.drop n } := by
  induction n with
  | zero => simp [rebuildRegistry_zero, rebuildEvents]
  | succ n ih =>
    rw [List.range_succ, List.foldl_append, ih (by omega)]
    simp only [List.foldl_cons, List.foldl_nil, recreateDescriptorSet, clearResource,
      buildDescriptorSet, imageDescriptors]
    simp only [State.mk.injEq, true_and, and_true]
    refine ⟨?_, ?_, ?_, ?_, ?_⟩
    · rw [← List.range_succ]
      exact set_map_range_append_drop _ _ _ (by omega) _ (by simp [rebuiltSet, imageDescriptors])
    · omega
    · exact rebuildRegistry_succ s n
    · simp [rebuildRegistry_self, List.flatMap_append]
    · simp [rebuildRegistry_self, rebuildEvents, List.flatMap_append, rebuiltSet, imageDescriptors,
        List.range_succ]

/-- The function `recreateRSMResources` in closed form. -/
theorem recreateRSMResources_eq (newSize : Nat) (s : State) :
    recreateRSMResources newSize s =
      { s with
        rsmWidth := newSize, rsmHeight := newSize,
        rsmPositionImage := s.nextHandle, rsmPositionView := s.nextHandle + 1,
        rsmPositionAlloc := s.nextHandle + 2,
        rsmNormalImage := s.nextHandle + 3, rsmNormalView := s.nextHandle + 4,
        rsmNormalAlloc := s.nextHandle + 5,
        rsmFluxImage := s.nextHandle + 6, rsmFluxView := s.nextHandle + 7,
        rsmFluxAlloc := s.nextHandle + 8,
        rsmFramebuffer := recreatedFramebuffer newSize s,
        descriptorSets := (List.range s.swapchainImages.length).map (recreatedSet s),
        nextHandle := s.nextHandle + 10 + s.swapchainImages.length,
        registry := recreateRegistry s,
        destroyed := s.destroyed ++ recreateDestroyed s,
        trace := s.trace ++ recreateEvents newSize s } := by
  cases hd : deviceReady s <;>
  · simp only [recreateRSMResources, hd, createAttachments, createRSMFramebuffer, buildImage,
      buildFramebuffer, clearResource, State.log, Bool.false_eq_true, if_false, if_true]
    rw [foldl_recreateDescriptorSet _ _ (by simp [length_resize])]
    simp only [State.mk.injEq, true_and, and_true]
    and_intros
    all_goals first
      | omega
      | (rw [List.drop_eq_nil_of_le (by simp [length_resize]), List.append_nil]
         apply List.map_congr_left
         intro i _
         simp [rebuiltSet, recreatedSet, imageDescriptors, Nat.add_assoc])
      | (funext name
         cases name <;> simp [rebuildRegistry, recreateRegistry, Function.update, Nat.add_assoc])
      | (simp [Function.update, recreateDestroyed, recreateEvents, teardownEvents, creationEvents,
          descriptorRebuildEvents, rebuildEvents, rebuiltSet, recreatedSet, recreatedFramebuffer,
          imageDescriptors, hd, Nat.add_assoc, List.append_assoc])

/-! ## The control panel in closed form -/

theorem rsmResolutionCombo_eq (selection : Option Int) (s : State) :
    rsmResolutionCombo selection s =
      { s with
        rsmResolutionIndex := selection.getD s.rsmResolutionIndex,
        rsmPendingSize := (resizeRequest selection s).getD s.rsmPendingSize,
        rsmRecreatePending := (resizeRequest selection s).isSome || s.rsmRecreatePending } := by
  cases selection with
  | none => simp [rsmResolutionCombo, resizeRequest]
  | some i =>
    by_cases h : i = s.rsmResolutionIndex
    · simp [rsmResolutionCombo, resizeRequest, h]
    · simp [rsmResolutionCombo, resizeRequest, h]

theorem widget_eq {α : Type} (input : Option α) (store : α → State → State) (s : State) :
    widget input store s = (input.map (fun v => store v s)).getD s := by
  cases input <;> rfl

theorem widget_enableKey (input : Option Bool) (s : State) :
    widget input (fun v s => { s with enableKey := v }) s = { s with enableKey := input.getD s.enableKey } := by
  cases input <;> rfl

theorem widget_enableFill (input : Option Bool) (s : State) :
    widget input (fun v s => { s with enableFill := v }) s = { s with enableFill := input.getD s.enableFill } := by
  cases input <;> rfl

theorem widget_enableRim (input : Option Bool) (s : State) :
    widget input (fun v s => { s with enableRim := v }) s = { s with enableRim := input.getD s.enableRim } := by
  cases input <;> rfl

theorem widget_enableEnv (input : Option Bool) (s : State) :
    widget input (fun v s => { s with enableEnv := v }) s = { s with enableEnv := input.getD s.enableEnv } := by
  cases input <;> rfl

theorem widget_enableRSM (input : Option Bool) (s : State) :
    widget input (fun v s => { s with enableRSM := v }) s = { s with enableRSM := input.getD s.enableRSM } := by
  cases input <;> rfl

theorem widget_enableIndirectLighting (input : Option Bool) (s : State) :
    widget input (fun v s => { s with enableIndirectLighting := v }) s = { s with enableIndirectLighting := input.getD s.enableIndirectLighting } := by
  cases input <;> rfl

theorem widget_enableImportanceSampling (input : Option Bool) (s : State) :
    widget input (fun v s => { s with enableImportanceSampling := v }) s = { s with enableImportanceSampling := input.getD s.enableImportanceSampling } := by
  cases input <;> rfl

theorem widget_showRSMOnly (input : Option Bool) (s : State) :
    widget input (fun v s => { s with showRSMOnly := v }) s = { s with showRSMOnly := input.getD s.showRSMOnly } := by
  cases input <;> rfl

theorem widget_showIndirectOnly (input : Option Bool) (s : State) :
    widget input (fun v s => { s with showIndirectOnly := v }) s = { s with showIndirectOnly := input.getD s.showIndirectOnly } := by
  cases input <;> rfl

theorem widget_enablePBR (input : Option Bool) (s : State) :
    widget input (fun v s => { s with enablePBR := v }) s = { s with enablePBR := input.getD s.enablePBR } := by
  cases input <;> rfl

theorem widget_selectedMaterial (input : Option Int) (s : State) :
    widget input (fun v s => { s with selectedMaterial := v }) s = { s with selectedMaterial := input.getD s.selectedMaterial } := by
  cases input <;> rfl

theorem uiControls_eq (ui : UiInput) (s : State) :
    uiControls ui s =
      { s with
        enableKey := ui.key.getD s.enableKey,
        enableFill := ui.fill.getD s.enableFill,
        enableRim := ui.rim.getD s.enableRim,
        enableEnv := ui.env.getD s.enableEnv,
        enableRSM := ui.enableRSM.getD s.enableRSM,
        enableIndirectLighting :=
          if ui.enableRSM.getD s.enableRSM then ui.indirectLighting.getD s.enableIndirectLighting
          else s.enableIndirectLighting,
        enableImportanceSampling :=
          if ui.enableRSM.getD s.enableRSM then ui.importanceSampling.getD s.enableImportanceSampling
          else s.enableImportanceSampling,
        showRSMOnly := ui.showRSMOnly.getD s.showRSMOnly,
        showIndirectOnly := ui.showIndirectOnly.getD s.showIndirectOnly,
        rsmResolutionIndex := ui.rsmResolution.getD s.rsmResolutionIndex,
        rsmPendingSize := (resizeRequest ui.rsmResolution s).getD s.rsmPendingSize,
        rsmRecreatePending := (resizeRequest ui.rsmResolution s).isSome || s.rsmRecreatePending,
        enablePBR := ui.enablePBR.getD s.enablePBR,
        selectedMaterial :=
          if ui.enablePBR.getD s.enablePBR then ui.material.getD s.selectedMaterial
          else s.selectedMaterial } := by
  simp only [uiControls, rsmOptions, materialCombo, rsmResolutionCombo_eq, resizeRequest,
    widget_enableKey, widget_enableFill, widget_enableRim, widget_enableEnv, widget_enableRSM, widget_enableIndirectLighting, widget_enableImportanceSampling, widget_showRSMOnly, widget_showIndirectOnly, widget_enablePBR, widget_selectedMaterial]
  cases h1 : ui.enableRSM.getD s.enableRSM <;> cases h2 : ui.enablePBR.getD s.enablePBR <;>
    simp [h1, h2]

/-! ## One frame in closed form -/

theorem log_eq (e : Event) (s : State) : s.log e = s.withTrace (s.trace ++ [e]) := rfl

theorem withTrace_withTrace (t u : List Event) (s : State) :
    (s.withTrace u).withTrace t = s.withTrace t := rfl

theorem withTrace_trace (t : List Event) (s : State) : (s.withTrace t).trace = t := rfl

theorem withTrace_currentFrame (t : List Event) (s : State) :
    (s.withTrace t).currentFrame = s.currentFrame := rfl

theorem withTrace_commandBuffers (t : List Event) (s : State) :
    (s.withTrace t).commandBuffers = s.commandBuffers := rfl

theorem withTrace_framebuffers (t : List Event) (s : State) :
    (s.withTrace t).framebuffers = s.framebuffers := rfl

theorem withTrace_descriptorSets (t : List Event) (s : State) :
    (s.withTrace t).descriptorSets = s.descriptorSets := rfl

theorem withTrace_frameCounter (t : List Event) (s : State) :
    (s.withTrace t).frameCounter = s.frameCounter := rfl

theorem recreateRSMResources_withTrace (n : Nat) (t : List Event) (s : State) :
    recreateRSMResources n (s.withTrace t)
      = (recreateRSMResources n s).withTrace (t ++ recreateEvents n s) := by
  rw [recreateRSMResources_eq, recreateRSMResources_eq]
  rfl

theorem applyPendingResize_of_pending (s : State) (hp : s.rsmRecreatePending = true) :
    applyPendingResize s
      = { recreateRSMResources s.rsmPendingSize s with rsmRecreatePending := false } := by
  unfold applyPendingResize
  rw [if_pos hp]

theorem applyPendingResize_of_not_pending (s : State) (hp : s.rsmRecreatePending = false) :
    applyPendingResize s = s := by
  unfold applyPendingResize
  rw [hp]
  rfl

theorem applyPendingResize_withTrace (t : List Event) (s : State) :
    applyPendingResize (s.withTrace t)
      = (applyPendingResize s).withTrace (t ++ resizeEvents s) := by
  cases hp : s.rsmRecreatePending
  · have hp2 : (s.withTrace t).rsmRecreatePending = false := hp
    rw [applyPendingResize_of_not_pending _ hp2, applyPendingResize_of_not_pending _ hp]
    simp only [resizeEvents, hp, Bool.false_eq_true, if_false, List.append_nil]
  · have hp2 : (s.withTrace t).rsmRecreatePending = true := hp
    rw [applyPendingResize_of_pending _ hp2, applyPendingResize_of_pending _ hp]
    simp only [resizeEvents, hp, if_true]
    show ({ recreateRSMResources s.rsmPendingSize (s.withTrace t) with
      rsmRecreatePending := false } : State) = _
    rw [recreateRSMResources_withTrace]
    rfl

theorem applyPendingResize_trace (s : State) :
    (applyPendingResize s).trace = s.trace ++ resizeEvents s := by
  have h := congrArg State.trace (applyPendingResize_withTrace s.trace s)
  exact h

theorem applyPendingResize_currentFrame (s : State) :
    (applyPendingResize s).currentFrame = s.currentFrame := by
  cases hp : s.rsmRecreatePending
  · rw [applyPendingResize_of_not_pending _ hp]
  · rw [applyPendingResize_of_pending _ hp, recreateRSMResources_eq]

theorem applyPendingResize_frameCounter (s : State) :
    (applyPendingResize s).frameCounter = s.frameCounter := by
  cases hp : s.rsmRecreatePending
  · rw [applyPendingResize_of_not_pending _ hp]
  · rw [applyPendingResize_of_pending _ hp, recreateRSMResources_eq]

theorem applyPendingResize_commandBuffers (s : State) :
    (applyPendingResize s).commandBuffers = s.commandBuffers := by
  cases hp : s.rsmRecreatePending
  · rw [applyPendingResize_of_not_pending _ hp]
  · rw [applyPendingResize_of_pending _ hp, recreateRSMResources_eq]

theorem applyPendingResize_uniformBuffer (s : State) :
    (applyPendingResize s).uniformBuffer = s.uniformBuffer := by
  cases hp : s.rsmRecreatePending
  · rw [applyPendingResize_of_not_pending _ hp]
  · rw [applyPendingResize_of_pending _ hp, recreateRSMResources_eq]

theorem applyPendingResize_pending (s : State) :
    (applyPendingResize s).rsmRecreatePending = false := by
  cases hp : s.rsmRecreatePending
  · rw [applyPendingResize_of_not_pending _ hp, hp]
  · rw [applyPendingResize_of_pending _ hp]

theorem controlPanel_withTrace (cfg : Config) (ui : UiInput) (t : List Event) (s : State) :
    controlPanel cfg ui (s.withTrace t) = (controlPanel cfg ui s).withTrace t := by
  cases h : cfg.hasImGui
  · simp only [controlPanel, h, Bool.false_eq_true, if_false]
  · simp only [controlPanel, h, if_true]
    rw [uiControls_eq, uiControls_eq]
    rfl

theorem updateUniformBuffer_withTrace (cfg : Config) (i : Nat) (t : List Event) (s : State) :
    updateUniformBuffer cfg i (s.withTrace t)
      = s.withTrace (t ++ [Event.uploadUniforms s.uniformBuffer (buildUniforms cfg s)]) := rfl

theorem recordCommandBuffer_withTrace (cfg : Config) (ui : UiInput) (i : Nat) (t : List Event)
    (s : State) :
    recordCommandBuffer cfg ui i (s.withTrace t)
      = (controlPanel cfg ui s).withTrace
          (t ++ [Event.recordCommandBuffer (s.commandBuffers.getD i VK_NULL_HANDLE)
            (recordedCmds cfg s i)]) := by
  have h : (controlPanel cfg ui s).trace = s.trace := by
    cases h : cfg.hasImGui
    · simp only [controlPanel, h, Bool.false_eq_true, if_false]
    · simp only [controlPanel, h, if_true, uiControls_eq]
  unfold recordCommandBuffer
  simp only [controlPanel_withTrace, log_eq, withTrace_withTrace, withTrace_trace,
    withTrace_commandBuffers]
  rfl

theorem controlPanel_trace (cfg : Config) (ui : UiInput) (s : State) :
    (controlPanel cfg ui s).trace = s.trace := by
  cases h : cfg.hasImGui
  · simp only [controlPanel, h, Bool.false_eq_true, if_false]
  · simp only [controlPanel, h, if_true, uiControls_eq]

theorem controlPanel_currentFrame (cfg : Config) (ui : UiInput) (s : State) :
    (controlPanel cfg ui s).currentFrame = s.currentFrame := by
  cases h : cfg.hasImGui
  · simp only [controlPanel, h, Bool.false_eq_true, if_false]
  · simp only [controlPanel, h, if_true, uiControls_eq]

theorem controlPanel_frameCounter (cfg : Config) (ui : UiInput) (s : State) :
    (controlPanel cfg ui s).frameCounter = s.frameCounter := by
  cases h : cfg.hasImGui
  · simp only [controlPanel, h, Bool.false_eq_true, if_false]
  · simp only [controlPanel, h, if_true, uiControls_eq]

theorem controlPanel_commandBuffers (cfg : Config) (ui : UiInput) (s : State) :
    (controlPanel cfg ui s).commandBuffers = s.commandBuffers := by
  cases h : cfg.hasImGui
  · simp only [controlPanel, h, Bool.false_eq_true, if_false]
  · simp only [controlPanel, h, if_true, uiControls_eq]

/-- The function `drawFrame` in closed form. -/
theorem drawFrame_eq (cfg : Config) (inp : FrameInput) (s : State) :
    drawFrame cfg inp s =
      if indexInRange inp.imageIndex (applyPendingResize s) then
        if inp.submitResult ≠ VK_SUCCESS then
          ⟨(controlPanel cfg inp.ui (applyPendingResize s)).withTrace
              (s.trace ++ frameHead cfg inp s ++ frameBody cfg inp s),
            .threw "failed to submit command buffer!"⟩
        else
          ⟨{ (controlPanel cfg inp.ui (applyPendingResize s)).withTrace
                (s.trace ++ frameHead cfg inp s ++ frameBody cfg inp s
                  ++ [.presentImage inp.imageIndex s.currentFrame]) with
              currentFrame := (s.currentFrame + 1) % 2 ^ 32 % cfg.frameNum,
              frameCounter := incrementInt32 s.frameCounter },
            .ok⟩
      else ⟨(applyPendingResize s).withTrace (s.trace ++ frameHead cfg inp s), .outOfRange⟩ := by
  unfold drawFrame
  simp only [log_eq, applyPendingResize_withTrace, updateUniformBuffer_withTrace,
    recordCommandBuffer_withTrace, withTrace_withTrace, withTrace_trace, withTrace_currentFrame,
    withTrace_commandBuffers, withTrace_framebuffers, withTrace_descriptorSets,
    withTrace_frameCounter, applyPendingResize_currentFrame, applyPendingResize_frameCounter,
    applyPendingResize_commandBuffers, applyPendingResize_uniformBuffer,
    controlPanel_currentFrame, controlPanel_frameCounter, controlPanel_commandBuffers,
    indexInRange, frameHead, frameBody, frameSubmit, frameCommandBuffer, List.append_assoc,
    List.cons_append, List.nil_append, List.singleton_append]

/-! ## The three ways a frame can end -/

theorem drawFrame_of_success (cfg : Config) (inp : FrameInput) (s : State)
    (hr : indexInRange inp.imageIndex (applyPendingResize s))
    (hs : inp.submitResult = VK_SUCCESS) :
    drawFrame cfg inp s =
      ⟨{ (controlPanel cfg inp.ui (applyPendingResize s)).withTrace
            (s.trace ++ frameHead cfg inp s ++ frameBody cfg inp s
              ++ [.presentImage inp.imageIndex s.currentFrame]) with
          currentFrame := (s.currentFrame + 1) % 2 ^ 32 % cfg.frameNum,
          frameCounter := incrementInt32 s.frameCounter },
        .ok⟩ := by
  rw [drawFrame_eq, if_pos hr, if_neg (by simp [hs])]

theorem drawFrame_of_submit_failure (cfg : Config) (inp : FrameInput) (s : State)
    (hr : indexInRange inp.imageIndex (applyPendingResize s))
    (hs : inp.submitResult ≠ VK_SUCCESS) :
    drawFrame cfg inp s =
      ⟨(controlPanel cfg inp.ui (applyPendingResize s)).withTrace
          (s.trace ++ frameHead cfg inp s ++ frameBody cfg inp s),
        .threw "failed to submit command buffer!"⟩ := by
  rw [drawFrame_eq, if_pos hr, if_pos hs]

theorem drawFrame_of_out_of_range (cfg : Config) (inp : FrameInput) (s : State)
    (hr : ¬ indexInRange inp.imageIndex (applyPendingResize s)) :
    drawFrame cfg inp s =
      ⟨(applyPendingResize s).withTrace (s.trace ++ frameHead cfg inp s), .outOfRange⟩ := by
  rw [drawFrame_eq, if_neg hr]

theorem drawFrame_outcome_ok (cfg : Config) (inp : FrameInput) (s : State)
    (h : (drawFrame cfg inp s).outcome = .ok) :
    indexInRange inp.imageIndex (applyPendingResize s) ∧ inp.submitResult = VK_SUCCESS := by
  by_cases hr : indexInRange inp.imageIndex (applyPendingResize s)
  · by_cases hs : inp.submitResult = VK_SUCCESS
    · exact ⟨hr, hs⟩
    · rw [drawFrame_of_submit_failure cfg inp s hr hs] at h
      cases h
  · rw [drawFrame_of_out_of_range cfg inp s hr] at h
    cases h

theorem frames_cons_ok (cfg : Config) (inp : FrameInput) (rest : List FrameInput) (s : State)
    (h : (drawFrame cfg inp (s.log .pollEvents)).outcome = .ok) :
    frames cfg (inp :: rest) s = frames cfg rest (drawFrame cfg inp (s.log .pollEvents)).state := by
  simp only [frames, h]

theorem frames_cons_not_ok (cfg : Config) (inp : FrameInput) (rest : List FrameInput) (s : State)
    (h : (drawFrame cfg inp (s.log .pollEvents)).outcome ≠ .ok) :
    frames cfg (inp :: rest) s = drawFrame cfg inp (s.log .pollEvents) := by
  simp only [frames]

theorem frames_cons_outcome (cfg : Config) (inp : FrameInput) (rest : List FrameInput) (s : State)
    (h : (frames cfg (inp :: rest) s).outcome = .ok) :
    (drawFrame cfg inp (s.log .pollEvents)).outcome = .ok := by
  by_contra hne
  rw [frames_cons_not_ok cfg inp rest s hne] at h
  exact hne h

theorem frames_append (cfg : Config) (pre post : List FrameInput) (s : State)
    (h : (frames cfg pre s).outcome = .ok) :
    frames cfg (pre ++ post) s = frames cfg post (frames cfg pre s).state := by
  induction pre generalizing s with
  | nil => rfl
  | cons inp pre ih =>
    have h1 := frames_cons_outcome cfg inp pre s h
    rw [List.cons_append, frames_cons_ok cfg inp _ s h1, frames_cons_ok cfg inp _ s h1]
    rw [frames_cons_ok cfg inp _ s h1] at h
    exact ih _ h

theorem frames_currentFrame (cfg : Config) (hN : 0 < cfg.frameNum ∧ cfg.frameNum < 2 ^ 32)
    (inputs : List FrameInput) (s : State) (hs : s.currentFrame < cfg.frameNum)
    (hok : (frames cfg inputs s).outcome = .ok) :
    (frames cfg inputs s).state.currentFrame = (s.currentFrame + inputs.length) % cfg.frameNum := by
  induction inputs generalizing s with
  | nil => simp [frames, Nat.mod_eq_of_lt hs]
  | cons inp rest ih =>
    have h1 := frames_cons_outcome cfg inp rest s hok
    have h2 := drawFrame_outcome_ok cfg inp _ h1
    rw [frames_cons_ok cfg inp rest s h1] at hok ⊢
    have hstep : (drawFrame cfg inp (s.log .pollEvents)).state.currentFrame
        = (s.currentFrame + 1) % cfg.frameNum := by
      rw [drawFrame_of_success cfg inp _ h2.1 h2.2]
      show (s.currentFrame + 1) % 2 ^ 32 % cfg.frameNum = _
      rw [Nat.mod_eq_of_lt (a := s.currentFrame + 1) (by omega)]
    rw [ih _ (by rw [hstep]; exact Nat.mod_lt _ hN.1) hok, hstep]
    simp only [List.length_cons]
    rw [Nat.add_mod, Nat.mod_mod, ← Nat.add_mod]
    congr 1
    omega

/-- C1: for every pipeline depth `frameNum` of 3 or 4 and every list of frame
inputs (so for every sequence of acquired image indices), if all the calls of
`drawFrame` in the loop succeed starting from `currentFrame = 0`, then the slot
index afterwards is the number of frames modulo `frameNum`; two runs of equal
length end in the same slot, whatever images they acquired. -/
theorem slot_index_after_frames (cfg : Config) (hN : cfg.frameNum = 3 ∨ cfg.frameNum = 4)
    (inputs : List FrameInput) (s : State) (h0 : s.currentFrame = 0)
    (hok : (frames cfg inputs s).outcome = .ok) :
    (frames cfg inputs s).state.currentFrame = inputs.length % cfg.frameNum
    ∧ ∀ other : List FrameInput, other.length = inputs.length →
        (frames cfg other s).outcome = .ok →
        (frames cfg other s).state.currentFrame = (frames cfg inputs s).state.currentFrame := by
  have hN2 : 0 < cfg.frameNum ∧ cfg.frameNum < 2 ^ 32 := by
    rcases hN with h | h <;> rw [h] <;> decide
  have key : ∀ l : List FrameInput, (frames cfg l s).outcome = .ok →
      (frames cfg l s).state.currentFrame = l.length % cfg.frameNum := by
    intro l hl
    have := frames_currentFrame cfg hN2 l s (by rw [h0]; exact hN2.1) hl
    rw [this, h0, Nat.zero_add]
  refine ⟨key inputs hok, ?_⟩
  intro other hlen hother
  rw [key other hother, key inputs hok, hlen]

/-! ## Order of the steps of a frame, and failure of the submission -/

/-- C2: in a successful call of `drawFrame` the calls are, in this order: the
wait on the fence of the current slot, the calls of the pending resize (present
if and only if a resize is pending), the acquire of the image, the reset of the
fence, the upload of the uniform block, the reset and the recording of the
command buffer of the acquired image, its submission (signalling the
render-finished semaphore of the slot), and the present of the image (waiting on
that semaphore).  All of them use the slot index the frame started with, and
the state returned holds the next slot index. -/
theorem drawFrame_step_order (cfg : Config) (inp : FrameInput) (s : State)
    (hok : (drawFrame cfg inp s).outcome = .ok) :
    (drawFrame cfg inp s).state.trace =
      s.trace ++ [Event.waitForFences s.currentFrame true UINT64_MAX]
        ++ (if s.rsmRecreatePending then callsOf (recreateRSMResources s.rsmPendingSize) s else [])
        ++ [ .acquireNextImage s.currentFrame inp.imageIndex,
             .resetFences s.currentFrame,
             .uploadUniforms s.uniformBuffer (buildUniforms cfg (applyPendingResize s)),
             .resetCommandBuffer (s.commandBuffers.getD inp.imageIndex VK_NULL_HANDLE),
             .recordCommandBuffer (s.commandBuffers.getD inp.imageIndex VK_NULL_HANDLE)
               (recordedCmds cfg (applyPendingResize s) inp.imageIndex),
             .queueSubmit
               { waitSemaphore := s.currentFrame, signalSemaphore := s.currentFrame,
                 commandBuffer := s.commandBuffers.getD inp.imageIndex VK_NULL_HANDLE,
                 fence := s.currentFrame, result := VK_SUCCESS },
             .presentImage inp.imageIndex s.currentFrame ]
    ∧ (s.rsmRecreatePending = true → callsOf (recreateRSMResources s.rsmPendingSize) s ≠ [])
    ∧ (drawFrame cfg inp s).state.currentFrame = (s.currentFrame + 1) % 2 ^ 32 % cfg.frameNum := by
  have h := drawFrame_outcome_ok cfg inp s hok
  have hcalls : callsOf (recreateRSMResources s.rsmPendingSize) s
      = recreateEvents s.rsmPendingSize s := by
    simp [callsOf, recreateRSMResources_eq]
  rw [drawFrame_of_success cfg inp s h.1 h.2, hcalls]
  refine ⟨?_, ?_, rfl⟩
  · show s.trace ++ frameHead cfg inp s ++ frameBody cfg inp s
        ++ [Event.presentImage inp.imageIndex s.currentFrame] = _
    simp [frameHead, frameBody, frameSubmit, frameCommandBuffer, resizeEvents, h.2]
  · intro _
    simp [recreateEvents, teardownEvents]

theorem frameHead_no_present (cfg : Config) (inp : FrameInput) (s : State) :
    ∀ e ∈ frameHead cfg inp s, e.isPresent = false ∧ e.isSubmit = false := by
  intro e he
  simp only [frameHead, resizeEvents, List.mem_append, List.mem_cons, List.mem_singleton,
    List.not_mem_nil, or_false] at he
  rcases he with (rfl | he) | rfl | rfl | rfl
  · exact ⟨rfl, rfl⟩
  · split at he
    · simp only [recreateEvents, teardownEvents, creationEvents, descriptorRebuildEvents,
        List.mem_append, List.mem_cons, List.mem_flatMap, List.mem_range,
        List.not_mem_nil, or_false] at he
      rcases he with ((he | he) | he) | he
      · split at he
        · rcases List.mem_singleton.mp he with rfl
          exact ⟨rfl, rfl⟩
        · cases he
      · rcases he with rfl | rfl | rfl | rfl <;> exact ⟨rfl, rfl⟩
      · rcases he with rfl | rfl | rfl | rfl <;> exact ⟨rfl, rfl⟩
      · obtain ⟨i, _, rfl | rfl⟩ := he <;> exact ⟨rfl, rfl⟩
    · cases he
  · exact ⟨rfl, rfl⟩
  · exact ⟨rfl, rfl⟩
  · exact ⟨rfl, rfl⟩

/-- C3: if the queue submission of a frame reports anything other than
`VK_SUCCESS` (the acquired index being in range), `drawFrame` throws
"failed to submit command buffer!"; among the calls of that frame there is no
present and exactly one submission; `currentFrame` and `frameCounter` are as
before the call; the main loop ends with the result of that call of `drawFrame`
whatever the later inputs are (no further frame, not even the final idle wait),
and so does `run`. -/
theorem submit_failure_is_fatal (cfg : Config) (pre : List FrameInput) (inp : FrameInput)
    (rest : List FrameInput) (s0 : State)
    (hpre : (frames cfg pre s0).outcome = .ok)
    (hr : indexInRange inp.imageIndex
      (applyPendingResize ((frames cfg pre s0).state.log .pollEvents)))
    (hf : inp.submitResult ≠ VK_SUCCESS) :
    (drawFrame cfg inp ((frames cfg pre s0).state.log .pollEvents)).outcome
        = .threw "failed to submit command buffer!"
    ∧ (∀ e ∈ frameCalls cfg inp ((frames cfg pre s0).state.log .pollEvents), e.isPresent = false)
    ∧ (frameCalls cfg inp ((frames cfg pre s0).state.log .pollEvents)).countP Event.isSubmit = 1
    ∧ (drawFrame cfg inp ((frames cfg pre s0).state.log .pollEvents)).state.currentFrame
        = (frames cfg pre s0).state.currentFrame
    ∧ (drawFrame cfg inp ((frames cfg pre s0).state.log .pollEvents)).state.frameCounter
        = (frames cfg pre s0).state.frameCounter
    ∧ mainLoop cfg (pre ++ inp :: rest) s0
        = drawFrame cfg inp ((frames cfg pre s0).state.log .pollEvents)
    ∧ ∀ init : State, (initVulkan cfg init).outcome = .ok → (initVulkan cfg init).state = s0 →
        run cfg (pre ++ inp :: rest) init
          = drawFrame cfg inp ((frames cfg pre s0).state.log .pollEvents) := by
  generalize hs : (frames cfg pre s0).state = s at hr ⊢
  have hd := drawFrame_of_submit_failure cfg inp (s.log .pollEvents) hr hf
  have hcalls : frameCalls cfg inp (s.log .pollEvents)
      = frameHead cfg inp (s.log .pollEvents) ++ frameBody cfg inp (s.log .pollEvents) := by
    simp only [frameCalls, callsOf, hd]
    show List.drop _ ((s.log .pollEvents).trace ++ _ ++ _) = _
    rw [List.append_assoc, List.drop_left]
  have hloop : mainLoop cfg (pre ++ inp :: rest) s0 = drawFrame cfg inp (s.log .pollEvents) := by
    have hne : (drawFrame cfg inp (s.log .pollEvents)).outcome ≠ .ok := by
      rw [hd]; simp
    unfold mainLoop
    rw [frames_append cfg pre _ s0 hpre, hs, frames_cons_not_ok cfg inp rest s hne]
    simp only [hd]
  refine ⟨by rw [hd], ?_, ?_, ?_, ?_, hloop, ?_⟩
  · intro e he
    rw [hcalls] at he
    rcases List.mem_append.mp he with he | he
    · exact (frameHead_no_present cfg inp _ e he).1
    · simp only [frameBody, List.mem_cons, List.mem_singleton, List.not_mem_nil, or_false] at he
      rcases he with rfl | rfl | rfl <;> rfl
  · rw [hcalls, List.countP_append]
    have h0 : (frameHead cfg inp (s.log .pollEvents)).countP Event.isSubmit = 0 := by
      rw [List.countP_eq_zero]
      intro e he
      simp [(frameHead_no_present cfg inp _ e he).2]
    rw [h0]
    simp [frameBody, Event.isSubmit, List.countP_cons]
  · rw [hd]
    show (controlPanel cfg inp.ui (applyPendingResize (s.log .pollEvents))).currentFrame = _
    rw [controlPanel_currentFrame, applyPendingResize_currentFrame]
    rfl
  · rw [hd]
    show (controlPanel cfg inp.ui (applyPendingResize (s.log .pollEvents))).frameCounter = _
    rw [controlPanel_frameCounter, applyPendingResize_frameCounter]
    rfl
  · intro init hinit hstate
    unfold run
    simp only [hinit, hstate]
    exact hloop

/-! ## Requests for a resize -/

/-- C6: the "RSM Resolution" handler never resizes: it changes the three
members `rsmResolutionIndex`, `rsmPendingSize` and `rsmRecreatePending` and
nothing else, makes no call to the engine, leaves the size, the offscreen
images, views and framebuffer and the descriptor sets as they are, and when the
selected index is the index held before (or nothing is selected) it returns the
state unchanged. -/
theorem rsmResolutionCombo_records_only (selection : Option Int) (s : State) :
    rsmResolutionCombo selection s =
      { s with
        rsmResolutionIndex := (rsmResolutionCombo selection s).rsmResolutionIndex,
        rsmPendingSize := (rsmResolutionCombo selection s).rsmPendingSize,
        rsmRecreatePending := (rsmResolutionCombo selection s).rsmRecreatePending }
    ∧ (rsmResolutionCombo selection s).trace = s.trace
    ∧ (rsmResolutionCombo selection s).rsmWidth = s.rsmWidth
    ∧ (rsmResolutionCombo selection s).rsmHeight = s.rsmHeight
    ∧ (rsmResolutionCombo selection s).rsmPositionImage = s.rsmPositionImage
    ∧ (rsmResolutionCombo selection s).rsmNormalImage = s.rsmNormalImage
    ∧ (rsmResolutionCombo selection s).rsmFluxImage = s.rsmFluxImage
    ∧ (rsmResolutionCombo selection s).rsmPositionView = s.rsmPositionView
    ∧ (rsmResolutionCombo selection s).rsmNormalView = s.rsmNormalView
    ∧ (rsmResolutionCombo selection s).rsmFluxView = s.rsmFluxView
    ∧ (rsmResolutionCombo selection s).rsmFramebuffer = s.rsmFramebuffer
    ∧ (rsmResolutionCombo selection s).descriptorSets = s.descriptorSets
    ∧ (rsmResolutionCombo selection s).destroyed = s.destroyed
    ∧ (selection = none ∨ selection = some s.rsmResolutionIndex →
        rsmResolutionCombo selection s = s) := by
  have h := rsmResolutionCombo_eq selection s
  refine ⟨by rw [h], by rw [h], by rw [h], by rw [h], by rw [h], by rw [h], by rw [h], by rw [h],
    by rw [h], by rw [h], by rw [h], by rw [h], by rw [h], ?_⟩
  rintro (rfl | rfl)
  · rfl
  · rw [h]
    simp [resizeRequest]

/-! ## The calls of a frame, and the two forms of the offscreen part -/

theorem resizeEvents_isResourceCall (s : State) :
    ∀ e ∈ resizeEvents s, e.isResourceCall = true := by
  intro e he
  unfold resizeEvents at he
  split at he
  · simp only [recreateEvents, teardownEvents, creationEvents, descriptorRebuildEvents,
      List.mem_append, List.mem_cons, List.mem_flatMap, List.mem_range,
      List.not_mem_nil, or_false] at he
    rcases he with ((he | he) | he) | he
    · split at he
      · rcases List.mem_singleton.mp he with rfl
        rfl
      · cases he
    · rcases he with rfl | rfl | rfl | rfl <;> rfl
    · rcases he with rfl | rfl | rfl | rfl <;> rfl
    · obtain ⟨i, _, rfl | rfl⟩ := he <;> rfl
  · cases he

/-- The calls of a frame in closed form. -/
theorem frameCalls_eq (cfg : Config) (inp : FrameInput) (s : State) :
    frameCalls cfg inp s =
      frameHead cfg inp s ++
        (if indexInRange inp.imageIndex (applyPendingResize s) then
          frameBody cfg inp s ++
            (if inp.submitResult = VK_SUCCESS then
              [Event.presentImage inp.imageIndex s.currentFrame] else [])
         else []) := by
  unfold frameCalls callsOf
  by_cases hr : indexInRange inp.imageIndex (applyPendingResize s)
  · by_cases hs : inp.submitResult = VK_SUCCESS
    · simp only [drawFrame_of_success cfg inp s hr hs, if_pos hr, if_pos hs]
      show List.drop _ (s.trace ++ _ ++ _ ++ _) = _
      rw [List.append_assoc, List.append_assoc, List.drop_left]
    · simp only [drawFrame_of_submit_failure cfg inp s hr hs, if_pos hr, if_neg hs]
      show List.drop _ (s.trace ++ _ ++ _) = _
      rw [List.append_assoc, List.drop_left, List.append_nil]
  · simp only [drawFrame_of_out_of_range cfg inp s hr, if_neg hr]
    show List.drop _ (s.trace ++ _) = _
    rw [List.drop_left, List.append_nil]

theorem upload_mem_frameCalls (cfg : Config) (inp : FrameInput) (s : State) (b : Handle)
    (u : SDFCornellUniforms) :
    Event.uploadUniforms b u ∈ frameCalls cfg inp s
      ↔ b = s.uniformBuffer ∧ u = buildUniforms cfg (applyPendingResize s) := by
  rw [frameCalls_eq]
  constructor
  · intro h
    rcases List.mem_append.mp h with h | h
    · simp only [frameHead, List.mem_append, List.mem_cons, List.mem_singleton,
        List.not_mem_nil, or_false] at h
      rcases h with (h | h) | h | h | h
      · cases h
      · exact absurd (resizeEvents_isResourceCall s _ h) (by simp [Event.isResourceCall])
      · cases h
      · cases h
      · injection h with h1 h2
        exact ⟨h1, h2⟩
    · split at h
      · rcases List.mem_append.mp h with h | h
        · simp [frameBody] at h
        · split at h <;> simp at h
      · cases h
  · rintro ⟨rfl, rfl⟩
    simp [frameHead]

theorem record_mem_frameCalls (cfg : Config) (inp : FrameInput) (s : State) (cb : Handle)
    (cmds : List Cmd) :
    Event.recordCommandBuffer cb cmds ∈ frameCalls cfg inp s
      ↔ indexInRange inp.imageIndex (applyPendingResize s)
        ∧ cb = s.commandBuffers.getD inp.imageIndex VK_NULL_HANDLE
        ∧ cmds = recordedCmds cfg (applyPendingResize s) inp.imageIndex := by
  rw [frameCalls_eq]
  constructor
  · intro h
    rcases List.mem_append.mp h with h | h
    · simp only [frameHead, List.mem_append, List.mem_cons, List.mem_singleton,
        List.not_mem_nil, or_false] at h
      rcases h with (h | h) | h | h | h
      · cases h
      · exact absurd (resizeEvents_isResourceCall s _ h) (by simp [Event.isResourceCall])
      · cases h
      · cases h
      · cases h
    · split at h
      · rename_i hr
        rcases List.mem_append.mp h with h | h
        · simp only [frameBody, frameCommandBuffer, List.mem_cons, List.mem_singleton,
            List.not_mem_nil, or_false] at h
          rcases h with h | h | h
          · cases h
          · injection h with h1 h2
            exact ⟨hr, h1, h2⟩
          · cases h
        · split at h <;> simp at h
      · cases h
  · rintro ⟨hr, rfl, rfl⟩
    simp [hr, frameBody, frameCommandBuffer]

theorem applyPendingResize_enableRSM (s : State) :
    (applyPendingResize s).enableRSM = s.enableRSM := by
  cases hp : s.rsmRecreatePending
  · rw [applyPendingResize_of_not_pending _ hp]
  · rw [applyPendingResize_of_pending _ hp, recreateRSMResources_eq]

theorem uiCmds_no_render_pass (cfg : Config) : (uiCmds cfg).countP Cmd.isBeginRenderPass = 0 := by
  unfold uiCmds
  split <;> rfl

/-- C9: in a frame that starts with `enableRSM` false, the uniform block that
is uploaded (there is one, and only one content) has `rsmParams[3] = 0`; the
command buffer that is recorded (there is one when the image index is in range)
holds, after `vkBeginCommandBuffer`, the three transitions of the position,
normal and flux images to shader-read-only-optimal layout, then the main pass
with its draw call, the overlay and the two end calls; it begins exactly one
render pass instance, the main one, so no offscreen pass is recorded. -/
theorem shadow_pass_disabled (cfg : Config) (inp : FrameInput) (s : State)
    (hoff : s.enableRSM = false) :
    (∃ b u, Event.uploadUniforms b u ∈ frameCalls cfg inp s)
    ∧ (∀ b u, Event.uploadUniforms b u ∈ frameCalls cfg inp s → u.rsmParams[3]? = some 0)
    ∧ (indexInRange inp.imageIndex (applyPendingResize s) →
        ∃ cb cmds, Event.recordCommandBuffer cb cmds ∈ frameCalls cfg inp s)
    ∧ (∀ cb cmds, Event.recordCommandBuffer cb cmds ∈ frameCalls cfg inp s →
        cmds =
          [ Cmd.beginCommandBuffer,
            .transitionImageLayout (applyPendingResize s).rsmPositionImage
              .undefined .shaderReadOnlyOptimal,
            .transitionImageLayout (applyPendingResize s).rsmNormalImage
              .undefined .shaderReadOnlyOptimal,
            .transitionImageLayout (applyPendingResize s).rsmFluxImage
              .undefined .shaderReadOnlyOptimal,
            .beginRenderPass (applyPendingResize s).renderPass
              ((applyPendingResize s).framebuffers.getD inp.imageIndex Framebuffer.null)
              cfg.extent [[3 / 100, 5 / 100, 9 / 100, 1]],
            .bindPipeline (applyPendingResize s).pipeline,
            .setViewport cfg.extent.1 cfg.extent.2,
            .setScissor cfg.extent,
            .bindDescriptorSets (applyPendingResize s).pipelineLayout
              ((applyPendingResize s).descriptorSets.getD inp.imageIndex DescriptorSet.null),
            .bindVertexBuffers (applyPendingResize s).fullscreenVertexBuffer,
            .draw 4 1 0 0 ]
          ++ uiCmds cfg ++ [.endRenderPass, .endCommandBuffer]
        ∧ cmds.countP Cmd.isBeginRenderPass = 1) := by
  have hoff2 : (applyPendingResize s).enableRSM = false := by
    rw [applyPendingResize_enableRSM, hoff]
  refine ⟨⟨_, _, (upload_mem_frameCalls cfg inp s _ _).mpr ⟨rfl, rfl⟩⟩, ?_, ?_, ?_⟩
  · intro b u h
    rw [((upload_mem_frameCalls cfg inp s b u).mp h).2]
    simp [buildUniforms, hoff2]
  · intro hr
    exact ⟨_, _, (record_mem_frameCalls cfg inp s _ _).mpr ⟨hr, rfl, rfl⟩⟩
  · intro cb cmds h
    have hc := ((record_mem_frameCalls cfg inp s cb cmds).mp h).2.2
    subst hc
    refine ⟨?_, ?_⟩
    · simp only [recordedCmds, offscreenCmds, mainPassCmds, hoff2, Bool.false_eq_true, if_false,
        List.cons_append, List.nil_append, List.append_assoc]
    · simp [recordedCmds, offscreenCmds, mainPassCmds, hoff2, List.countP_cons,
        List.countP_append, Cmd.isBeginRenderPass, uiCmds_no_render_pass]

/-- C10: with `enableRSM` set, `recordCommandBuffer` (called with an index in
range) makes one recording whose calls are, after `vkBeginCommandBuffer`: the
begin of a render pass instance of the RSM render pass on the RSM framebuffer,
render area `rsmWidth x rsmHeight`, with three clear values `(0,0,0,0)`; the
bind of the RSM pipeline; viewport and scissor; the bind of the descriptor set
of the image index; the bind of the vertex buffer; one draw of 4 vertices and 1
instance; the end of the render pass; and only then the main pass. -/
theorem shadow_pass_enabled (cfg : Config) (ui : UiInput) (imageIndex : Nat) (s : State)
    (hon : s.enableRSM = true) (hi : imageIndex < s.descriptorSets.length) :
    callsOf (recordCommandBuffer cfg ui imageIndex) s =
      [ Event.recordCommandBuffer (s.commandBuffers.getD imageIndex VK_NULL_HANDLE)
          ([ Cmd.beginCommandBuffer,
             .beginRenderPass s.rsmRenderPass s.rsmFramebuffer (s.rsmWidth, s.rsmHeight)
               [[0, 0, 0, 0], [0, 0, 0, 0], [0, 0, 0, 0]],
             .bindPipeline s.rsmPipeline,
             .setViewport s.rsmWidth s.rsmHeight,
             .setScissor (s.rsmWidth, s.rsmHeight),
             .bindDescriptorSets s.rsmPipelineLayout s.descriptorSets[imageIndex],
             .bindVertexBuffers s.fullscreenVertexBuffer,
             .draw 4 1 0 0,
             .endRenderPass ]
            ++ mainPassCmds cfg s imageIndex ++ uiCmds cfg
            ++ [.endRenderPass, .endCommandBuffer]) ] := by
  have h := recordCommandBuffer_withTrace cfg ui imageIndex s.trace s
  have hs : s.withTrace s.trace = s := rfl
  rw [hs] at h
  unfold callsOf
  rw [h]
  show List.drop _ (s.trace ++ _) = _
  rw [List.drop_left]
  simp only [recordedCmds, offscreenCmds, hon, if_true, List.cons_append, List.nil_append,
    List.append_assoc, List.getD_eq_getElem?_getD, List.getElem?_eq_getElem hi, Option.getD_some]

/-! ## A pending resize is applied once, at the start of the next frame -/

theorem callsOf_recreateRSMResources (n : Nat) (s : State) :
    callsOf (recreateRSMResources n) s = recreateEvents n s := by
  simp [callsOf, recreateRSMResources_eq]

theorem controlPanel_resources (cfg : Config) (ui : UiInput) (s : State) :
    (controlPanel cfg ui s).resources = s.resources := by
  cases h : cfg.hasImGui
  · simp only [controlPanel, h, Bool.false_eq_true, if_false]
  · simp only [controlPanel, h, if_true, uiControls_eq]
    rfl

/-- A frame changes the resources only through the pending resize. -/
theorem drawFrame_resources (cfg : Config) (inp : FrameInput) (s : State) :
    (drawFrame cfg inp s).state.resources = (applyPendingResize s).resources := by
  rw [drawFrame_eq]
  split
  · split
    · exact controlPanel_resources cfg inp.ui (applyPendingResize s)
    · exact controlPanel_resources cfg inp.ui (applyPendingResize s)
  · rfl

theorem controlPanel_pending (cfg : Config) (ui : UiInput) (s : State) :
    (controlPanel cfg ui s).rsmRecreatePending
      = ((cfg.hasImGui && (resizeRequest ui.rsmResolution s).isSome) || s.rsmRecreatePending) := by
  cases h : cfg.hasImGui
  · simp only [controlPanel, h, Bool.false_eq_true, if_false, Bool.false_and, Bool.false_or]
  · simp only [controlPanel, h, if_true, uiControls_eq, Bool.true_and]

theorem controlPanel_pendingSize (cfg : Config) (ui : UiInput) (s : State) (size : Nat)
    (hui : cfg.hasImGui = true) (hreq : resizeRequest ui.rsmResolution s = some size) :
    (controlPanel cfg ui s).rsmPendingSize = size := by
  simp only [controlPanel, hui, if_true, uiControls_eq, hreq, Option.getD_some]

theorem resizeRequest_congr (selection : Option Int) (s t : State)
    (h : t.rsmResolutionIndex = s.rsmResolutionIndex) :
    resizeRequest selection t = resizeRequest selection s := by
  unfold resizeRequest
  rw [h]

theorem applyPendingResize_index (s : State) :
    (applyPendingResize s).rsmResolutionIndex = s.rsmResolutionIndex := by
  cases hp : s.rsmRecreatePending
  · rw [applyPendingResize_of_not_pending _ hp]
  · rw [applyPendingResize_of_pending _ hp, recreateRSMResources_eq]

/-- The pending flag at the end of a frame: set exactly when the frame reached
the control panel and the handler recorded a request. -/
theorem drawFrame_pending (cfg : Config) (inp : FrameInput) (s : State) :
    (drawFrame cfg inp s).state.rsmRecreatePending = true
      ↔ indexInRange inp.imageIndex (applyPendingResize s) ∧ cfg.hasImGui = true
        ∧ (resizeRequest inp.ui.rsmResolution s).isSome = true := by
  have hreq := resizeRequest_congr inp.ui.rsmResolution s (applyPendingResize s)
    (applyPendingResize_index s)
  have hpanel : (controlPanel cfg inp.ui (applyPendingResize s)).rsmRecreatePending = true
      ↔ cfg.hasImGui = true ∧ (resizeRequest inp.ui.rsmResolution s).isSome = true := by
    rw [controlPanel_pending, applyPendingResize_pending, hreq]
    simp
  rw [drawFrame_eq]
  split
  · rename_i hr
    split
    · show (controlPanel cfg inp.ui (applyPendingResize s)).rsmRecreatePending = true ↔ _
      rw [hpanel]
      exact ⟨fun h => ⟨hr, h⟩, fun h => h.2⟩
    · show (controlPanel cfg inp.ui (applyPendingResize s)).rsmRecreatePending = true ↔ _
      rw [hpanel]
      exact ⟨fun h => ⟨hr, h⟩, fun h => h.2⟩
  · rename_i hr
    show (applyPendingResize s).rsmRecreatePending = true ↔ _
    rw [applyPendingResize_pending]
    exact ⟨fun h => Bool.noConfusion h, fun h => absurd h.1 hr⟩

theorem drawFrame_rsmWidth (cfg : Config) (inp : FrameInput) (s : State) :
    (drawFrame cfg inp s).state.rsmWidth = (applyPendingResize s).rsmWidth := by
  have h := congrArg State.rsmWidth (drawFrame_resources cfg inp s)
  exact h

theorem drawFrame_rsmHeight (cfg : Config) (inp : FrameInput) (s : State) :
    (drawFrame cfg inp s).state.rsmHeight = (applyPendingResize s).rsmHeight := by
  have h := congrArg State.rsmHeight (drawFrame_resources cfg inp s)
  exact h

theorem applyPendingResize_size (s : State) (hp : s.rsmRecreatePending = true) :
    (applyPendingResize s).rsmWidth = s.rsmPendingSize
      ∧ (applyPendingResize s).rsmHeight = s.rsmPendingSize := by
  rw [applyPendingResize_of_pending _ hp, recreateRSMResources_eq]
  exact ⟨rfl, rfl⟩

theorem frameBody_not_resource (cfg : Config) (inp : FrameInput) (s : State) :
    ∀ e ∈ frameBody cfg inp s, e.isResourceCall = false := by
  intro e he
  simp only [frameBody, List.mem_cons, List.mem_singleton, List.not_mem_nil, or_false] at he
  rcases he with rfl | rfl | rfl <;> rfl

/-- The calls of a frame that starts with a pending resize. -/
theorem frameCalls_of_pending (cfg : Config) (inp : FrameInput) (s : State)
    (hp : s.rsmRecreatePending = true) :
    frameCalls cfg inp s =
      [Event.waitForFences s.currentFrame true UINT64_MAX]
        ++ callsOf (recreateRSMResources s.rsmPendingSize) s
        ++ [ .acquireNextImage s.currentFrame inp.imageIndex,
             .resetFences s.currentFrame,
             .uploadUniforms s.uniformBuffer (buildUniforms cfg (applyPendingResize s)) ]
        ++ (if indexInRange inp.imageIndex (applyPendingResize s) then
              [ Event.resetCommandBuffer (s.commandBuffers.getD inp.imageIndex VK_NULL_HANDLE),
                .recordCommandBuffer (s.commandBuffers.getD inp.imageIndex VK_NULL_HANDLE)
                  (recordedCmds cfg (applyPendingResize s) inp.imageIndex),
                .queueSubmit
                  { waitSemaphore := s.currentFrame, signalSemaphore := s.currentFrame,
                    commandBuffer := s.commandBuffers.getD inp.imageIndex VK_NULL_HANDLE,
                    fence := s.currentFrame, result := inp.submitResult } ]
              ++ (if inp.submitResult = VK_SUCCESS then
                    [Event.presentImage inp.imageIndex s.currentFrame] else [])
            else []) := by
  rw [frameCalls_eq, callsOf_recreateRSMResources]
  simp only [frameHead, frameBody, frameSubmit, frameCommandBuffer, resizeEvents, hp, if_true]

/-- The calls of a frame that starts with no pending resize: none of them
creates or destroys a resource. -/
theorem frameCalls_of_not_pending (cfg : Config) (inp : FrameInput) (s : State)
    (hp : s.rsmRecreatePending = false) :
    ∀ e ∈ frameCalls cfg inp s, e.isResourceCall = false := by
  intro e he
  rw [frameCalls_eq] at he
  rcases List.mem_append.mp he with he | he
  · simp only [frameHead, resizeEvents, hp, Bool.false_eq_true, if_false, List.append_nil,
      List.mem_append, List.mem_cons, List.mem_singleton, List.not_mem_nil, or_false] at he
    rcases he with rfl | rfl | rfl | rfl <;> rfl
  · split at he
    · rcases List.mem_append.mp he with he | he
      · exact frameBody_not_resource cfg inp s e he
      · split at he
        · rcases List.mem_singleton.mp he with rfl
          rfl
        · cases he
    · cases he

theorem getLast?_cons_getD (i d : Int) (l : List Int) :
    (i :: l).getLast?.getD d = l.getLast?.getD i := by
  cases l with
  | nil => rfl
  | cons a l =>
    rw [List.getLast?_cons_cons]
    cases h : (a :: l).getLast? with
    | none => simp at h
    | some j => rfl

theorem foldl_combo_invariant (more : List (Option Int)) (st : State)
    (hp : st.rsmRecreatePending = true)
    (hsize : st.rsmPendingSize = rsmSizeOfIndex st.rsmResolutionIndex) :
    (more.foldl (fun st sel => rsmResolutionCombo sel st) st).rsmRecreatePending = true
    ∧ (more.foldl (fun st sel => rsmResolutionCombo sel st) st).rsmPendingSize
        = rsmSizeOfIndex (more.foldl (fun st sel => rsmResolutionCombo sel st) st).rsmResolutionIndex
    ∧ (more.foldl (fun st sel => rsmResolutionCombo sel st) st).rsmResolutionIndex
        = (more.filterMap id).getLast?.getD st.rsmResolutionIndex := by
  induction more generalizing st with
  | nil => exact ⟨hp, hsize, rfl⟩
  | cons sel more ih =>
    have hstep : (rsmResolutionCombo sel st).rsmRecreatePending = true
        ∧ (rsmResolutionCombo sel st).rsmPendingSize
            = rsmSizeOfIndex (rsmResolutionCombo sel st).rsmResolutionIndex
        ∧ (rsmResolutionCombo sel st).rsmResolutionIndex = sel.getD st.rsmResolutionIndex := by
      rw [rsmResolutionCombo_eq]
      refine ⟨by simp [hp], ?_, rfl⟩
      cases sel with
      | none => simpa [resizeRequest] using hsize
      | some i =>
        by_cases hi : i = st.rsmResolutionIndex
        · simpa [resizeRequest, hi] using hsize
        · simp [resizeRequest, hi]
    obtain ⟨h1, h2, h3⟩ := ih (rsmResolutionCombo sel st) hstep.1 hstep.2.1
    refine ⟨h1, h2, ?_⟩
    rw [List.foldl_cons, h3, hstep.2.2]
    cases sel with
    | none => rfl
    | some i =>
      show (List.filterMap id more).getLast?.getD i
        = (i :: List.filterMap id more).getLast?.getD st.rsmResolutionIndex
      rw [getLast?_cons_getD]

theorem selectAll_spec (first : Int) (more : List (Option Int)) (s : State)
    (hfirst : first ≠ s.rsmResolutionIndex) :
    (selectAll first more s).rsmRecreatePending = true
    ∧ (selectAll first more s).rsmPendingSize = rsmSizeOfIndex (lastSelected first more) := by
  have h0 : (rsmResolutionCombo (some first) s).rsmRecreatePending = true
      ∧ (rsmResolutionCombo (some first) s).rsmPendingSize
          = rsmSizeOfIndex (rsmResolutionCombo (some first) s).rsmResolutionIndex
      ∧ (rsmResolutionCombo (some first) s).rsmResolutionIndex = first := by
    rw [rsmResolutionCombo_eq]
    simp [resizeRequest, hfirst]
  obtain ⟨h1, h2, h3⟩ := foldl_combo_invariant more _ h0.1 h0.2.1
  refine ⟨h1, ?_⟩
  unfold selectAll lastSelected
  rw [h2, h3, h0.2.2]

theorem rsmFramebufferSize_recreateEvents (n : Nat) (s : State) :
    (recreateEvents n s).filterMap Event.rsmFramebufferSize = [(n, n)] := by
  have h1 : (descriptorRebuildEvents s).filterMap Event.rsmFramebufferSize = [] := by
    rw [List.filterMap_eq_nil_iff]
    intro e he
    simp only [descriptorRebuildEvents, List.mem_flatMap, List.mem_range, List.mem_cons,
      List.mem_singleton, List.not_mem_nil, or_false] at he
    obtain ⟨i, _, rfl | rfl⟩ := he <;> rfl
  unfold recreateEvents
  rw [List.filterMap_append, h1]
  cases deviceReady s <;>
    simp [teardownEvents, creationEvents, recreatedFramebuffer, Event.rsmFramebufferSize]

theorem rsmFramebufferSize_of_not_resource (l : List Event)
    (h : ∀ e ∈ l, e.isResourceCall = false) :
    l.filterMap Event.rsmFramebufferSize = [] := by
  rw [List.filterMap_eq_nil_iff]
  intro e he
  have := h e he
  cases e <;> first | rfl | (simp [Event.isResourceCall] at this)

/-- C4: resize requests coalesce.  Let the handler record a request (`first`
differs from the index held) and then run for any further selections `more`
while that request is pending (for instance the same index again).  Then a
resize is pending with the size of the last selection; the next `drawFrame`
makes, right after the fence wait, the calls of one `recreateRSMResources` with
that size and after them no call that creates or destroys a resource; it builds
the offscreen framebuffer exactly once, at that size; and afterwards
`rsmWidth = rsmHeight =` that size. -/
theorem resize_requests_coalesce (cfg : Config) (inp : FrameInput) (s : State) (first : Int)
    (more : List (Option Int)) (hfirst : first ≠ s.rsmResolutionIndex) :
    (selectAll first more s).rsmRecreatePending = true
    ∧ (selectAll first more s).rsmPendingSize = rsmSizeOfIndex (lastSelected first more)
    ∧ (∃ tail : List Event,
        frameCalls cfg inp (selectAll first more s) =
          [Event.waitForFences (selectAll first more s).currentFrame true UINT64_MAX]
            ++ callsOf (recreateRSMResources (rsmSizeOfIndex (lastSelected first more)))
                (selectAll first more s)
            ++ tail
        ∧ ∀ e ∈ tail, e.isResourceCall = false)
    ∧ (frameCalls cfg inp (selectAll first more s)).filterMap Event.rsmFramebufferSize
        = [(rsmSizeOfIndex (lastSelected first more), rsmSizeOfIndex (lastSelected first more))]
    ∧ (drawFrame cfg inp (selectAll first more s)).state.rsmWidth
        = rsmSizeOfIndex (lastSelected first more)
    ∧ (drawFrame cfg inp (selectAll first more s)).state.rsmHeight
        = rsmSizeOfIndex (lastSelected first more) := by
  obtain ⟨hp, hsize⟩ := selectAll_spec first more s hfirst
  generalize selectAll first more s = st at hp hsize ⊢
  have hcalls := frameCalls_of_pending cfg inp st hp
  rw [hsize] at hcalls
  have htail : ∀ e ∈
      [ Event.acquireNextImage st.currentFrame inp.imageIndex,
        .resetFences st.currentFrame,
        .uploadUniforms st.uniformBuffer (buildUniforms cfg (applyPendingResize st)) ]
      ++ (if indexInRange inp.imageIndex (applyPendingResize st) then
            [ Event.resetCommandBuffer (st.commandBuffers.getD inp.imageIndex VK_NULL_HANDLE),
              .recordCommandBuffer (st.commandBuffers.getD inp.imageIndex VK_NULL_HANDLE)
                (recordedCmds cfg (applyPendingResize st) inp.imageIndex),
              .queueSubmit
                { waitSemaphore := st.currentFrame, signalSemaphore := st.currentFrame,
                  commandBuffer := st.commandBuffers.getD inp.imageIndex VK_NULL_HANDLE,
                  fence := st.currentFrame, result := inp.submitResult } ]
            ++ (if inp.submitResult = VK_SUCCESS then
                  [Event.presentImage inp.imageIndex st.currentFrame] else [])
          else []), e.isResourceCall = false := by
    intro e he
    rcases List.mem_append.mp he with he | he
    · simp only [List.mem_cons, List.mem_singleton, List.not_mem_nil, or_false] at he
      rcases he with rfl | rfl | rfl <;> rfl
    · split at he
      · rcases List.mem_append.mp he with he | he
        · simp only [List.mem_cons, List.mem_singleton, List.not_mem_nil, or_false] at he
          rcases he with rfl | rfl | rfl <;> rfl
        · split at he
          · rcases List.mem_singleton.mp he with rfl
            rfl
          · cases he
      · cases he
  refine ⟨hp, hsize, ⟨_, ?_, htail⟩, ?_, ?_, ?_⟩
  · rw [hcalls, List.append_assoc]
  · rw [hcalls, List.append_assoc, List.filterMap_append, List.filterMap_append,
      callsOf_recreateRSMResources, rsmFramebufferSize_recreateEvents,
      rsmFramebufferSize_of_not_resource _ htail]
    rfl
  · rw [drawFrame_rsmWidth, (applyPendingResize_size st hp).1, hsize]
  · rw [drawFrame_rsmHeight, (applyPendingResize_size st hp).2, hsize]

/-- C5: a request recorded during frame k (the handler ran with a selection
for which it records `size`, and the frame succeeded) leaves the flag set with
that size.  Frame k+1 then makes the calls of `recreateRSMResources size` right
after its fence wait and before the acquire, the upload, the recording and the
submission; the flag is false once the resize is applied.  Every frame, frame
k+1 included, ends with the flag set only if it recorded a request itself, and
a frame that starts with the flag false makes no call that creates or destroys
a resource. -/
theorem resize_consumed_once (cfg : Config) (inpK inp : FrameInput) (s : State) (size : Nat)
    (hui : cfg.hasImGui = true)
    (hk : (drawFrame cfg inpK s).outcome = .ok)
    (hreq : resizeRequest inpK.ui.rsmResolution s = some size) :
    (drawFrame cfg inpK s).state.rsmRecreatePending = true
    ∧ (drawFrame cfg inpK s).state.rsmPendingSize = size
    ∧ frameCalls cfg inp (drawFrame cfg inpK s).state =
        [Event.waitForFences (drawFrame cfg inpK s).state.currentFrame true UINT64_MAX]
          ++ callsOf (recreateRSMResources size) (drawFrame cfg inpK s).state
          ++ [ .acquireNextImage (drawFrame cfg inpK s).state.currentFrame inp.imageIndex,
               .resetFences (drawFrame cfg inpK s).state.currentFrame,
               .uploadUniforms (drawFrame cfg inpK s).state.uniformBuffer
                 (buildUniforms cfg (applyPendingResize (drawFrame cfg inpK s).state)) ]
          ++ (if indexInRange inp.imageIndex (applyPendingResize (drawFrame cfg inpK s).state) then
                [ Event.resetCommandBuffer
                    ((drawFrame cfg inpK s).state.commandBuffers.getD inp.imageIndex VK_NULL_HANDLE),
                  .recordCommandBuffer
                    ((drawFrame cfg inpK s).state.commandBuffers.getD inp.imageIndex VK_NULL_HANDLE)
                    (recordedCmds cfg (applyPendingResize (drawFrame cfg inpK s).state)
                      inp.imageIndex),
                  .queueSubmit
                    { waitSemaphore := (drawFrame cfg inpK s).state.currentFrame,
                      signalSemaphore := (drawFrame cfg inpK s).state.currentFrame,
                      commandBuffer :=
                        (drawFrame cfg inpK s).state.commandBuffers.getD inp.imageIndex
                          VK_NULL_HANDLE,
                      fence := (drawFrame cfg inpK s).state.currentFrame,
                      result := inp.submitResult } ]
                ++ (if inp.submitResult = VK_SUCCESS then
                      [Event.presentImage inp.imageIndex (drawFrame cfg inpK s).state.currentFrame]
                    else [])
              else [])
    ∧ (applyPendingResize (drawFrame cfg inpK s).state).rsmRecreatePending = false
    ∧ (applyPendingResize (drawFrame cfg inpK s).state).rsmWidth = size
    ∧ (applyPendingResize (drawFrame cfg inpK s).state).rsmHeight = size
    ∧ ∀ (st : State) (later : FrameInput),
        ((drawFrame cfg later st).state.rsmRecreatePending = true →
            (resizeRequest later.ui.rsmResolution st).isSome = true)
        ∧ (st.rsmRecreatePending = false →
            ∀ e ∈ frameCalls cfg later st, e.isResourceCall = false) := by
  have hok := drawFrame_outcome_ok cfg inpK s hk
  have hp : (drawFrame cfg inpK s).state.rsmRecreatePending = true :=
    (drawFrame_pending cfg inpK s).mpr ⟨hok.1, hui, by rw [hreq]; rfl⟩
  have hsz : (drawFrame cfg inpK s).state.rsmPendingSize = size := by
    rw [drawFrame_of_success cfg inpK s hok.1 hok.2]
    show (controlPanel cfg inpK.ui (applyPendingResize s)).rsmPendingSize = size
    apply controlPanel_pendingSize cfg _ _ _ hui
    rw [resizeRequest_congr _ s _ (applyPendingResize_index s), hreq]
  refine ⟨hp, hsz, ?_, applyPendingResize_pending _, ?_, ?_, ?_⟩
  · rw [frameCalls_of_pending cfg inp _ hp, hsz]
  · rw [(applyPendingResize_size _ hp).1, hsz]
  · rw [(applyPendingResize_size _ hp).2, hsz]
  · intro st later
    exact ⟨fun h => ((drawFrame_pending cfg later st).mp h).2.2,
      fun hst => frameCalls_of_not_pending cfg later st hst⟩

/-! ## The engine invariant is kept by every call to the resource manager -/

theorem EngOK.mono {n n' : Nat} {reg : ResName → List Handle} {d : List Handle}
    (h : EngOK n reg d) (hn : n ≤ n') : EngOK n' reg d :=
  ⟨fun x hx => Nat.lt_of_lt_of_le (h.destroyed_lt x hx) hn,
   fun name x hx => Nat.lt_of_lt_of_le (h.registry_lt name x hx) hn,
   h.registry_inj, h.registry_live⟩

theorem EngOK.register {n : Nat} {reg : ResName → List Handle} {d : List Handle}
    (h : EngOK n reg d) (name : ResName) (hs : List Handle) (n' : Nat)
    (hfresh : ∀ x ∈ hs, n ≤ x ∧ x < n') (hn : n ≤ n') :
    EngOK n' (Function.update reg name hs) d := by
  have hmem : ∀ m x, x ∈ Function.update reg name hs m →
      (m = name ∧ x ∈ hs) ∨ (m ≠ name ∧ x ∈ reg m) := by
    intro m x hx
    by_cases hnn : m = name
    · subst hnn
      rw [Function.update_same] at hx
      exact Or.inl ⟨rfl, hx⟩
    · rw [Function.update_noteq hnn] at hx
      exact Or.inr ⟨hnn, hx⟩
  refine ⟨?_, ?_, ?_, ?_⟩
  · intro x hx
    exact Nat.lt_of_lt_of_le (h.destroyed_lt x hx) hn
  · intro m x hx
    rcases hmem m x hx with ⟨_, hx⟩ | ⟨_, hx⟩
    · exact (hfresh x hx).2
    · exact Nat.lt_of_lt_of_le (h.registry_lt m x hx) hn
  · intro n1 n2 x h1 h2
    rcases hmem n1 x h1 with ⟨e1, x1⟩ | ⟨e1, x1⟩ <;> rcases hmem n2 x h2 with ⟨e2, x2⟩ | ⟨e2, x2⟩
    · rw [e1, e2]
    · exact absurd (h.registry_lt n2 x x2) (Nat.not_lt.mpr (hfresh x x1).1)
    · exact absurd (h.registry_lt n1 x x1) (Nat.not_lt.mpr (hfresh x x2).1)
    · exact h.registry_inj n1 n2 x x1 x2
  · intro m x hx
    rcases hmem m x hx with ⟨_, hx⟩ | ⟨_, hx⟩
    · intro hdes
      exact absurd (h.destroyed_lt x hdes) (Nat.not_lt.mpr (hfresh x hx).1)
    · exact h.registry_live m x hx

theorem EngOK.clear {n : Nat} {reg : ResName → List Handle} {d : List Handle}
    (h : EngOK n reg d) (name : ResName) :
    EngOK n (Function.update reg name []) (d ++ reg name) := by
  have hmem : ∀ m x, x ∈ Function.update reg name [] m → m ≠ name ∧ x ∈ reg m := by
    intro m x hx
    by_cases hnn : m = name
    · subst hnn
      rw [Function.update_same] at hx
      cases hx
    · rw [Function.update_noteq hnn] at hx
      exact ⟨hnn, hx⟩
  refine ⟨?_, ?_, ?_, ?_⟩
  · intro x hx
    rcases List.mem_append.mp hx with hx | hx
    · exact h.destroyed_lt x hx
    · exact h.registry_lt name x hx
  · intro m x hx
    exact h.registry_lt m x (hmem m x hx).2
  · intro n1 n2 x h1 h2
    exact h.registry_inj n1 n2 x (hmem n1 x h1).2 (hmem n2 x h2).2
  · intro m x hx hdes
    rcases List.mem_append.mp hdes with hdes | hdes
    · exact h.registry_live m x (hmem m x hx).2 hdes
    · exact (hmem m x hx).1 (h.registry_inj m name x (hmem m x hx).2 hdes)

theorem UnregOK.weaken {n n' : Nat} {reg : ResName → List Handle} {d : List Handle} {v : Handle}
    (h : UnregOK n reg d v) (hn : n ≤ n') : UnregOK n' reg d v :=
  ⟨Nat.lt_of_lt_of_le h.1 hn, h.2.1, h.2.2⟩

theorem UnregOK.registerOther {n : Nat} {reg : ResName → List Handle} {d : List Handle} {v : Handle}
    (h : UnregOK n reg d v) (name : ResName) (hs : List Handle) (n' : Nat)
    (hfresh : ∀ x ∈ hs, n ≤ x) (hn : n ≤ n') :
    UnregOK n' (Function.update reg name hs) d v := by
  refine ⟨Nat.lt_of_lt_of_le h.1 hn, h.2.1, ?_⟩
  intro m hv
  by_cases hnn : m = name
  · subst hnn
    rw [Function.update_same] at hv
    exact absurd h.1 (Nat.not_lt.mpr (hfresh v hv))
  · rw [Function.update_noteq hnn] at hv
    exact h.2.2 m hv

theorem UnregOK.clearOther {n : Nat} {reg : ResName → List Handle} {d : List Handle} {v : Handle}
    (h : UnregOK n reg d v) (name : ResName) :
    UnregOK n (Function.update reg name []) (d ++ reg name) v := by
  refine ⟨h.1, ?_, ?_⟩
  · intro hdes
    rcases List.mem_append.mp hdes with hdes | hdes
    · exact h.2.1 hdes
    · exact h.2.2 name hdes
  · intro m hv
    by_cases hnn : m = name
    · subst hnn
      rw [Function.update_same] at hv
      cases hv
    · rw [Function.update_noteq hnn] at hv
      exact h.2.2 m hv

theorem foldl_invariant {α : Type} (P : State → Prop) (f : State → α → State)
    (hf : ∀ s a, P s → P (f s a)) (l : List α) (s : State) (h : P s) : P (l.foldl f s) := by
  induction l generalizing s with
  | nil => exact h
  | cons a l ih => exact ih (f s a) (hf s a h)

/-! ## The invariant is kept by the resize and by every frame -/

theorem fresh_one (n x : Nat) (hx : x ∈ [n]) : n ≤ x ∧ x < n + 1 := by
  rcases List.mem_singleton.mp hx with rfl
  omega

theorem fresh_three (n x : Nat) (hx : x ∈ [n, n + 1, n + 2]) : n ≤ x ∧ x < n + 3 := by
  simp only [List.mem_cons, List.mem_singleton, List.not_mem_nil, or_false] at hx
  rcases hx with rfl | rfl | rfl <;> omega

theorem EngineInv.attachments {s : State} (h : EngineInv s) :
    EngineInv (createAttachments s) := by
  have h1 := EngOK.register h .rsmPosition [s.nextHandle, s.nextHandle + 1, s.nextHandle + 2]
    (s.nextHandle + 3) (fresh_three _) (by omega)
  have h2 := EngOK.register h1 .rsmNormal
    [s.nextHandle + 3, s.nextHandle + 3 + 1, s.nextHandle + 3 + 2] (s.nextHandle + 3 + 3)
    (fresh_three _) (by omega)
  have h3 := EngOK.register h2 .rsmFlux
    [s.nextHandle + 3 + 3, s.nextHandle + 3 + 3 + 1, s.nextHandle + 3 + 3 + 2]
    (s.nextHandle + 3 + 3 + 3) (fresh_three _) (by omega)
  unfold EngineInv
  simp only [createAttachments, buildImage]
  exact h3

theorem EngineInv.offscreenFramebuffer {s : State} (h : EngineInv s) :
    EngineInv (createRSMFramebuffer s) := by
  have h1 := EngOK.register h .rsmFb [s.nextHandle] (s.nextHandle + 1) (fresh_one _) (by omega)
  unfold EngineInv
  simp only [createRSMFramebuffer, buildFramebuffer]
  exact h1

theorem EngineInv.rebuildSet {s : State} (h : EngineInv s) (i : Nat) :
    EngineInv (recreateDescriptorSet s i) := by
  have h1 := EngOK.register (EngOK.clear h (.descriptorSet i)) (.descriptorSet i) [s.nextHandle]
    (s.nextHandle + 1) (fresh_one _) (by omega)
  unfold EngineInv
  simp only [recreateDescriptorSet, buildDescriptorSet, clearResource]
  exact h1

theorem EngineInv.recreateEngine {s : State} (h : EngineInv s) (n : Nat) :
    EngineInv (recreateRSMResources n s) := by
  have h1 := EngOK.clear (EngOK.clear (EngOK.clear (EngOK.clear h .rsmFb) .rsmPosition)
    .rsmNormal) .rsmFlux
  have h2 := EngOK.register h1 .rsmPosition [s.nextHandle, s.nextHandle + 1, s.nextHandle + 2]
    (s.nextHandle + 3) (fresh_three _) (by omega)
  have h3 := EngOK.register h2 .rsmNormal
    [s.nextHandle + 3, s.nextHandle + 3 + 1, s.nextHandle + 3 + 2] (s.nextHandle + 3 + 3)
    (fresh_three _) (by omega)
  have h4 := EngOK.register h3 .rsmFlux
    [s.nextHandle + 3 + 3, s.nextHandle + 3 + 3 + 1, s.nextHandle + 3 + 3 + 2]
    (s.nextHandle + 3 + 3 + 3) (fresh_three _) (by omega)
  have h5 := EngOK.register h4 .rsmFb [s.nextHandle + 3 + 3 + 3] (s.nextHandle + 3 + 3 + 3 + 1)
    (fresh_one _) (by omega)
  cases hd : deviceReady s <;>
  · simp only [recreateRSMResources, hd, createAttachments,
      createRSMFramebuffer, buildImage, buildFramebuffer, clearResource, State.log,
      Bool.false_eq_true, if_false, if_true]
    apply foldl_invariant EngineInv _ (fun s i hs => hs.rebuildSet i)
    unfold EngineInv
    simp only []
    exact h5

theorem Unregistered.rebuildSetView {s : State} {v : Handle} (h : Unregistered s v)
    (i : Nat) : Unregistered (recreateDescriptorSet s i) v := by
  have h1 := UnregOK.registerOther (UnregOK.clearOther h (.descriptorSet i)) (.descriptorSet i)
    [s.nextHandle] (s.nextHandle + 1) (fun x hx => (fresh_one _ x hx).1) (by omega)
  unfold Unregistered
  simp only [recreateDescriptorSet, buildDescriptorSet, clearResource]
  exact h1

theorem Unregistered.recreateView {s : State} {v : Handle} (h : Unregistered s v)
    (n : Nat) : Unregistered (recreateRSMResources n s) v := by
  have h1 := UnregOK.clearOther (UnregOK.clearOther (UnregOK.clearOther (UnregOK.clearOther h .rsmFb) .rsmPosition)
    .rsmNormal) .rsmFlux
  have h2 := UnregOK.registerOther h1 .rsmPosition [s.nextHandle, s.nextHandle + 1, s.nextHandle + 2]
    (s.nextHandle + 3) (fun x hx => (fresh_three _ x hx).1) (by omega)
  have h3 := UnregOK.registerOther h2 .rsmNormal
    [s.nextHandle + 3, s.nextHandle + 3 + 1, s.nextHandle + 3 + 2] (s.nextHandle + 3 + 3)
    (fun x hx => (fresh_three _ x hx).1) (by omega)
  have h4 := UnregOK.registerOther h3 .rsmFlux
    [s.nextHandle + 3 + 3, s.nextHandle + 3 + 3 + 1, s.nextHandle + 3 + 3 + 2]
    (s.nextHandle + 3 + 3 + 3) (fun x hx => (fresh_three _ x hx).1) (by omega)
  have h5 := UnregOK.registerOther h4 .rsmFb [s.nextHandle + 3 + 3 + 3] (s.nextHandle + 3 + 3 + 3 + 1)
    (fun x hx => (fresh_one _ x hx).1) (by omega)
  cases hd : deviceReady s <;>
  · simp only [recreateRSMResources, hd, createAttachments,
      createRSMFramebuffer, buildImage, buildFramebuffer, clearResource, State.log,
      Bool.false_eq_true, if_false, if_true]
    apply foldl_invariant (fun t => Unregistered t v) _ (fun s i hs => hs.rebuildSetView i)
    unfold Unregistered
    simp only []
    exact h5

theorem Inv.recreate {s : State} (h : Inv s) (n : Nat) :
    Inv (recreateRSMResources n s) := by
  have hviews : ∀ v ∈ (recreateRSMResources n s).swapchainImageViews,
      Unregistered (recreateRSMResources n s) v := by
    intro v hv
    have hv2 : v ∈ s.swapchainImageViews := by
      rw [recreateRSMResources_eq] at hv
      exact hv
    exact (h.views v hv2).recreateView n
  refine ⟨h.engine.recreateEngine n, ?_, ?_, ?_, ?_, ?_, ?_, ?_, ?_, ?_, ?_, hviews⟩
  all_goals rw [recreateRSMResources_eq]
  · exact h.device
  · rfl
  · rfl
  · rfl
  · rfl
  · rfl
  · simp
  · intro i hi
    have hi2 : i < s.swapchainImages.length := by simpa using hi
    simp [recreateRegistry, recreatedSet, imageDescriptors, hi2]
  · exact h.flower
  · exact h.mainFbs

theorem State.eq_of_resources {s t : State} (h : s.resources = t.resources) :
    t = { s with
      trace := t.trace, currentFrame := t.currentFrame, frameCounter := t.frameCounter,
      enableKey := t.enableKey, enableFill := t.enableFill, enableRim := t.enableRim,
      enableEnv := t.enableEnv, enableRSM := t.enableRSM,
      enableIndirectLighting := t.enableIndirectLighting,
      enableImportanceSampling := t.enableImportanceSampling,
      showRSMOnly := t.showRSMOnly, showIndirectOnly := t.showIndirectOnly,
      rsmResolutionIndex := t.rsmResolutionIndex, rsmPendingSize := t.rsmPendingSize,
      rsmRecreatePending := t.rsmRecreatePending, enablePBR := t.enablePBR,
      selectedMaterial := t.selectedMaterial } := by
  cases s
  cases t
  simp only [State.resources, State.mk.injEq, true_and, and_true] at h
  simp only [State.mk.injEq, true_and, and_true]
  simp only [h, and_self]

theorem Inv.of_resources {s t : State} (h : Inv s) (hres : s.resources = t.resources) :
    Inv t := by
  rw [State.eq_of_resources hres]
  exact ⟨h.engine, h.device, h.fb, h.fbAttachments, h.position, h.normal, h.flux, h.setsLength,
    h.sets, h.flower, h.mainFbs, h.views⟩

theorem Inv.resize {s : State} (h : Inv s) : Inv (applyPendingResize s) := by
  cases hp : s.rsmRecreatePending
  · rw [applyPendingResize_of_not_pending _ hp]
    exact h
  · rw [applyPendingResize_of_pending _ hp]
    exact (h.recreate s.rsmPendingSize).of_resources rfl

theorem Inv.frame {s : State} (h : Inv s) (cfg : Config) (inp : FrameInput) :
    Inv (drawFrame cfg inp s).state :=
  h.resize.of_resources (drawFrame_resources cfg inp s).symm

theorem Inv.logged {s : State} (h : Inv s) (e : Event) : Inv (s.log e) :=
  h.of_resources rfl

theorem Inv.loop {s : State} (h : Inv s) (cfg : Config) (inputs : List FrameInput) :
    Inv (frames cfg inputs s).state := by
  induction inputs generalizing s with
  | nil => exact h
  | cons inp rest ih =>
    by_cases hok : (drawFrame cfg inp (s.log .pollEvents)).outcome = .ok
    · rw [frames_cons_ok cfg inp rest s hok]
      exact ih ((h.logged _).frame cfg inp)
    · rw [frames_cons_not_ok cfg inp rest s hok]
      exact (h.logged _).frame cfg inp

/-! ## The invariant holds after `initVulkan` -/

theorem framebufferRegistry_zero (s : State) : framebufferRegistry s 0 = s.registry := by
  funext name
  cases name <;> simp [framebufferRegistry]

theorem framebufferRegistry_succ (s : State) (n : Nat) :
    Function.update (framebufferRegistry s n) (.mainFb n) [s.nextHandle + n]
      = framebufferRegistry s (n + 1) := by
  funext name
  by_cases h : name = .mainFb n
  · subst h; simp [framebufferRegistry]
  · rw [Function.update_noteq h]
    cases name <;> simp [framebufferRegistry] at h ⊢
    rename_i i
    have : i < n + 1 ↔ i < n := by omega
    simp [this]

theorem rebuildRegistry_succ_build (s : State) (n : Nat) :
    Function.update (rebuildRegistry s n) (.descriptorSet n) [s.nextHandle + n]
      = rebuildRegistry s (n + 1) := by
  rw [← rebuildRegistry_succ]
  funext name
  by_cases h : name = .descriptorSet n
  · subst h; simp
  · simp [Function.update_noteq h]

/-- The loop of `createFramebuffers` in closed form. -/
theorem foldl_createFramebuffer (cfg : Config) (n : Nat) (s : State)
    (h : n ≤ s.framebuffers.length) :
    (List.range n).foldl (createFramebuffer cfg) s =
      { s with
        nextHandle := s.nextHandle + n,
        registry := framebufferRegistry s n,
        trace := s.trace ++ (List.range n).map
          (fun i => Event.buildFramebuffer (.mainFb i) (builtFramebuffer cfg s i)),
        framebuffers := (List.range n).map (builtFramebuffer cfg s) ++ s.framebuffers.drop n } := by
  induction n with
  | zero => simp [framebufferRegistry_zero]
  | succ n ih =>
    rw [List.range_succ, List.foldl_append, ih (by omega)]
    simp only [List.foldl_cons, List.foldl_nil, createFramebuffer, buildFramebuffer]
    simp only [State.mk.injEq, true_and, and_true]
    refine ⟨?_, ?_, ?_, ?_⟩
    · rw [← List.range_succ]
      exact set_map_range_append_drop _ _ _ (by omega) _ (by simp [builtFramebuffer])
    · omega
    · exact framebufferRegistry_succ s n
    · simp [builtFramebuffer]

/-- The loop of `createDescriptorSets` in closed form. -/
theorem foldl_createDescriptorSet (n : Nat) (s : State) (h : n ≤ s.descriptorSets.length) :
    (List.range n).foldl createDescriptorSet s =
      { s with
        nextHandle := s.nextHandle + n,
        registry := rebuildRegistry s n,
        trace := s.trace ++ (List.range n).map
          (fun i => Event.buildDescriptorSet (.descriptorSet i) (rebuiltSet s i)),
        descriptorSets := (List.range n).map (rebuiltSet s) ++ s.descriptorSets.drop n } := by
  induction n with
  | zero => simp [rebuildRegistry_zero]
  | succ n ih =>
    rw [List.range_succ, List.foldl_append, ih (by omega)]
    simp only [List.foldl_cons, List.foldl_nil, createDescriptorSet, buildDescriptorSet,
      imageDescriptors]
    simp only [State.mk.injEq, true_and, and_true]
    refine ⟨?_, ?_, ?_, ?_⟩
    · rw [← List.range_succ]
      exact set_map_range_append_drop _ _ _ (by omega) _ (by simp [rebuiltSet, imageDescriptors])
    · omega
    · exact rebuildRegistry_succ_build s n
    · simp [rebuiltSet, imageDescriptors]

set_option maxHeartbeats 1000000 in
/-- Initialisation from the freshly constructed object succeeds when the window system starts,
and leaves exactly the state described by the closed form. -/
theorem initVulkan_eq (cfg : Config) (hg : cfg.glfwInitOk = true) :
    initVulkan cfg {} = ⟨initState cfg, .ok⟩ := by
  simp only [initVulkan, initVulkanPC, hg, Bool.true_eq_false, if_false,
    createSwapchain, createRenderPass, createFramebuffers, build]
  rw [foldl_createFramebuffer _ _ _ (by simp [length_resize])]
  simp only [createRSMPassResources, createAttachments, createRSMFramebuffer, createVertexBuffer,
    createUniformBuffer, createFlowerTexture, createDescriptorSetLayout, createDescriptorSets,
    build, buildImage, buildFramebuffer]
  rw [foldl_createDescriptorSet _ _ (by simp [length_resize])]
  simp only [createPipeline, createRSMPipeline, createCommandBuffers, build, VK_NULL_HANDLE,
    if_true, List.length_map, List.length_range, length_resize]
  simp only [initState, Result.mk.injEq, State.mk.injEq, true_and, and_true]
  and_intros
  all_goals try (simp only [Handle, initBase, initOffscreen, initPipelines]; first | done | omega)
  · rw [List.drop_eq_nil_of_le (by simp [length_resize]), List.append_nil]
    apply List.map_congr_left
    intro i _
    simp only [builtFramebuffer, initFramebuffer, initViews, initBase, VK_NULL_HANDLE, Handle,
      Framebuffer.mk.injEq, and_true, true_and]
  · have hd : List.drop cfg.swapchainImageCount
        (resize [] cfg.swapchainImageCount DescriptorSet.null) = [] :=
      List.drop_eq_nil_of_le (by simp [length_resize])
    rw [hd, List.append_nil]
    apply List.map_congr_left
    intro i _
    simp only [rebuiltSet, initSet, imageDescriptors, initOffscreen, initBase, Handle,
      DescriptorSet.mk.injEq]
  · rfl
  · funext name
    cases name <;>
      simp [Function.update, rebuildRegistry, framebufferRegistry, initRegistry, initBase,
        initOffscreen, initPipelines]
  · simp [initEvents, rebuiltSet, builtFramebuffer, initFramebuffer, initSet, initViews,
      imageDescriptors, initBase, initOffscreen, initPipelines, VK_NULL_HANDLE]
theorem initRegistry_range (cfg : Config) (name : ResName) (h : Handle)
    (hm : h ∈ initRegistry cfg name) :
    initBase cfg ≤ h ∧ h < initPipelines cfg + 7 := by
  cases name <;> simp only [initRegistry] at hm <;> try split at hm
  all_goals simp only [List.mem_cons, List.mem_singleton, List.not_mem_nil, or_false, Handle] at hm
  all_goals try simp only [initPipelines, initOffscreen, Handle] at *
  all_goals omega

/-- The name under which a handle is registered after `initVulkan`. -/
theorem initRegistry_inj (cfg : Config) (n1 n2 : ResName) (h : Handle)
    (h1 : h ∈ initRegistry cfg n1) (h2 : h ∈ initRegistry cfg n2) : n1 = n2 := by
  cases n1 <;> cases n2 <;> simp only [initRegistry] at h1 h2 <;> try split at h1
  all_goals try split at h2
  all_goals try simp only [List.mem_cons, List.mem_singleton, List.not_mem_nil, or_false, Handle] at h1 h2
  all_goals try simp only [initPipelines, initOffscreen, Handle] at *
  all_goals first | rfl | (exfalso; omega) | (congr 1; omega)


theorem initViews_range (cfg : Config) (v : Handle) (hv : v ∈ initViews cfg) :
    v < initBase cfg := by
  simp only [initViews, List.mem_map, List.mem_range] at hv
  obtain ⟨i, hi, rfl⟩ := hv
  simp only [initBase, Handle] at *
  omega

/-- The state after `initVulkan` satisfies the invariant. -/
theorem Inv.init (cfg : Config) : Inv (initState cfg) where
  engine :=
    { destroyed_lt := by intro h hm; simp [initState] at hm
      registry_lt := by
        intro name h hm
        have := initRegistry_range cfg name h hm
        simp only [initState, Handle] at *
        omega
      registry_inj := initRegistry_inj cfg
      registry_live := by intro name h _; simp [initState] }
  device := rfl
  fb := rfl
  fbAttachments := rfl
  position := rfl
  normal := rfl
  flux := rfl
  setsLength := by simp [initState]
  sets := by
    intro i h
    simp only [initState, List.length_map, List.length_range] at h
    simp [initState, initRegistry, h, initSet, imageDescriptors]
  flower := by simp [initState, initRegistry]
  mainFbs := by
    intro i h
    simp only [initState, List.length_map, List.length_range] at h
    have hl : i < (initViews cfg).length := by simp [initViews, h]
    simp [initState, initRegistry, h, initFramebuffer, hl]
  views := by
    intro v hv
    have hlt := initViews_range cfg v hv
    refine ⟨?_, ?_, ?_⟩
    · simp only [initState, initPipelines, initOffscreen, Handle] at *
      omega
    · simp [initState]
    · intro name hm
      have := initRegistry_range cfg name v hm
      simp only [Handle] at *
      omega

/-! ## What the members hold is live -/

/-- The descriptor sets held by the members are live, and so are the views they bind. -/
theorem Inv.descriptorSet_live {s : State} (h : Inv s) (d : DescriptorSet)
    (hd : d ∈ s.descriptorSets) :
    d.images = imageDescriptors s ∧ d.handle ∉ s.destroyed ∧ ∀ v ∈ d.views, v ∉ s.destroyed := by
  obtain ⟨i, hi, rfl⟩ := List.getElem_of_mem hd
  obtain ⟨hreg, himg⟩ := h.sets i hi
  refine ⟨himg, ?_, ?_⟩
  · exact h.engine.registry_live (.descriptorSet i) _ (by rw [hreg]; exact List.mem_singleton_self _)
  · intro v hv
    simp only [DescriptorSet.views, himg, imageDescriptors, List.map_cons, List.map_nil,
      List.mem_cons, List.mem_singleton, List.not_mem_nil, or_false] at hv
    rcases hv with rfl | rfl | rfl | rfl
    · exact h.engine.registry_live .rsmPosition _ (by rw [h.position]; simp)
    · exact h.engine.registry_live .rsmNormal _ (by rw [h.normal]; simp)
    · exact h.engine.registry_live .rsmFlux _ (by rw [h.flux]; simp)
    · exact h.engine.registry_live .flowerTexture _ h.flower

/-- The offscreen framebuffer held by the members is live, and so are its attachments. -/
theorem Inv.offscreen_live {s : State} (h : Inv s) :
    s.rsmFramebuffer.handle ∉ s.destroyed ∧ (∀ v ∈ s.rsmFramebuffer.attachments, v ∉ s.destroyed)
      ∧ s.rsmPositionImage ∉ s.destroyed ∧ s.rsmNormalImage ∉ s.destroyed
      ∧ s.rsmFluxImage ∉ s.destroyed := by
  refine ⟨?_, ?_, ?_, ?_, ?_⟩
  · exact h.engine.registry_live .rsmFb _ (by rw [h.fb]; simp)
  · intro v hv
    rw [h.fbAttachments] at hv
    simp only [List.mem_cons, List.mem_singleton, List.not_mem_nil, or_false] at hv
    rcases hv with rfl | rfl | rfl
    · exact h.engine.registry_live .rsmPosition _ (by rw [h.position]; simp)
    · exact h.engine.registry_live .rsmNormal _ (by rw [h.normal]; simp)
    · exact h.engine.registry_live .rsmFlux _ (by rw [h.flux]; simp)
  · exact h.engine.registry_live .rsmPosition _ (by rw [h.position]; simp)
  · exact h.engine.registry_live .rsmNormal _ (by rw [h.normal]; simp)
  · exact h.engine.registry_live .rsmFlux _ (by rw [h.flux]; simp)

/-- The swapchain framebuffers held by the members are live, and so are their attachments. -/
theorem Inv.mainFb_live {s : State} (h : Inv s) (f : Framebuffer) (hf : f ∈ s.framebuffers) :
    f.handle ∉ s.destroyed ∧ ∀ v ∈ f.attachments, v ∉ s.destroyed := by
  obtain ⟨i, hi, rfl⟩ := List.getElem_of_mem hf
  obtain ⟨hreg, hatt⟩ := h.mainFbs i hi
  refine ⟨?_, ?_⟩
  · exact h.engine.registry_live (.mainFb i) _ (by rw [hreg]; exact List.mem_singleton_self _)
  · intro v hv
    exact (h.views v (hatt v hv)).2.1

/-! ## The recreation of the offscreen targets -/

/-- C7: in a state reached by the program (one that satisfies the invariant `Inv`, as the
state after `initVulkan` and after every frame does), `recreateRSMResources newSize` makes
exactly these calls, in this order: one `vkDeviceWaitIdle`, the destruction of the framebuffer
"rsm-fb" and of the three images "rsm_position", "rsm_normal", "rsm_flux" (each with its view and
allocation), the creation of three images and of the framebuffer at `newSize` x `newSize`, and
for every swapchain image the destruction of its descriptor set followed by the creation of a
new one.  Afterwards there is one descriptor set per swapchain image, every descriptor set binds
the new position, normal and flux views at bindings 1, 2 and 3, neither a descriptor set nor a
view it binds is destroyed, while the three old views and the old descriptor sets are.  This
holds for every `newSize`, in particular for 2048 in the state after `initVulkan`, where the
targets are 1024 x 1024. -/
theorem recreate_rebinds_descriptor_sets (newSize : Nat) (s : State) (h : Inv s) :
    callsOf (recreateRSMResources newSize) s =
      [ Event.deviceWaitIdle,
        .clearResource .rsmFb .framebuffer [s.rsmFramebuffer.handle],
        .clearResource .rsmPosition .image
          [s.rsmPositionImage, s.rsmPositionView, s.rsmPositionAlloc],
        .clearResource .rsmNormal .image [s.rsmNormalImage, s.rsmNormalView, s.rsmNormalAlloc],
        .clearResource .rsmFlux .image [s.rsmFluxImage, s.rsmFluxView, s.rsmFluxAlloc],
        .buildImage .rsmPosition .r16g16b16a16Sfloat newSize newSize
          ⟨(recreateRSMResources newSize s).rsmPositionImage,
            (recreateRSMResources newSize s).rsmPositionView,
            (recreateRSMResources newSize s).rsmPositionAlloc⟩,
        .buildImage .rsmNormal .r16g16b16a16Sfloat newSize newSize
          ⟨(recreateRSMResources newSize s).rsmNormalImage,
            (recreateRSMResources newSize s).rsmNormalView,
            (recreateRSMResources newSize s).rsmNormalAlloc⟩,
        .buildImage .rsmFlux .r16g16b16a16Sfloat newSize newSize
          ⟨(recreateRSMResources newSize s).rsmFluxImage,
            (recreateRSMResources newSize s).rsmFluxView,
            (recreateRSMResources newSize s).rsmFluxAlloc⟩,
        .buildFramebuffer .rsmFb (recreateRSMResources newSize s).rsmFramebuffer ]
      ++ (List.range s.swapchainImages.length).flatMap (fun i =>
          [ Event.clearResource (.descriptorSet i) .descriptorSet
              [(s.descriptorSets.getD i DescriptorSet.null).handle],
            Event.buildDescriptorSet (.descriptorSet i)
              ((recreateRSMResources newSize s).descriptorSets.getD i DescriptorSet.null) ])
    ∧ (recreateRSMResources newSize s).rsmFramebuffer.width = newSize
    ∧ (recreateRSMResources newSize s).rsmFramebuffer.height = newSize
    ∧ (recreateRSMResources newSize s).rsmFramebuffer.attachments =
        [(recreateRSMResources newSize s).rsmPositionView,
          (recreateRSMResources newSize s).rsmNormalView,
          (recreateRSMResources newSize s).rsmFluxView]
    ∧ (recreateRSMResources newSize s).descriptorSets.length = s.swapchainImages.length
    ∧ (∀ d ∈ (recreateRSMResources newSize s).descriptorSets,
        d.images =
            [ (1, (recreateRSMResources newSize s).rsmPositionView, s.rsmSampler),
              (2, (recreateRSMResources newSize s).rsmNormalView, s.rsmSampler),
              (3, (recreateRSMResources newSize s).rsmFluxView, s.rsmSampler),
              (4, s.flowerTextureView, s.flowerTextureSampler) ]
          ∧ d.handle ∉ (recreateRSMResources newSize s).destroyed
          ∧ ∀ v ∈ d.views, v ∉ (recreateRSMResources newSize s).destroyed)
    ∧ s.rsmPositionView ∈ (recreateRSMResources newSize s).destroyed
    ∧ s.rsmNormalView ∈ (recreateRSMResources newSize s).destroyed
    ∧ s.rsmFluxView ∈ (recreateRSMResources newSize s).destroyed
    ∧ (∀ d ∈ s.descriptorSets, d.handle ∈ (recreateRSMResources newSize s).destroyed) := by
  have hlive := (h.recreate newSize).descriptorSet_live
  rw [callsOf_recreateRSMResources]
  rw [recreateRSMResources_eq] at hlive ⊢
  refine ⟨?_, rfl, rfl, rfl, by simp, ?_, ?_, ?_, ?_, ?_⟩
  · simp only [recreateEvents, h.device, if_true, teardownEvents, creationEvents,
      descriptorRebuildEvents, h.fb, h.position, h.normal, h.flux, List.cons_append,
      List.nil_append, List.append_assoc, List.cons.injEq, true_and]
    simp only [List.flatMap]
    congr 1
    apply List.map_congr_left
    intro i hi
    have hi1 : i < s.swapchainImages.length := List.mem_range.mp hi
    have hi2 : i < s.descriptorSets.length := h.setsLength ▸ hi1
    simp [(h.sets i hi2).1, hi1, hi2]
  · intro d hd
    obtain ⟨himg, hrest⟩ := hlive d hd
    exact ⟨himg, hrest⟩
  · simp [recreateDestroyed, h.position]
  · simp [recreateDestroyed, h.normal]
  · simp [recreateDestroyed, h.flux]
  · intro d hd
    obtain ⟨i, hi, rfl⟩ := List.getElem_of_mem hd
    have hi1 : i < s.swapchainImages.length := h.setsLength ▸ hi
    simp only [recreateDestroyed, List.mem_append, List.mem_flatMap, List.mem_range]
    exact Or.inr (Or.inr ⟨i, hi1, by rw [(h.sets i hi).1]; exact List.mem_singleton_self _⟩)

/-- The scenario of C7 in the state after `initVulkan` on the desktop configuration, where the
targets are 1024 x 1024: the calls of `recreateRSMResources 2048`, with the handles written out. -/
theorem recreate_rebinds_descriptor_sets_witness :
    Inv (initState desktop) ∧ (initState desktop).rsmWidth = 1024
      ∧ callsOf (recreateRSMResources 2048) (initState desktop) =
        [ Event.deviceWaitIdle,
          .clearResource .rsmFb .framebuffer [19],
          .clearResource .rsmPosition .image [9, 10, 11],
          .clearResource .rsmNormal .image [12, 13, 14],
          .clearResource .rsmFlux .image [15, 16, 17],
          .buildImage .rsmPosition .r16g16b16a16Sfloat 2048 2048 ⟨42, 43, 44⟩,
          .buildImage .rsmNormal .r16g16b16a16Sfloat 2048 2048 ⟨45, 46, 47⟩,
          .buildImage .rsmFlux .r16g16b16a16Sfloat 2048 2048 ⟨48, 49, 50⟩,
          .buildFramebuffer .rsmFb ⟨51, [43, 46, 49], 2048, 2048, 18⟩,
          .clearResource (.descriptorSet 0) .descriptorSet [29],
          .buildDescriptorSet (.descriptorSet 0)
            ⟨52, 28, 22, [(1, 43, 20), (2, 46, 20), (3, 49, 20), (4, 25, 27)]⟩,
          .clearResource (.descriptorSet 1) .descriptorSet [30],
          .buildDescriptorSet (.descriptorSet 1)
            ⟨53, 28, 22, [(1, 43, 20), (2, 46, 20), (3, 49, 20), (4, 25, 27)]⟩ ] :=
  ⟨Inv.init desktop, rfl,
    (recreate_rebinds_descriptor_sets 2048 (initState desktop) (Inv.init desktop)).1.trans
      (by decide)⟩

/-! ## The check accepts every run -/

theorem Monitor.run_append (m : Monitor) (a b : List Event) :
    Monitor.run m (a ++ b) = (Monitor.run m a).bind (fun next => Monitor.run next b) := by
  induction a generalizing m with
  | nil => rfl
  | cons e es ih =>
    simp only [List.cons_append, Monitor.run]
    cases h : m.step e with
    | none => rfl
    | some next => exact ih next

theorem Monitor.run_append_of {m m1 m2 : Monitor} {a b : List Event}
    (ha : Monitor.run m a = some m1) (hb : Monitor.run m1 b = some m2) :
    Monitor.run m (a ++ b) = some m2 := by
  rw [Monitor.run_append, ha]
  exact hb

theorem Monitor.run_cons_of {m next : Monitor} {e : Event} {es : List Event}
    (h : m.step e = some next) : Monitor.run m (e :: es) = Monitor.run next es := by
  simp only [Monitor.run, h]

theorem Monitor.step_reset (m : Monitor) (commandBuffer : Handle) :
    m.step (.resetCommandBuffer commandBuffer) = some { m with idle := false, recorded := none } :=
  rfl

theorem Monitor.step_record (m : Monitor) (commandBuffer : Handle) (cmds : List Cmd) :
    m.step (.recordCommandBuffer commandBuffer cmds)
      = some { m with idle := false, recorded := some (commandBuffer, cmds) } :=
  rfl

theorem Monitor.step_creation (m : Monitor) (e : Event) (he : e.isCreation = true) :
    m.step e = some { m with recorded := none } := by
  cases e <;> first | rfl | exact Bool.noConfusion he

/-- Creations leave `idle` and `destroyed` as they are. -/
theorem Monitor.run_creations (m : Monitor) (l : List Event)
    (hl : ∀ e ∈ l, e.isCreation = true) :
    ∃ next, Monitor.run m l = some next ∧ next.idle = m.idle
      ∧ next.destroyed = m.destroyed := by
  induction l generalizing m with
  | nil => exact ⟨m, rfl, rfl, rfl⟩
  | cons e es ih =>
    obtain ⟨next, h1, h2, h3⟩ := ih { m with recorded := none }
      (fun x hx => hl x (List.mem_cons_of_mem _ hx))
    refine ⟨next, ?_, h2, h3⟩
    simp only [Monitor.run, Monitor.step_creation m e (hl e (List.mem_cons_self _ _))]
    exact h1

/-- Destructions while idle are accepted and recorded. -/
theorem Monitor.run_rebuild (f : Nat → List Handle) (g : Nat → DescriptorSet) (n : Nat)
    (m : Monitor) (hm : m.idle = true) :
    ∃ next, Monitor.run m ((List.range n).flatMap (fun i =>
        [ Event.clearResource (.descriptorSet i) .descriptorSet (f i),
          Event.buildDescriptorSet (.descriptorSet i) (g i) ])) = some next
      ∧ next.idle = true
      ∧ next.destroyed = m.destroyed ++ (List.range n).flatMap f := by
  induction n with
  | zero => exact ⟨m, rfl, hm, by simp⟩
  | succ k ih =>
    obtain ⟨m1, h1, h2, h3⟩ := ih
    refine ⟨{ m1 with destroyed := m1.destroyed ++ f k, recorded := none }, ?_, h2, ?_⟩
    · rw [List.range_succ, List.flatMap_append]
      apply Monitor.run_append_of h1
      simp [Monitor.run, Monitor.step, h2, Event.isResourceCall]
    · simp [List.range_succ, List.flatMap_append, h3]

/-- The check accepts the calls of `recreateRSMResources` when the device is there. -/
theorem Monitor.run_recreate (newSize : Nat) (s : State) (hd : deviceReady s = true)
    (m : Monitor) :
    ∃ next, Monitor.run m (recreateEvents newSize s) = some next
      ∧ next.idle = true
      ∧ next.destroyed = m.destroyed ++ recreateDestroyed s := by
  obtain ⟨next, h1, h2, h3⟩ := Monitor.run_rebuild (fun i => s.registry (.descriptorSet i))
    (recreatedSet s) s.swapchainImages.length
    { idle := true, recorded := none,
      destroyed := m.destroyed ++ s.registry .rsmFb ++ s.registry .rsmPosition
        ++ s.registry .rsmNormal ++ s.registry .rsmFlux } rfl
  refine ⟨next, ?_, h2, ?_⟩
  · simp only [recreateEvents, hd, if_true, teardownEvents, creationEvents, descriptorRebuildEvents,
      List.cons_append, List.nil_append, List.append_assoc]
    simp only [Monitor.run, Monitor.step, if_true, Event.isResourceCall]
    exact h1
  · simp [h3, recreateDestroyed, List.append_assoc]

/-- What a command buffer recorded in a state that satisfies the invariant references is live. -/
theorem recordedCmds_live (cfg : Config) {s : State} (h : Inv s) (imageIndex : Nat)
    (hr : indexInRange imageIndex s) :
    ∀ x ∈ (recordedCmds cfg s imageIndex).flatMap Cmd.refs, x ∉ s.destroyed := by
  obtain ⟨_, hf, hd⟩ := hr
  have hset := h.descriptorSet_live (s.descriptorSets.getD imageIndex DescriptorSet.null)
    (by rw [List.getD_eq_getElem _ _ hd]; exact List.getElem_mem hd)
  have hfb := h.mainFb_live (s.framebuffers.getD imageIndex Framebuffer.null)
    (by rw [List.getD_eq_getElem _ _ hf]; exact List.getElem_mem hf)
  obtain ⟨ho1, ho2, ho3, ho4, ho5⟩ := h.offscreen_live
  intro x hx
  simp only [recordedCmds, offscreenCmds, mainPassCmds, uiCmds, List.flatMap_append,
    List.mem_append] at hx
  rcases hx with (((hx | hx) | hx) | hx) | hx
  · simp [Cmd.refs] at hx
  · split at hx
    · simp only [List.flatMap_cons, List.flatMap_nil, Cmd.refs, List.mem_append, List.mem_cons,
        List.not_mem_nil, or_false, false_or] at hx
      rcases hx with (rfl | hx) | (rfl | hx)
      · exact ho1
      · exact ho2 x hx
      · exact hset.2.1
      · exact hset.2.2 x hx
    · simp only [List.flatMap_cons, List.flatMap_nil, Cmd.refs, List.mem_append, List.mem_cons,
        List.not_mem_nil, or_false, false_or] at hx
      rcases hx with rfl | rfl | rfl
      · exact ho3
      · exact ho4
      · exact ho5
  · simp only [List.flatMap_cons, List.flatMap_nil, Cmd.refs, List.mem_append, List.mem_cons,
      List.not_mem_nil, or_false, false_or] at hx
    rcases hx with (rfl | hx) | (rfl | hx)
    · exact hfb.1
    · exact hfb.2 x hx
    · exact hset.2.1
    · exact hset.2.2 x hx
  · split at hx <;> simp [Cmd.refs] at hx
  · simp [Cmd.refs] at hx

theorem drawFrame_trace (cfg : Config) (inp : FrameInput) (s : State) :
    (drawFrame cfg inp s).state.trace = s.trace ++ frameCalls cfg inp s := by
  rw [frameCalls_eq, drawFrame_eq]
  by_cases hr : indexInRange inp.imageIndex (applyPendingResize s)
  · by_cases hs : inp.submitResult = VK_SUCCESS
    · simp only [if_pos hr, if_pos hs, if_neg (not_not.mpr hs)]
      simp [State.withTrace, List.append_assoc]
    · simp only [if_pos hr, if_neg hs, if_pos hs]
      simp [State.withTrace, List.append_assoc]
  · simp only [if_neg hr]
    simp [State.withTrace]

theorem drawFrame_destroyed (cfg : Config) (inp : FrameInput) (s : State) :
    (drawFrame cfg inp s).state.destroyed = (applyPendingResize s).destroyed := by
  have h := congrArg State.destroyed (drawFrame_resources cfg inp s)
  exact h

theorem applyPendingResize_destroyed (s : State) :
    (applyPendingResize s).destroyed
      = s.destroyed ++ (if s.rsmRecreatePending then recreateDestroyed s else []) := by
  cases hp : s.rsmRecreatePending
  · rw [applyPendingResize_of_not_pending _ hp]
    simp
  · rw [applyPendingResize_of_pending _ hp, recreateRSMResources_eq]
    simp

/-- The check accepts the calls of the deferred resize. -/
theorem Monitor.run_resize (s : State) (hd : deviceReady s = true) (m : Monitor) :
    ∃ next, Monitor.run m (resizeEvents s) = some next
      ∧ next.destroyed
        = m.destroyed ++ (if s.rsmRecreatePending then recreateDestroyed s else []) := by
  cases hp : s.rsmRecreatePending
  · exact ⟨m, by simp [resizeEvents, hp, Monitor.run], by simp⟩
  · obtain ⟨next, h1, _, h3⟩ := Monitor.run_recreate s.rsmPendingSize s hd m
    exact ⟨next, by simpa [resizeEvents, hp] using h1, by simpa using h3⟩

/-- The check accepts the calls of a frame that starts in a state that satisfies the invariant. -/
theorem Monitor.run_frame (cfg : Config) (inp : FrameInput) {s : State} (h : Inv s)
    (m : Monitor) (hm : m.destroyed = s.destroyed) :
    ∃ next, Monitor.run m (frameCalls cfg inp s) = some next
      ∧ next.destroyed = (applyPendingResize s).destroyed := by
  obtain ⟨m1, h1, h2⟩ := Monitor.run_resize s h.device { m with idle := false, recorded := none }
  have hd1 : m1.destroyed = (applyPendingResize s).destroyed := by
    rw [h2, applyPendingResize_destroyed, ← hm]
  have hhead : Monitor.run m (frameHead cfg inp s)
      = some { m1 with idle := false, recorded := none } := by
    unfold frameHead
    rw [List.append_assoc]
    have hwait : Monitor.run m [Event.waitForFences s.currentFrame true UINT64_MAX]
        = some { m with idle := false, recorded := none } := rfl
    refine Monitor.run_append_of hwait ?_
    refine Monitor.run_append_of h1 ?_
    simp [Monitor.run, Monitor.step, Event.isResourceCall]
  rw [frameCalls_eq]
  by_cases hr : indexInRange inp.imageIndex (applyPendingResize s)
  · have hlive := recordedCmds_live cfg h.resize inp.imageIndex hr
    rw [← hd1] at hlive
    have hsubmit : Monitor.step
        { m1 with
          idle := false,
          recorded := some (frameCommandBuffer inp s,
            recordedCmds cfg (applyPendingResize s) inp.imageIndex) }
        (.queueSubmit (frameSubmit inp s))
        = some { m1 with idle := false, recorded := none } :=
      if_pos (⟨rfl, hlive⟩ :
        frameCommandBuffer inp s = (frameSubmit inp s).commandBuffer
          ∧ ∀ x ∈ (recordedCmds cfg (applyPendingResize s) inp.imageIndex).flatMap Cmd.refs,
              x ∉ m1.destroyed)
    have hbody : Monitor.run { m1 with idle := false, recorded := none } (frameBody cfg inp s)
        = some { m1 with idle := false, recorded := none } := by
      unfold frameBody
      rw [Monitor.run_cons_of (Monitor.step_reset _ _), Monitor.run_cons_of (Monitor.step_record _ _ _),
        Monitor.run_cons_of hsubmit]
      rfl
    rw [if_pos hr]
    refine ⟨{ m1 with idle := false, recorded := none }, ?_, hd1⟩
    refine Monitor.run_append_of hhead ?_
    by_cases hs : inp.submitResult = VK_SUCCESS
    · rw [if_pos hs]
      exact Monitor.run_append_of hbody rfl
    · rw [if_neg hs, List.append_nil]
      exact hbody
  · rw [if_neg hr, List.append_nil]
    exact ⟨_, hhead, hd1⟩

theorem Tracked.frameTracked {s : State} (h : Inv s) (ht : Tracked s) (cfg : Config)
    (inp : FrameInput) : Tracked (drawFrame cfg inp s).state := by
  obtain ⟨m, h1, h2⟩ := ht
  obtain ⟨next, h3, h4⟩ := Monitor.run_frame cfg inp h m h2
  refine ⟨next, ?_, ?_⟩
  · rw [drawFrame_trace]
    exact Monitor.run_append_of h1 h3
  · rw [h4, drawFrame_destroyed]

theorem Tracked.polled {s : State} (ht : Tracked s) : Tracked (s.log .pollEvents) := by
  obtain ⟨m, h1, h2⟩ := ht
  exact ⟨{ m with idle := false, recorded := none }, Monitor.run_append_of h1 rfl, h2⟩

theorem Tracked.waited {s : State} (ht : Tracked s) : Tracked (s.log .deviceWaitIdle) := by
  obtain ⟨m, h1, h2⟩ := ht
  exact ⟨{ m with idle := true, recorded := none }, Monitor.run_append_of h1 rfl, h2⟩

theorem Tracked.loopTracked {s : State} (h : Inv s) (ht : Tracked s) (cfg : Config)
    (inputs : List FrameInput) : Tracked (frames cfg inputs s).state := by
  induction inputs generalizing s with
  | nil => exact ht
  | cons inp rest ih =>
    by_cases hok : (drawFrame cfg inp (s.log .pollEvents)).outcome = .ok
    · rw [frames_cons_ok cfg inp rest s hok]
      exact ih ((h.logged _).frame cfg inp) (ht.polled.frameTracked (h.logged _) cfg inp)
    · rw [frames_cons_not_ok cfg inp rest s hok]
      exact ht.polled.frameTracked (h.logged _) cfg inp

theorem initEvents_isCreation (cfg : Config) : ∀ e ∈ initEvents cfg, e.isCreation = true := by
  intro e he
  simp only [initEvents, List.mem_append, List.mem_cons, List.mem_map, List.mem_range,
    List.not_mem_nil, or_false] at he
  rcases he with (((he | he) | he) | he) | he
  · rcases he with rfl | rfl <;> rfl
  · obtain ⟨i, _, rfl⟩ := he
    rfl
  · rcases he with rfl | rfl | rfl | rfl | rfl | rfl | rfl | rfl | rfl | rfl | rfl <;> rfl
  · obtain ⟨i, _, rfl⟩ := he
    rfl
  · rcases he with rfl | rfl | rfl | rfl | rfl | rfl | rfl <;> rfl

theorem Tracked.initTracked (cfg : Config) : Tracked (initState cfg) := by
  obtain ⟨next, h1, _, h3⟩ := Monitor.run_creations {} (initEvents cfg) (initEvents_isCreation cfg)
  exact ⟨next, h1, h3⟩

/-- The state in which `run` ends is one that the check accepts. -/
theorem Tracked.program (cfg : Config) (inputs : List FrameInput) :
    Tracked (run cfg inputs {}).state := by
  cases hg : cfg.glfwInitOk
  · simp only [run, initVulkan, initVulkanPC, hg, if_true]
    exact ⟨{}, rfl, rfl⟩
  · have hinit := initVulkan_eq cfg hg
    have hloop := Tracked.loopTracked (Inv.init cfg) (Tracked.initTracked cfg) cfg inputs
    simp only [run, hinit, mainLoop]
    split
    · exact hloop.waited
    · exact hloop


/-! ## What an accepted trace looks like -/

theorem Monitor.step_destroyed {m next : Monitor} {e : Event} (h : m.step e = some next) :
    next.destroyed = m.destroyed ++ e.destroys := by
  cases e
  all_goals simp only [Monitor.step, Event.isResourceCall, Event.destroys, Bool.false_eq_true,
    if_true, if_false, Option.some.injEq] at h ⊢
  all_goals first
    | (rw [← h]; simp)
    | skip
  · split at h
    · simp only [Option.some.injEq] at h
      rw [← h]
    · cases h
  · split at h
    · split at h
      · simp only [Option.some.injEq] at h
        rw [← h]
        simp
      · cases h
    · cases h

theorem Monitor.run_destroyed {m next : Monitor} {t : List Event}
    (h : Monitor.run m t = some next) : next.destroyed = m.destroyed ++ destroyedBy t := by
  induction t generalizing m with
  | nil =>
    simp only [Monitor.run, Option.some.injEq] at h
    simp [← h, destroyedBy]
  | cons e es ih =>
    cases hs : m.step e with
    | none => simp [Monitor.run, hs] at h
    | some m1 =>
      rw [Monitor.run_cons_of hs] at h
      rw [ih h, Monitor.step_destroyed hs]
      simp [destroyedBy, List.append_assoc]

theorem Monitor.step_idle {m next : Monitor} {e : Event} (h : m.step e = some next)
    (hi : next.idle = true) :
    e = .deviceWaitIdle ∨ (e.isResourceCall = true ∧ m.idle = true) := by
  cases e
  all_goals simp only [Monitor.step, Event.isResourceCall, Bool.false_eq_true,
    if_true, if_false, Option.some.injEq] at h
  all_goals first
    | (left; rfl)
    | (subst h; first | exact Bool.noConfusion hi | exact Or.inr ⟨rfl, hi⟩)
    | skip
  · split at h
    · rename_i hm
      exact Or.inr ⟨rfl, hm⟩
    · cases h
  · split at h
    · split at h
      · simp only [Option.some.injEq] at h
        subst h
        exact Bool.noConfusion hi
      · cases h
    · cases h

theorem Monitor.step_recorded {m next : Monitor} {e : Event} (h : m.step e = some next)
    {commandBuffer : Handle} {cmds : List Cmd}
    (hr : next.recorded = some (commandBuffer, cmds)) :
    e = .recordCommandBuffer commandBuffer cmds := by
  cases e
  all_goals simp only [Monitor.step, Event.isResourceCall, Bool.false_eq_true,
    if_true, if_false, Option.some.injEq] at h
  all_goals first
    | (subst h; simp only [Option.some.injEq, Prod.mk.injEq] at hr
       obtain ⟨rfl, rfl⟩ := hr; rfl)
    | (subst h; cases hr)
    | skip
  · split at h
    · simp only [Option.some.injEq] at h
      subst h
      cases hr
    · cases h
  · split at h
    · split at h
      · simp only [Option.some.injEq] at h
        subst h
        cases hr
      · cases h
    · cases h

/-- In an accepted trace every destruction comes after a `vkDeviceWaitIdle` with only
creations and destructions in between. -/
theorem Monitor.run_idle_before (pre : List Event) (m next : Monitor) (name : ResName)
    (type : ObjType) (handles : List Handle) (post : List Event)
    (h : Monitor.run m (pre ++ Event.clearResource name type handles :: post) = some next) :
    (∃ before between, pre = before ++ Event.deviceWaitIdle :: between
        ∧ ∀ e ∈ between, e.isResourceCall = true)
      ∨ (m.idle = true ∧ ∀ e ∈ pre, e.isResourceCall = true) := by
  induction pre generalizing m with
  | nil =>
    right
    refine ⟨?_, by simp⟩
    cases hm : m.idle
    · simp [Monitor.run, Monitor.step, hm] at h
    · rfl
  | cons x rest ih =>
    cases hs : m.step x with
    | none => simp [Monitor.run, hs] at h
    | some m1 =>
      rw [List.cons_append, Monitor.run_cons_of hs] at h
      rcases ih m1 h with ⟨before, between, hpre, hall⟩ | ⟨hidle, hall⟩
      · exact Or.inl ⟨x :: before, between, by rw [hpre]; rfl, hall⟩
      · rcases Monitor.step_idle hs hidle with rfl | ⟨hx, hm⟩
        · exact Or.inl ⟨[], rest, rfl, hall⟩
        · right
          refine ⟨hm, ?_⟩
          intro e he
          rcases List.mem_cons.mp he with rfl | he
          · exact hx
          · exact hall e he

/-- In an accepted trace every submission comes directly after the recording of the
submitted command buffer, and the recording references nothing destroyed so far. -/
theorem Monitor.run_recorded_before (pre : List Event) (m next : Monitor) (submit : Submit)
    (post : List Event)
    (h : Monitor.run m (pre ++ Event.queueSubmit submit :: post) = some next) :
    (∃ before cmds, pre = before ++ [Event.recordCommandBuffer submit.commandBuffer cmds]
        ∧ ∀ x ∈ cmds.flatMap Cmd.refs, x ∉ m.destroyed ++ destroyedBy pre)
      ∨ (pre = [] ∧ ∃ cmds, m.recorded = some (submit.commandBuffer, cmds)
          ∧ ∀ x ∈ cmds.flatMap Cmd.refs, x ∉ m.destroyed) := by
  induction pre generalizing m with
  | nil =>
    right
    refine ⟨rfl, ?_⟩
    simp only [List.nil_append, Monitor.run, Monitor.step] at h
    split at h
    · rename_i m1 hstep
      split at hstep
      · rename_i cb cmds hrec
        split at hstep
        · rename_i hc
          exact ⟨cmds, by rw [hrec, hc.1], hc.2⟩
        · cases hstep
      · cases hstep
    · cases h
  | cons x rest ih =>
    cases hs : m.step x with
    | none => simp [Monitor.run, hs] at h
    | some m1 =>
      rw [List.cons_append, Monitor.run_cons_of hs] at h
      have hd := Monitor.step_destroyed hs
      rcases ih m1 h with ⟨before, cmds, hpre, hlive⟩ | ⟨hnil, cmds, hrec, hlive⟩
      · left
        refine ⟨x :: before, cmds, by rw [hpre]; rfl, ?_⟩
        intro y hy
        have := hlive y hy
        simpa [hd, destroyedBy, List.append_assoc] using this
      · left
        have hx := Monitor.step_recorded hs hrec
        subst hx
        subst hnil
        refine ⟨[], cmds, rfl, ?_⟩
        intro y hy
        have := hlive y hy
        simpa [hd, destroyedBy, Event.destroys] using this
/-! ## No use after destruction -/

theorem isSubmit_of_isResourceCall (e : Event) (h : e.isResourceCall = true) :
    e.isSubmit = false := by
  cases e <;> first | rfl | exact Bool.noConfusion h

/-- C8: on every run of the program (every configuration, every sequence of acquired image
indices, submission results and uses of the control panel), in the calls made:
every destruction of a resource (so every destruction of an offscreen image with its view, of
the offscreen framebuffer and of a descriptor set) comes after a `vkDeviceWaitIdle`, with
nothing but creations and destructions of resources, and so no submission, in between;
every `vkQueueSubmit` comes directly after the recording of the command buffer it submits, so
the recording lies in the same frame and after the recreation of that frame, and none of the
framebuffers, attachments, descriptor sets, bound views and images which the recorded calls
reference is destroyed by then.  The handles destroyed by the calls are those the resource
manager has destroyed, and the executable check `safeTrace` accepts the calls. -/
theorem no_use_after_destroy (cfg : Config) (inputs : List FrameInput) :
    (∀ pre name type handles post,
        (run cfg inputs {}).state.trace = pre ++ Event.clearResource name type handles :: post →
        ∃ before between, pre = before ++ Event.deviceWaitIdle :: between
          ∧ ∀ e ∈ between, e.isResourceCall = true ∧ e.isSubmit = false)
    ∧ (∀ pre submit post,
        (run cfg inputs {}).state.trace = pre ++ Event.queueSubmit submit :: post →
        ∃ before cmds, pre = before ++ [Event.recordCommandBuffer submit.commandBuffer cmds]
          ∧ ∀ h ∈ cmds.flatMap Cmd.refs, h ∉ destroyedBy pre)
    ∧ destroyedBy (run cfg inputs {}).state.trace = (run cfg inputs {}).state.destroyed
    ∧ safeTrace (run cfg inputs {}).state.trace = true := by
  obtain ⟨m, h1, h2⟩ := Tracked.program cfg inputs
  refine ⟨?_, ?_, ?_, ?_⟩
  · intro pre name type handles post ht
    rw [ht] at h1
    rcases Monitor.run_idle_before pre {} m name type handles post h1 with
      ⟨before, between, hpre, hall⟩ | ⟨hidle, _⟩
    · exact ⟨before, between, hpre, fun e he => ⟨hall e he, isSubmit_of_isResourceCall e (hall e he)⟩⟩
    · exact Bool.noConfusion hidle
  · intro pre submit post ht
    rw [ht] at h1
    rcases Monitor.run_recorded_before pre {} m submit post h1 with
      ⟨before, cmds, hpre, hlive⟩ | ⟨_, cmds, hrec, _⟩
    · exact ⟨before, cmds, hpre, fun x hx => by simpa using hlive x hx⟩
    · cases hrec
  · rw [← h2, Monitor.run_destroyed h1]
    rfl
  · unfold safeTrace
    rw [h1]
    rfl

/-- C8 at a run of the desktop configuration in which 2048 is selected during the first frame:
the second frame destroys the framebuffer, the three images with their views and allocations
and the two descriptor sets. -/
theorem no_use_after_destroy_witness :
    (run desktop [{ imageIndex := 0, ui := { rsmResolution := some 2 } }, { imageIndex := 1 }]
        {}).state.destroyed = [19, 9, 10, 11, 12, 13, 14, 15, 16, 17, 29, 30]
      ∧ destroyedBy
          (run desktop [{ imageIndex := 0, ui := { rsmResolution := some 2 } }, { imageIndex := 1 }]
            {}).state.trace = [19, 9, 10, 11, 12, 13, 14, 15, 16, 17, 29, 30] :=
  ⟨by decide,
    (no_use_after_destroy desktop
      [{ imageIndex := 0, ui := { rsmResolution := some 2 } }, { imageIndex := 1 }]).2.2.1.trans
      (by decide)⟩

/-- The check is not void: it rejects a destruction after a submission, the submission of a
command buffer recorded before a destruction, and the submission of a command buffer that
references a destroyed framebuffer. -/
theorem safeTrace_rejects :
    safeTrace
        [ .deviceWaitIdle, .recordCommandBuffer 5 [], .queueSubmit ⟨0, 0, 5, 0, 0⟩,
          .clearResource .rsmFb .framebuffer [7] ] = false
      ∧ safeTrace
        [ .recordCommandBuffer 5 [.beginRenderPass 1 ⟨7, [], 0, 0, 1⟩ (0, 0) []],
          .deviceWaitIdle, .clearResource .rsmFb .framebuffer [7],
          .queueSubmit ⟨0, 0, 5, 0, 0⟩ ] = false
      ∧ safeTrace
        [ .deviceWaitIdle, .clearResource .rsmFb .framebuffer [7],
          .recordCommandBuffer 5 [.beginRenderPass 1 ⟨7, [], 0, 0, 1⟩ (0, 0) []],
          .queueSubmit ⟨0, 0, 5, 0, 0⟩ ] = false := by
  decide
/-! ## The properties at concrete inputs -/

/-- C1 at four successful frames on the desktop configuration, acquiring the images 0, 1, 1, 0:
the slot index ends at 4 mod 3. -/
theorem slot_index_after_frames_witness :
    (desktop.frameNum = 3 ∨ desktop.frameNum = 4)
      ∧ (initState desktop).currentFrame = 0
      ∧ (frames desktop
          [{ imageIndex := 0 }, { imageIndex := 1 }, { imageIndex := 1 }, { imageIndex := 0 }]
          (initState desktop)).outcome = .ok
      ∧ (frames desktop
          [{ imageIndex := 0 }, { imageIndex := 1 }, { imageIndex := 1 }, { imageIndex := 0 }]
          (initState desktop)).state.currentFrame = 1 :=
  ⟨Or.inl rfl, rfl, by decide,
    (slot_index_after_frames desktop (Or.inl rfl)
      [{ imageIndex := 0 }, { imageIndex := 1 }, { imageIndex := 1 }, { imageIndex := 0 }]
      (initState desktop) rfl (by decide)).1⟩

/-- C2 at the first frame after `initVulkan` on the desktop configuration. -/
theorem drawFrame_step_order_witness :
    (drawFrame desktop { imageIndex := 1 } (initState desktop)).outcome = .ok
      ∧ (drawFrame desktop { imageIndex := 1 } (initState desktop)).state.currentFrame = 1 :=
  ⟨by decide,
    (drawFrame_step_order desktop { imageIndex := 1 } (initState desktop) (by decide)).2.2⟩

/-- C3 at a run of the desktop configuration whose second submission reports
`VK_ERROR_DEVICE_LOST` (-4). -/
theorem submit_failure_is_fatal_witness :
    (frames desktop [{ imageIndex := 0 }] (initState desktop)).outcome = .ok
      ∧ indexInRange 1 (applyPendingResize
          ((frames desktop [{ imageIndex := 0 }] (initState desktop)).state.log .pollEvents))
      ∧ (-4 : Int) ≠ VK_SUCCESS
      ∧ (run desktop
          [{ imageIndex := 0 }, { imageIndex := 1, submitResult := -4 }, { imageIndex := 0 }]
          {}).outcome = .threw "failed to submit command buffer!" := by
  have h := submit_failure_is_fatal desktop [{ imageIndex := 0 }]
    { imageIndex := 1, submitResult := -4 } [{ imageIndex := 0 }] (initState desktop)
    (by decide) (by decide) (by decide)
  exact ⟨by decide, by decide, by decide,
    (congrArg Result.outcome (h.2.2.2.2.2.2 {} (by decide)
      (congrArg Result.state (initVulkan_eq desktop rfl)))).trans h.1⟩

/-- C4 at the selection of 2048 twice in a row before the first frame. -/
theorem resize_requests_coalesce_witness :
    (2 : Int) ≠ (initState desktop).rsmResolutionIndex
      ∧ (drawFrame desktop { imageIndex := 0 }
          (selectAll 2 [some 2] (initState desktop))).state.rsmWidth = 2048
      ∧ (frameCalls desktop { imageIndex := 0 }
          (selectAll 2 [some 2] (initState desktop))).filterMap Event.rsmFramebufferSize
          = [(2048, 2048)] :=
  ⟨by decide,
    (resize_requests_coalesce desktop { imageIndex := 0 } (initState desktop) 2 [some 2]
      (by decide)).2.2.2.2.1,
    (resize_requests_coalesce desktop { imageIndex := 0 } (initState desktop) 2 [some 2]
      (by decide)).2.2.2.1⟩

/-- C5 at a first frame in which 2048 is selected. -/
theorem resize_consumed_once_witness :
    desktop.hasImGui = true
      ∧ (drawFrame desktop { imageIndex := 0, ui := { rsmResolution := some 2 } }
          (initState desktop)).outcome = .ok
      ∧ resizeRequest (some 2) (initState desktop) = some 2048
      ∧ (drawFrame desktop { imageIndex := 0, ui := { rsmResolution := some 2 } }
          (initState desktop)).state.rsmRecreatePending = true
      ∧ (applyPendingResize
          (drawFrame desktop { imageIndex := 0, ui := { rsmResolution := some 2 } }
            (initState desktop)).state).rsmWidth = 2048 :=
  ⟨rfl, by decide, by decide,
    (resize_consumed_once desktop { imageIndex := 0, ui := { rsmResolution := some 2 } }
      { imageIndex := 1 } (initState desktop) 2048 rfl (by decide) (by decide)).1,
    (resize_consumed_once desktop { imageIndex := 0, ui := { rsmResolution := some 2 } }
      { imageIndex := 1 } (initState desktop) 2048 rfl (by decide) (by decide)).2.2.2.2.1⟩

/-- C9 at the first frame after `initVulkan`, where `enableRSM` has its initial value false. -/
theorem shadow_pass_disabled_witness :
    (initState desktop).enableRSM = false
      ∧ ∀ b u, Event.uploadUniforms b u ∈ frameCalls desktop { imageIndex := 0 } (initState desktop)
          → u.rsmParams[3]? = some 0 :=
  ⟨rfl, (shadow_pass_disabled desktop { imageIndex := 0 } (initState desktop) rfl).2.1⟩

/-- C10 at the state after `initVulkan` with the checkbox "Enable RSM" ticked, for image 1. -/
theorem shadow_pass_enabled_witness :
    ({ initState desktop with enableRSM := true } : State).enableRSM = true
      ∧ 1 < ({ initState desktop with enableRSM := true } : State).descriptorSets.length
      ∧ callsOf (recordCommandBuffer desktop {} 1) { initState desktop with enableRSM := true } =
        [ Event.recordCommandBuffer 41
            ([ Cmd.beginCommandBuffer,
               .beginRenderPass 18 ⟨19, [10, 13, 16], 1024, 1024, 18⟩ (1024, 1024)
                 [[0, 0, 0, 0], [0, 0, 0, 0], [0, 0, 0, 0]],
               .bindPipeline 37,
               .setViewport 1024 1024,
               .setScissor (1024, 1024),
               .bindDescriptorSets 38
                 ⟨30, 28, 22, [(1, 10, 20), (2, 13, 20), (3, 16, 20), (4, 25, 27)]⟩,
               .bindVertexBuffers 21,
               .draw 4 1 0 0,
               .endRenderPass ]
              ++ mainPassCmds desktop { initState desktop with enableRSM := true } 1
              ++ uiCmds desktop ++ [.endRenderPass, .endCommandBuffer]) ] :=
  ⟨rfl, by decide,
    shadow_pass_enabled desktop {} 1 { initState desktop with enableRSM := true } rfl
      (by decide)⟩
/-! ## The main pass and the overlay -/

/-- C11: for both values of `enableRSM`, `recordCommandBuffer` (called with an index in range)
records, after `vkBeginCommandBuffer` and the offscreen part, the main pass (the begin of a
render pass instance on `framebuffers[imageIndex]` with the one clear colour, the bind of the
main pipeline, viewport and scissor, the bind of `descriptorSets[imageIndex]`, the bind of the
vertex buffer, one draw of 4 vertices), then the calls of the overlay (when there is an ImGui
manager) with no end or begin of a render pass before them, then the end of the render pass and
of the command buffer.  The offscreen part has 8 calls when the flag is set and 3 when it is
not, and what follows it is the same list in both cases. -/
theorem main_pass_and_overlay (cfg : Config) (ui : UiInput) (imageIndex : Nat) (s : State)
    (enable : Bool) (hf : imageIndex < s.framebuffers.length)
    (hd : imageIndex < s.descriptorSets.length) :
    callsOf (recordCommandBuffer cfg ui imageIndex) { s with enableRSM := enable } =
      [ Event.recordCommandBuffer (s.commandBuffers.getD imageIndex VK_NULL_HANDLE)
          (Cmd.beginCommandBuffer :: offscreenCmds { s with enableRSM := enable } imageIndex
            ++ [ .beginRenderPass s.renderPass s.framebuffers[imageIndex] cfg.extent
                   [[3 / 100, 5 / 100, 9 / 100, 1]],
                 .bindPipeline s.pipeline,
                 .setViewport cfg.extent.1 cfg.extent.2,
                 .setScissor cfg.extent,
                 .bindDescriptorSets s.pipelineLayout s.descriptorSets[imageIndex],
                 .bindVertexBuffers s.fullscreenVertexBuffer,
                 .draw 4 1 0 0 ]
            ++ (if cfg.hasImGui then [.imguiBeginFrame, .imguiEndFrame, .imguiRecord] else [])
            ++ [.endRenderPass, .endCommandBuffer]) ]
    ∧ (offscreenCmds { s with enableRSM := true } imageIndex).length = 8
    ∧ (offscreenCmds { s with enableRSM := false } imageIndex).length = 3
    ∧ (recordedCmds cfg { s with enableRSM := true } imageIndex).drop 9
        = (recordedCmds cfg { s with enableRSM := false } imageIndex).drop 4 := by
  refine ⟨?_, rfl, rfl, rfl⟩
  have h := recordCommandBuffer_withTrace cfg ui imageIndex s.trace { s with enableRSM := enable }
  have hs : ({ s with enableRSM := enable } : State).withTrace s.trace
      = { s with enableRSM := enable } := rfl
  rw [hs] at h
  unfold callsOf
  rw [h]
  show List.drop _ (s.trace ++ _) = _
  rw [List.drop_left]
  simp only [recordedCmds, mainPassCmds, uiCmds, List.cons_append, List.nil_append,
    List.append_assoc, List.getD_eq_getElem?_getD, List.getElem?_eq_getElem hf,
    List.getElem?_eq_getElem hd, Option.getD_some]

/-- C11 at the state after `initVulkan` on the desktop configuration, for image 1. -/
theorem main_pass_and_overlay_witness :
    1 < (initState desktop).framebuffers.length ∧ 1 < (initState desktop).descriptorSets.length
      ∧ (recordedCmds desktop { initState desktop with enableRSM := true } 1).drop 9
        = [ Cmd.beginRenderPass 6 ⟨8, [5], 800, 600, 6⟩ (800, 600)
              [[3 / 100, 5 / 100, 9 / 100, 1]],
            .bindPipeline 33, .setViewport 800 600, .setScissor (800, 600),
            .bindDescriptorSets 34
              ⟨30, 28, 22, [(1, 10, 20), (2, 13, 20), (3, 16, 20), (4, 25, 27)]⟩,
            .bindVertexBuffers 21, .draw 4 1 0 0,
            .imguiBeginFrame, .imguiEndFrame, .imguiRecord, .endRenderPass, .endCommandBuffer ]
      ∧ (recordedCmds desktop { initState desktop with enableRSM := true } 1).drop 9
        = (recordedCmds desktop { initState desktop with enableRSM := false } 1).drop 4 :=
  ⟨by decide, by decide, rfl,
    (main_pass_and_overlay desktop {} 1 (initState desktop) true (by decide) (by decide)).2.2.2⟩

/-! ## The light direction and the basis of the light camera, over the real numbers -/

theorem sphericalDirection_norm (e a : ℝ) :
    (sphericalDirection ⟨Real.sin, Real.cos, Real.sqrt⟩ e a).x
          * (sphericalDirection ⟨Real.sin, Real.cos, Real.sqrt⟩ e a).x
        + (sphericalDirection ⟨Real.sin, Real.cos, Real.sqrt⟩ e a).y
          * (sphericalDirection ⟨Real.sin, Real.cos, Real.sqrt⟩ e a).y
        + (sphericalDirection ⟨Real.sin, Real.cos, Real.sqrt⟩ e a).z
          * (sphericalDirection ⟨Real.sin, Real.cos, Real.sqrt⟩ e a).z = 1 := by
  simp only [sphericalDirection]
  have h1 := Real.sin_sq_add_cos_sq e
  have h2 := Real.sin_sq_add_cos_sq a
  calc Real.cos e * Real.sin a * (Real.cos e * Real.sin a) + Real.sin e * Real.sin e
        + Real.cos e * Real.cos a * (Real.cos e * Real.cos a)
      = Real.cos e ^ 2 * (Real.sin a ^ 2 + Real.cos a ^ 2) + Real.sin e ^ 2 := by ring
    _ = Real.sin e ^ 2 + Real.cos e ^ 2 := by rw [h2]; ring
    _ = 1 := h1

theorem lightDirection_eq (e a : ℝ) :
    lightDirection ⟨Real.sin, Real.cos, Real.sqrt⟩ e a
      = sphericalDirection ⟨Real.sin, Real.cos, Real.sqrt⟩ e a := by
  have h := sphericalDirection_norm e a
  simp only [lightDirection, h, Real.sqrt_one, div_one]

theorem lightDirection_norm (e a : ℝ) :
    (lightDirection ⟨Real.sin, Real.cos, Real.sqrt⟩ e a).x
          * (lightDirection ⟨Real.sin, Real.cos, Real.sqrt⟩ e a).x
        + (lightDirection ⟨Real.sin, Real.cos, Real.sqrt⟩ e a).y
          * (lightDirection ⟨Real.sin, Real.cos, Real.sqrt⟩ e a).y
        + (lightDirection ⟨Real.sin, Real.cos, Real.sqrt⟩ e a).z
          * (lightDirection ⟨Real.sin, Real.cos, Real.sqrt⟩ e a).z = 1 := by
  rw [lightDirection_eq]
  exact sphericalDirection_norm e a

/-- The squared length of `cross(upCand, L)` for a unit vector `L`: the candidate is never
nearly parallel to `L`. -/
theorem crossWithCandidate_sq (L : Vec3 ℝ) (hL : L.x * L.x + L.y * L.y + L.z * L.z = 1) :
    1 - (95 / 100 : ℝ) ^ 2
      ≤ (crossWithCandidate L).x * (crossWithCandidate L).x
        + (crossWithCandidate L).y * (crossWithCandidate L).y
        + (crossWithCandidate L).z * (crossWithCandidate L).z := by
  by_cases h : |L.y| > 95 / 100
  · simp only [crossWithCandidate, upCandidate, if_pos h]
    have h2 : (95 / 100 : ℝ) ^ 2 < L.y ^ 2 := by
      rw [← sq_abs L.y]
      exact pow_lt_pow_left₀ h (by norm_num) (by norm_num)
    nlinarith [sq_nonneg L.z, sq_nonneg L.x]
  · simp only [crossWithCandidate, upCandidate, if_neg h]
    have h1 : |L.y| ≤ 95 / 100 := not_lt.mp h
    have h2 : L.y ^ 2 ≤ (95 / 100 : ℝ) ^ 2 := by
      rw [← sq_abs L.y]
      exact pow_le_pow_left₀ (abs_nonneg _) h1 2
    nlinarith [sq_nonneg L.z, sq_nonneg L.x]

theorem sqrt_bound : (31 / 100 : ℝ) < Real.sqrt (1 - (95 / 100 : ℝ) ^ 2) := by
  rw [Real.lt_sqrt (by norm_num)]
  norm_num

/-- The divisor `rlen` is larger than 0.31 for a unit vector `L`. -/
theorem rightLength_bound (L : Vec3 ℝ) (hL : L.x * L.x + L.y * L.y + L.z * L.z = 1) :
    Real.sqrt (1 - (95 / 100 : ℝ) ^ 2) + 1 / 10 ^ 8
      ≤ rightLength ⟨Real.sin, Real.cos, Real.sqrt⟩ L := by
  simp only [rightLength]
  have h := Real.sqrt_le_sqrt (crossWithCandidate_sq L hL)
  linarith

/-- The cross product of the candidate with `L` is perpendicular to `L`. -/
theorem crossWithCandidate_dot (L : Vec3 ℝ) :
    (crossWithCandidate L).x * L.x + (crossWithCandidate L).y * L.y
      + (crossWithCandidate L).z * L.z = 0 := by
  simp only [crossWithCandidate]
  ring

/-- The vectors `right` and `up` are perpendicular to `L` and to each other, whatever the
divisor is. -/
theorem lightBasis_dots (L : Vec3 ℝ) :
    (lightBasis ⟨Real.sin, Real.cos, Real.sqrt⟩ L).1.x * L.x
        + (lightBasis ⟨Real.sin, Real.cos, Real.sqrt⟩ L).1.y * L.y
        + (lightBasis ⟨Real.sin, Real.cos, Real.sqrt⟩ L).1.z * L.z = 0
    ∧ (lightBasis ⟨Real.sin, Real.cos, Real.sqrt⟩ L).2.x * L.x
        + (lightBasis ⟨Real.sin, Real.cos, Real.sqrt⟩ L).2.y * L.y
        + (lightBasis ⟨Real.sin, Real.cos, Real.sqrt⟩ L).2.z * L.z = 0
    ∧ (lightBasis ⟨Real.sin, Real.cos, Real.sqrt⟩ L).1.x
          * (lightBasis ⟨Real.sin, Real.cos, Real.sqrt⟩ L).2.x
        + (lightBasis ⟨Real.sin, Real.cos, Real.sqrt⟩ L).1.y
          * (lightBasis ⟨Real.sin, Real.cos, Real.sqrt⟩ L).2.y
        + (lightBasis ⟨Real.sin, Real.cos, Real.sqrt⟩ L).1.z
          * (lightBasis ⟨Real.sin, Real.cos, Real.sqrt⟩ L).2.z = 0 := by
  simp only [lightBasis, crossWithCandidate]
  refine ⟨by ring, by ring, by ring⟩

/-- The squared length of `right`: that of the cross product over the square of the divisor. -/
theorem lightBasis_right_sq (L : Vec3 ℝ) :
    (lightBasis ⟨Real.sin, Real.cos, Real.sqrt⟩ L).1.x
          * (lightBasis ⟨Real.sin, Real.cos, Real.sqrt⟩ L).1.x
        + (lightBasis ⟨Real.sin, Real.cos, Real.sqrt⟩ L).1.y
          * (lightBasis ⟨Real.sin, Real.cos, Real.sqrt⟩ L).1.y
        + (lightBasis ⟨Real.sin, Real.cos, Real.sqrt⟩ L).1.z
          * (lightBasis ⟨Real.sin, Real.cos, Real.sqrt⟩ L).1.z
      = ((crossWithCandidate L).x * (crossWithCandidate L).x
          + (crossWithCandidate L).y * (crossWithCandidate L).y
          + (crossWithCandidate L).z * (crossWithCandidate L).z)
        / rightLength ⟨Real.sin, Real.cos, Real.sqrt⟩ L ^ 2 := by
  simp only [lightBasis]
  ring

/-- For a unit vector `L`, `up` is as long as `right`. -/
theorem lightBasis_up_sq (L : Vec3 ℝ) (hL : L.x * L.x + L.y * L.y + L.z * L.z = 1) :
    (lightBasis ⟨Real.sin, Real.cos, Real.sqrt⟩ L).2.x
          * (lightBasis ⟨Real.sin, Real.cos, Real.sqrt⟩ L).2.x
        + (lightBasis ⟨Real.sin, Real.cos, Real.sqrt⟩ L).2.y
          * (lightBasis ⟨Real.sin, Real.cos, Real.sqrt⟩ L).2.y
        + (lightBasis ⟨Real.sin, Real.cos, Real.sqrt⟩ L).2.z
          * (lightBasis ⟨Real.sin, Real.cos, Real.sqrt⟩ L).2.z
      = (lightBasis ⟨Real.sin, Real.cos, Real.sqrt⟩ L).1.x
          * (lightBasis ⟨Real.sin, Real.cos, Real.sqrt⟩ L).1.x
        + (lightBasis ⟨Real.sin, Real.cos, Real.sqrt⟩ L).1.y
          * (lightBasis ⟨Real.sin, Real.cos, Real.sqrt⟩ L).1.y
        + (lightBasis ⟨Real.sin, Real.cos, Real.sqrt⟩ L).1.z
          * (lightBasis ⟨Real.sin, Real.cos, Real.sqrt⟩ L).1.z := by
  have hd := crossWithCandidate_dot L
  simp only [lightBasis]
  generalize crossWithCandidate L = c at hd ⊢
  generalize rightLength ⟨Real.sin, Real.cos, Real.sqrt⟩ L = k
  linear_combination
    ((c.x / k) * (c.x / k) + (c.y / k) * (c.y / k) + (c.z / k) * (c.z / k)) * hL
      - ((c.x * L.x + c.y * L.y + c.z * L.z) / k ^ 2) * hd

/-- The length of `right` for a unit vector `L`: the length `n` of the cross product over
`n + 1e-8`. -/
theorem lightBasis_right_length (L : Vec3 ℝ) (hL : L.x * L.x + L.y * L.y + L.z * L.z = 1) :
    Real.sqrt
        ((lightBasis ⟨Real.sin, Real.cos, Real.sqrt⟩ L).1.x
            * (lightBasis ⟨Real.sin, Real.cos, Real.sqrt⟩ L).1.x
          + (lightBasis ⟨Real.sin, Real.cos, Real.sqrt⟩ L).1.y
            * (lightBasis ⟨Real.sin, Real.cos, Real.sqrt⟩ L).1.y
          + (lightBasis ⟨Real.sin, Real.cos, Real.sqrt⟩ L).1.z
            * (lightBasis ⟨Real.sin, Real.cos, Real.sqrt⟩ L).1.z)
      = 1 - (1 / 10 ^ 8) / rightLength ⟨Real.sin, Real.cos, Real.sqrt⟩ L := by
  have hb := rightLength_bound L hL
  have hs := sqrt_bound
  have hpos : 0 < rightLength ⟨Real.sin, Real.cos, Real.sqrt⟩ L := by linarith
  rw [lightBasis_right_sq, Real.sqrt_div' _ (sq_nonneg _), Real.sqrt_sq hpos.le]
  have hn : Real.sqrt ((crossWithCandidate L).x * (crossWithCandidate L).x
          + (crossWithCandidate L).y * (crossWithCandidate L).y
          + (crossWithCandidate L).z * (crossWithCandidate L).z)
      = rightLength ⟨Real.sin, Real.cos, Real.sqrt⟩ L - 1 / 10 ^ 8 := by
    simp only [rightLength]
    ring
  rw [hn]
  field_simp
  ring

/-- C15: for all real values of `lightElevation` and `lightAzimuth` (members of `f`), over exact
real arithmetic, the light direction uploaded in `lightDir.xyz` is
`(cos(elevation) sin(azimuth), sin(elevation), cos(elevation) cos(azimuth))` and `lightDir.w`
is `keyIntensity`; the vector has Euclidean length exactly 1 before the division, so the
length `len` the code divides by is 1 and not zero, the division leaves the vector as it is,
and the uploaded direction has length 1 too. -/
theorem light_direction_is_unit (t : ℝ) (f : FloatMembers ℝ) :
    (updateUniformFloats ⟨Real.sin, Real.cos, Real.sqrt⟩ t f).2.lightDir
      = ⟨Real.cos f.lightElevation * Real.sin f.lightAzimuth, Real.sin f.lightElevation,
          Real.cos f.lightElevation * Real.cos f.lightAzimuth, f.keyIntensity⟩
    ∧ Real.sqrt
        ((sphericalDirection ⟨Real.sin, Real.cos, Real.sqrt⟩ f.lightElevation f.lightAzimuth).dot
          (sphericalDirection ⟨Real.sin, Real.cos, Real.sqrt⟩ f.lightElevation f.lightAzimuth))
        = 1
    ∧ lightDirection ⟨Real.sin, Real.cos, Real.sqrt⟩ f.lightElevation f.lightAzimuth
        = sphericalDirection ⟨Real.sin, Real.cos, Real.sqrt⟩ f.lightElevation f.lightAzimuth
    ∧ Real.sqrt
        ((updateUniformFloats ⟨Real.sin, Real.cos, Real.sqrt⟩ t f).2.lightDir.xyz.dot
          (updateUniformFloats ⟨Real.sin, Real.cos, Real.sqrt⟩ t f).2.lightDir.xyz) = 1 := by
  have hn := sphericalDirection_norm f.lightElevation f.lightAzimuth
  have he := lightDirection_eq f.lightElevation f.lightAzimuth
  refine ⟨?_, ?_, he, ?_⟩
  · simp only [updateUniformFloats, integrateRotation, he]
    rfl
  · simp only [Vec3.dot, hn, Real.sqrt_one]
  · simp only [updateUniformFloats, integrateRotation, he, Vec4.xyz, Vec3.dot, hn, Real.sqrt_one]

/-- What holds of the basis for every unit vector `L`: `right` and `up` have length
`1 - 1e-8 / rlen`, which differs from 1 by less than `1e-5`. -/
theorem lightBasis_lengths (L : Vec3 ℝ) (hL : L.x * L.x + L.y * L.y + L.z * L.z = 1) :
    |Real.sqrt ((lightBasis ⟨Real.sin, Real.cos, Real.sqrt⟩ L).1.dot
        (lightBasis ⟨Real.sin, Real.cos, Real.sqrt⟩ L).1) - 1| < 1 / 10 ^ 5
    ∧ |Real.sqrt ((lightBasis ⟨Real.sin, Real.cos, Real.sqrt⟩ L).2.dot
        (lightBasis ⟨Real.sin, Real.cos, Real.sqrt⟩ L).2) - 1| < 1 / 10 ^ 5 := by
  have hb := rightLength_bound L hL
  have hs := sqrt_bound
  have hpos : 0 < rightLength ⟨Real.sin, Real.cos, Real.sqrt⟩ L := by linarith
  have hlen := lightBasis_right_length L hL
  have hup := lightBasis_up_sq L hL
  have hsmall : (1 / 10 ^ 8 : ℝ) / rightLength ⟨Real.sin, Real.cos, Real.sqrt⟩ L < 1 / 10 ^ 5 := by
    rw [div_lt_iff₀ hpos]
    nlinarith
  have hnonneg : (0 : ℝ) ≤ (1 / 10 ^ 8) / rightLength ⟨Real.sin, Real.cos, Real.sqrt⟩ L :=
    div_nonneg (by norm_num) hpos.le
  have hr : |Real.sqrt ((lightBasis ⟨Real.sin, Real.cos, Real.sqrt⟩ L).1.dot
      (lightBasis ⟨Real.sin, Real.cos, Real.sqrt⟩ L).1) - 1| < 1 / 10 ^ 5 := by
    simp only [Vec3.dot]
    rw [hlen, abs_lt]
    constructor <;> linarith
  refine ⟨hr, ?_⟩
  simp only [Vec3.dot] at hr ⊢
  rw [hup]
  exact hr

/-- C12: over exact real arithmetic, for all values of `lightElevation` and `lightAzimuth`
(members of `f`; so in particular for elevation in (-pi/2, pi/2) and azimuth in (-pi, pi)),
the vectors uploaded in `lightRight.xyz` and `lightUp.xyz` have a length that differs from 1
by less than `1e-5` (the `1e-8` added to the length of the cross product is part of the
formulas), and the dot products of `right` with `dir`, of `up` with `dir` and of `right` with
`up` are 0, so below `1e-5` in absolute value. -/
theorem light_basis_orthonormal (t : ℝ) (f : FloatMembers ℝ) :
    |Real.sqrt ((updateUniformFloats ⟨Real.sin, Real.cos, Real.sqrt⟩ t f).2.lightRight.xyz.dot
        (updateUniformFloats ⟨Real.sin, Real.cos, Real.sqrt⟩ t f).2.lightRight.xyz) - 1|
      < 1 / 10 ^ 5
    ∧ |Real.sqrt ((updateUniformFloats ⟨Real.sin, Real.cos, Real.sqrt⟩ t f).2.lightUp.xyz.dot
        (updateUniformFloats ⟨Real.sin, Real.cos, Real.sqrt⟩ t f).2.lightUp.xyz) - 1|
      < 1 / 10 ^ 5
    ∧ |(updateUniformFloats ⟨Real.sin, Real.cos, Real.sqrt⟩ t f).2.lightRight.xyz.dot
        (updateUniformFloats ⟨Real.sin, Real.cos, Real.sqrt⟩ t f).2.lightDir.xyz| < 1 / 10 ^ 5
    ∧ |(updateUniformFloats ⟨Real.sin, Real.cos, Real.sqrt⟩ t f).2.lightUp.xyz.dot
        (updateUniformFloats ⟨Real.sin, Real.cos, Real.sqrt⟩ t f).2.lightDir.xyz| < 1 / 10 ^ 5
    ∧ |(updateUniformFloats ⟨Real.sin, Real.cos, Real.sqrt⟩ t f).2.lightRight.xyz.dot
        (updateUniformFloats ⟨Real.sin, Real.cos, Real.sqrt⟩ t f).2.lightUp.xyz| < 1 / 10 ^ 5
    ∧ (updateUniformFloats ⟨Real.sin, Real.cos, Real.sqrt⟩ t f).2.lightRight.xyz.dot
        (updateUniformFloats ⟨Real.sin, Real.cos, Real.sqrt⟩ t f).2.lightDir.xyz = 0
    ∧ (updateUniformFloats ⟨Real.sin, Real.cos, Real.sqrt⟩ t f).2.lightUp.xyz.dot
        (updateUniformFloats ⟨Real.sin, Real.cos, Real.sqrt⟩ t f).2.lightDir.xyz = 0
    ∧ (updateUniformFloats ⟨Real.sin, Real.cos, Real.sqrt⟩ t f).2.lightRight.xyz.dot
        (updateUniformFloats ⟨Real.sin, Real.cos, Real.sqrt⟩ t f).2.lightUp.xyz = 0 := by
  have hn := lightDirection_norm f.lightElevation f.lightAzimuth
  have hlen := lightBasis_lengths _ hn
  have hdots := lightBasis_dots
    (lightDirection ⟨Real.sin, Real.cos, Real.sqrt⟩ f.lightElevation f.lightAzimuth)
  have h1 : (updateUniformFloats ⟨Real.sin, Real.cos, Real.sqrt⟩ t f).2.lightRight.xyz.dot
      (updateUniformFloats ⟨Real.sin, Real.cos, Real.sqrt⟩ t f).2.lightDir.xyz = 0 := hdots.1
  have h2 : (updateUniformFloats ⟨Real.sin, Real.cos, Real.sqrt⟩ t f).2.lightUp.xyz.dot
      (updateUniformFloats ⟨Real.sin, Real.cos, Real.sqrt⟩ t f).2.lightDir.xyz = 0 := hdots.2.1
  have h3 : (updateUniformFloats ⟨Real.sin, Real.cos, Real.sqrt⟩ t f).2.lightRight.xyz.dot
      (updateUniformFloats ⟨Real.sin, Real.cos, Real.sqrt⟩ t f).2.lightUp.xyz = 0 := hdots.2.2
  refine ⟨hlen.1, hlen.2, ?_, ?_, ?_, h1, h2, h3⟩
  · rw [h1]; norm_num
  · rw [h2]; norm_num
  · rw [h3]; norm_num

/-- The formulas of the light basis over exact real arithmetic: `lightRight.xyz` is the
cross product of the candidate with `dir` divided by the sum of its Euclidean length and
`1e-8`, where the candidate is `(1, 0, 0)` if `|dir.y| > 0.95` and `(0, 1, 0)` otherwise and
`dir` is the uploaded `lightDir.xyz`; `lightUp.xyz` is the cross product of `dir` with
`lightRight.xyz`; both `w` components are 0. -/
theorem light_basis_formulas (t : ℝ) (f : FloatMembers ℝ) :
    upCandidate (updateUniformFloats ⟨Real.sin, Real.cos, Real.sqrt⟩ t f).2.lightDir.y
      = (if |(updateUniformFloats ⟨Real.sin, Real.cos, Real.sqrt⟩ t f).2.lightDir.y| > 95 / 100
          then ⟨1, 0, 0⟩ else ⟨0, 1, 0⟩)
    ∧ (updateUniformFloats ⟨Real.sin, Real.cos, Real.sqrt⟩ t f).2.lightRight.xyz
      = ⟨((upCandidate (updateUniformFloats ⟨Real.sin, Real.cos, Real.sqrt⟩ t f).2.lightDir.y).cross
              (updateUniformFloats ⟨Real.sin, Real.cos, Real.sqrt⟩ t f).2.lightDir.xyz).x
            / (Real.sqrt
                (((upCandidate
                    (updateUniformFloats ⟨Real.sin, Real.cos, Real.sqrt⟩ t f).2.lightDir.y).cross
                  (updateUniformFloats ⟨Real.sin, Real.cos, Real.sqrt⟩ t f).2.lightDir.xyz).dot
                 ((upCandidate
                    (updateUniformFloats ⟨Real.sin, Real.cos, Real.sqrt⟩ t f).2.lightDir.y).cross
                  (updateUniformFloats ⟨Real.sin, Real.cos, Real.sqrt⟩ t f).2.lightDir.xyz))
              + 1 / 10 ^ 8),
          ((upCandidate (updateUniformFloats ⟨Real.sin, Real.cos, Real.sqrt⟩ t f).2.lightDir.y).cross
              (updateUniformFloats ⟨Real.sin, Real.cos, Real.sqrt⟩ t f).2.lightDir.xyz).y
            / (Real.sqrt
                (((upCandidate
                    (updateUniformFloats ⟨Real.sin, Real.cos, Real.sqrt⟩ t f).2.lightDir.y).cross
                  (updateUniformFloats ⟨Real.sin, Real.cos, Real.sqrt⟩ t f).2.lightDir.xyz).dot
                 ((upCandidate
                    (updateUniformFloats ⟨Real.sin, Real.cos, Real.sqrt⟩ t f).2.lightDir.y).cross
                  (updateUniformFloats ⟨Real.sin, Real.cos, Real.sqrt⟩ t f).2.lightDir.xyz))
              + 1 / 10 ^ 8),
          ((upCandidate (updateUniformFloats ⟨Real.sin, Real.cos, Real.sqrt⟩ t f).2.lightDir.y).cross
              (updateUniformFloats ⟨Real.sin, Real.cos, Real.sqrt⟩ t f).2.lightDir.xyz).z
            / (Real.sqrt
                (((upCandidate
                    (updateUniformFloats ⟨Real.sin, Real.cos, Real.sqrt⟩ t f).2.lightDir.y).cross
                  (updateUniformFloats ⟨Real.sin, Real.cos, Real.sqrt⟩ t f).2.lightDir.xyz).dot
                 ((upCandidate
                    (updateUniformFloats ⟨Real.sin, Real.cos, Real.sqrt⟩ t f).2.lightDir.y).cross
                  (updateUniformFloats ⟨Real.sin, Real.cos, Real.sqrt⟩ t f).2.lightDir.xyz))
              + 1 / 10 ^ 8)⟩
    ∧ (updateUniformFloats ⟨Real.sin, Real.cos, Real.sqrt⟩ t f).2.lightUp.xyz
      = (updateUniformFloats ⟨Real.sin, Real.cos, Real.sqrt⟩ t f).2.lightDir.xyz.cross
          (updateUniformFloats ⟨Real.sin, Real.cos, Real.sqrt⟩ t f).2.lightRight.xyz
    ∧ (updateUniformFloats ⟨Real.sin, Real.cos, Real.sqrt⟩ t f).2.lightRight.w = 0
    ∧ (updateUniformFloats ⟨Real.sin, Real.cos, Real.sqrt⟩ t f).2.lightUp.w = 0 :=
  ⟨rfl, rfl, rfl, rfl, rfl⟩

/-- Over exact real arithmetic the addend `1e-8` is not absorbed: for elevation 0 and
azimuth 0 the direction is `(0, 0, 1)`, the cross product with the candidate `(0, 1, 0)` is
`(1, 0, 0)` of length 1, and `lightRight.x` is `1 / (1 + 1e-8)`.  In binary32 the sum
`1 + 1e-8f` is 1, see `fadd_epsilon`. -/
theorem light_right_not_divided_by_length :
    (updateUniformFloats ⟨Real.sin, Real.cos, Real.sqrt⟩ 0
        ⟨⟨0, 0, 0⟩, 0, (0, 0), 0, 0, 0⟩).2.lightRight.x
      ≠ ((upCandidate (updateUniformFloats ⟨Real.sin, Real.cos, Real.sqrt⟩ 0
            ⟨⟨0, 0, 0⟩, 0, (0, 0), 0, 0, 0⟩).2.lightDir.y).cross
          (updateUniformFloats ⟨Real.sin, Real.cos, Real.sqrt⟩ 0
            ⟨⟨0, 0, 0⟩, 0, (0, 0), 0, 0, 0⟩).2.lightDir.xyz).x
        / Real.sqrt
            (((upCandidate (updateUniformFloats ⟨Real.sin, Real.cos, Real.sqrt⟩ 0
                  ⟨⟨0, 0, 0⟩, 0, (0, 0), 0, 0, 0⟩).2.lightDir.y).cross
                (updateUniformFloats ⟨Real.sin, Real.cos, Real.sqrt⟩ 0
                  ⟨⟨0, 0, 0⟩, 0, (0, 0), 0, 0, 0⟩).2.lightDir.xyz).dot
              ((upCandidate (updateUniformFloats ⟨Real.sin, Real.cos, Real.sqrt⟩ 0
                  ⟨⟨0, 0, 0⟩, 0, (0, 0), 0, 0, 0⟩).2.lightDir.y).cross
                (updateUniformFloats ⟨Real.sin, Real.cos, Real.sqrt⟩ 0
                  ⟨⟨0, 0, 0⟩, 0, (0, 0), 0, 0, 0⟩).2.lightDir.xyz)) := by
  have hd : lightDirection ⟨Real.sin, Real.cos, Real.sqrt⟩ 0 0 = ⟨0, 0, 1⟩ := by
    simp [lightDirection, sphericalDirection]
  have hc : upCandidate (0 : ℝ) = ⟨0, 1, 0⟩ := by
    simp [upCandidate]
    norm_num
  simp only [updateUniformFloats, integrateRotation, hd, lightBasis, rightLength,
    crossWithCandidate, hc, Vec4.xyz, Vec3.cross, Vec3.dot]
  norm_num

/-- C14: for every unit vector `L` the cross product of the chosen candidate with `L` has
length at least `sqrt(1 - 0.95^2)`, which is more than 0.31, so the divisor `rlen` is more than
0.31 and not near zero.  For `L = (0, 1, 0)` the candidate is `(1, 0, 0)`, the basis is
`right = (0, 0, 1 / (1 + 1e-8))`, `up = (1 / (1 + 1e-8), 0, 0)`, and `right`, `up` and `L` are
perpendicular to each other. -/
theorem cross_product_not_degenerate (L : Vec3 ℝ) (hL : L.dot L = 1) :
    crossWithCandidate L = (upCandidate L.y).cross L
    ∧ Real.sqrt (1 - (95 / 100 : ℝ) ^ 2)
        ≤ Real.sqrt (((upCandidate L.y).cross L).dot ((upCandidate L.y).cross L))
    ∧ (31 / 100 : ℝ) < Real.sqrt (1 - (95 / 100 : ℝ) ^ 2)
    ∧ (31 / 100 : ℝ) < rightLength ⟨Real.sin, Real.cos, Real.sqrt⟩ L
    ∧ upCandidate (1 : ℝ) = ⟨1, 0, 0⟩
    ∧ lightBasis ⟨Real.sin, Real.cos, Real.sqrt⟩ (⟨0, 1, 0⟩ : Vec3 ℝ)
        = (⟨0, 0, 1 / (1 + 1 / 10 ^ 8)⟩, ⟨1 / (1 + 1 / 10 ^ 8), 0, 0⟩)
    ∧ (lightBasis ⟨Real.sin, Real.cos, Real.sqrt⟩ (⟨0, 1, 0⟩ : Vec3 ℝ)).1.dot ⟨0, 1, 0⟩ = 0
    ∧ (lightBasis ⟨Real.sin, Real.cos, Real.sqrt⟩ (⟨0, 1, 0⟩ : Vec3 ℝ)).2.dot ⟨0, 1, 0⟩ = 0
    ∧ (lightBasis ⟨Real.sin, Real.cos, Real.sqrt⟩ (⟨0, 1, 0⟩ : Vec3 ℝ)).1.dot
        (lightBasis ⟨Real.sin, Real.cos, Real.sqrt⟩ (⟨0, 1, 0⟩ : Vec3 ℝ)).2 = 0 := by
  have hL2 : L.x * L.x + L.y * L.y + L.z * L.z = 1 := hL
  have hcand : upCandidate (1 : ℝ) = ⟨1, 0, 0⟩ := by
    have h : |(1 : ℝ)| > 95 / 100 := by rw [abs_one]; norm_num
    simp only [upCandidate, if_pos h]
  have hdots := lightBasis_dots (⟨0, 1, 0⟩ : Vec3 ℝ)
  refine ⟨rfl, Real.sqrt_le_sqrt (crossWithCandidate_sq L hL2), sqrt_bound, ?_, hcand, ?_,
    hdots.1, hdots.2.1, hdots.2.2⟩
  · have hb := rightLength_bound L hL2
    have hs := sqrt_bound
    linarith
  · simp only [lightBasis, rightLength, crossWithCandidate, hcand]
    norm_num

/-- C14 at the unit vector `(0, 1, 0)`. -/
theorem cross_product_not_degenerate_witness :
    (⟨0, 1, 0⟩ : Vec3 ℝ).dot ⟨0, 1, 0⟩ = 1
      ∧ (31 / 100 : ℝ) < rightLength ⟨Real.sin, Real.cos, Real.sqrt⟩ (⟨0, 1, 0⟩ : Vec3 ℝ) :=
  ⟨by simp [Vec3.dot],
    (cross_product_not_degenerate ⟨0, 1, 0⟩ (by simp [Vec3.dot])).2.2.2.1⟩


/-! ## Binary32 rounding -/

/-- The trace of the loop: what was there, then the calls of the loop. -/
theorem frames_trace (cfg : Config) (inputs : List FrameInput) (s : State) :
    (frames cfg inputs s).state.trace = s.trace ++ loopCalls cfg inputs s := by
  suffices h : ∃ l, (frames cfg inputs s).state.trace = s.trace ++ l by
    obtain ⟨l, hl⟩ := h
    simp only [loopCalls, callsOf, hl, List.drop_left]
  induction inputs generalizing s with
  | nil => exact ⟨[], by simp [frames]⟩
  | cons inp rest ih =>
    have hd := drawFrame_trace cfg inp (s.log .pollEvents)
    by_cases hok : (drawFrame cfg inp (s.log .pollEvents)).outcome = .ok
    · rw [frames_cons_ok cfg inp rest s hok]
      obtain ⟨l, hl⟩ := ih (drawFrame cfg inp (s.log .pollEvents)).state
      refine ⟨[Event.pollEvents] ++ frameCalls cfg inp (s.log .pollEvents) ++ l, ?_⟩
      rw [hl, hd]
      simp [State.log, List.append_assoc]
    · rw [frames_cons_not_ok cfg inp rest s hok]
      refine ⟨[Event.pollEvents] ++ frameCalls cfg inp (s.log .pollEvents), ?_⟩
      rw [hd]
      simp [State.log, List.append_assoc]

theorem loopCalls_nil (cfg : Config) (s : State) : loopCalls cfg [] s = [] := by
  simp [loopCalls, callsOf, frames]

/-- The calls of the loop, frame by frame. -/
theorem loopCalls_cons_ok (cfg : Config) (inp : FrameInput) (rest : List FrameInput) (s : State)
    (hok : (drawFrame cfg inp (s.log .pollEvents)).outcome = .ok) :
    loopCalls cfg (inp :: rest) s =
      Event.pollEvents :: frameCalls cfg inp (s.log .pollEvents)
        ++ loopCalls cfg rest (drawFrame cfg inp (s.log .pollEvents)).state := by
  have h1 := frames_trace cfg rest (drawFrame cfg inp (s.log .pollEvents)).state
  have hd := drawFrame_trace cfg inp (s.log .pollEvents)
  simp only [loopCalls, callsOf] at h1 ⊢
  rw [frames_cons_ok cfg inp rest s hok, h1, hd]
  simp [State.log, List.append_assoc]

theorem loopCalls_cons_not_ok (cfg : Config) (inp : FrameInput) (rest : List FrameInput)
    (s : State) (hok : (drawFrame cfg inp (s.log .pollEvents)).outcome ≠ .ok) :
    loopCalls cfg (inp :: rest) s =
      Event.pollEvents :: frameCalls cfg inp (s.log .pollEvents) := by
  have hd := drawFrame_trace cfg inp (s.log .pollEvents)
  simp only [loopCalls, callsOf]
  rw [frames_cons_not_ok cfg inp rest s hok, hd]
  simp [State.log, List.append_assoc]

theorem filterMap_resizeEvents {β : Type} (f : Event → Option β)
    (hf : ∀ e, e.isResourceCall = true → f e = none) (s : State) :
    (resizeEvents s).filterMap f = [] := by
  rw [List.filterMap_eq_nil_iff]
  intro e he
  exact hf e (resizeEvents_isResourceCall s e he)

/-- The calls of a successful frame. -/
theorem frameCalls_of_ok (cfg : Config) (inp : FrameInput) (s : State)
    (hok : (drawFrame cfg inp s).outcome = .ok) :
    frameCalls cfg inp s =
      frameHead cfg inp s ++ frameBody cfg inp s
        ++ [Event.presentImage inp.imageIndex s.currentFrame] := by
  have h := drawFrame_outcome_ok cfg inp s hok
  rw [frameCalls_eq, if_pos h.1, if_pos h.2, List.append_assoc]

/-- What a successful frame contributes: one fence wait on the current slot, one upload, one
recording of the command buffer of the acquired image, one present of that image. -/
theorem frameCalls_projections (cfg : Config) (inp : FrameInput) (s : State)
    (hok : (drawFrame cfg inp s).outcome = .ok) :
    (frameCalls cfg inp s).filterMap Event.waitedSlot = [s.currentFrame]
    ∧ (frameCalls cfg inp s).filterMap Event.uploaded = [buildUniforms cfg (applyPendingResize s)]
    ∧ (frameCalls cfg inp s).filterMap Event.recordedBuffer
        = [s.commandBuffers.getD inp.imageIndex VK_NULL_HANDLE]
    ∧ (frameCalls cfg inp s).filterMap Event.presentedImage = [inp.imageIndex] := by
  rw [frameCalls_of_ok cfg inp s hok]
  have h1 := filterMap_resizeEvents Event.waitedSlot
    (fun e he => by cases e <;> first | rfl | exact Bool.noConfusion he) s
  have h2 := filterMap_resizeEvents Event.uploaded
    (fun e he => by cases e <;> first | rfl | exact Bool.noConfusion he) s
  have h3 := filterMap_resizeEvents Event.recordedBuffer
    (fun e he => by cases e <;> first | rfl | exact Bool.noConfusion he) s
  have h4 := filterMap_resizeEvents Event.presentedImage
    (fun e he => by cases e <;> first | rfl | exact Bool.noConfusion he) s
  simp only [frameHead, frameBody, List.filterMap_append, h1, h2, h3, h4]
  refine ⟨rfl, rfl, rfl, rfl⟩

/-- C18: for every number of frames and every sequence of acquired image indices (indices may
repeat), if all the calls of `drawFrame` in the loop succeed, whatever the value of
`enableRSM` is (so with the shadow pass enabled too), then the calls of the loop hold exactly
one fence wait, one uniform upload, one recording and one present for every frame: the fence
waits are on the slots `currentFrame`, `currentFrame + 1`, ... modulo `frameNum`, the
recordings are of the command buffer of the image acquired in that frame, in order, and the
presents are of the acquired images, in order. -/
theorem loop_calls_per_frame (cfg : Config) (hN : 0 < cfg.frameNum ∧ cfg.frameNum < 2 ^ 32)
    (inputs : List FrameInput) (s : State) (hs : s.currentFrame < cfg.frameNum)
    (hok : (frames cfg inputs s).outcome = .ok) :
    (loopCalls cfg inputs s).filterMap Event.waitedSlot
        = (List.range inputs.length).map (fun k => (s.currentFrame + k) % cfg.frameNum)
    ∧ ((loopCalls cfg inputs s).filterMap Event.waitedSlot).length = inputs.length
    ∧ ((loopCalls cfg inputs s).filterMap Event.uploaded).length = inputs.length
    ∧ (loopCalls cfg inputs s).filterMap Event.recordedBuffer
        = inputs.map (fun inp => s.commandBuffers.getD inp.imageIndex VK_NULL_HANDLE)
    ∧ ((loopCalls cfg inputs s).filterMap Event.recordedBuffer).length = inputs.length
    ∧ (loopCalls cfg inputs s).filterMap Event.presentedImage
        = inputs.map (fun inp => inp.imageIndex)
    ∧ ((loopCalls cfg inputs s).filterMap Event.presentedImage).length = inputs.length := by
  suffices h : (loopCalls cfg inputs s).filterMap Event.waitedSlot
        = (List.range inputs.length).map (fun k => (s.currentFrame + k) % cfg.frameNum)
      ∧ ((loopCalls cfg inputs s).filterMap Event.uploaded).length = inputs.length
      ∧ (loopCalls cfg inputs s).filterMap Event.recordedBuffer
          = inputs.map (fun inp => s.commandBuffers.getD inp.imageIndex VK_NULL_HANDLE)
      ∧ (loopCalls cfg inputs s).filterMap Event.presentedImage
          = inputs.map (fun inp => inp.imageIndex) by
    obtain ⟨h1, h2, h3, h4⟩ := h
    refine ⟨h1, by rw [h1]; simp, h2, h3, by rw [h3]; simp, h4, by rw [h4]; simp⟩
  induction inputs generalizing s with
  | nil => simp [loopCalls_nil]
  | cons inp rest ih =>
    have h1 := frames_cons_outcome cfg inp rest s hok
    have h2 := drawFrame_outcome_ok cfg inp _ h1
    rw [frames_cons_ok cfg inp rest s h1] at hok
    have hstep : (drawFrame cfg inp (s.log .pollEvents)).state.currentFrame
        = (s.currentFrame + 1) % cfg.frameNum := by
      rw [drawFrame_of_success cfg inp _ h2.1 h2.2]
      show (s.currentFrame + 1) % 2 ^ 32 % cfg.frameNum = _
      rw [Nat.mod_eq_of_lt (a := s.currentFrame + 1) (by omega)]
    have hbuf : (drawFrame cfg inp (s.log .pollEvents)).state.commandBuffers
        = s.commandBuffers := by
      rw [drawFrame_of_success cfg inp _ h2.1 h2.2]
      show (controlPanel cfg inp.ui (applyPendingResize (s.log .pollEvents))).commandBuffers = _
      rw [controlPanel_commandBuffers, applyPendingResize_commandBuffers]
      rfl
    obtain ⟨i1, i2, i3, i4⟩ := ih (drawFrame cfg inp (s.log .pollEvents)).state
      (by rw [hstep]; exact Nat.mod_lt _ hN.1) hok
    obtain ⟨p1, p2, p3, p4⟩ := frameCalls_projections cfg inp (s.log .pollEvents) h1
    rw [loopCalls_cons_ok cfg inp rest s h1]
    simp only [List.filterMap_cons, List.filterMap_append, Event.waitedSlot, Event.uploaded,
      Event.recordedBuffer, Event.presentedImage, p1, p2, p3, p4, i1, i2, i3, i4, hstep, hbuf,
      List.length_cons, List.length_append, List.length_nil, List.map_cons]
    refine ⟨?_, by omega, rfl, rfl⟩
    rw [List.range_succ_eq_map, List.map_cons, List.map_map]
    show s.currentFrame :: _ = _
    congr 1
    · exact (Nat.mod_eq_of_lt hs).symm
    · apply List.map_congr_left
      intro k _
      simp only [Function.comp, Nat.mod_add_mod]
      congr 1
      omega

/-- C18 at ten frames of the desktop configuration (pipeline depth 3) with the shadow pass
enabled, the acquired images being 0, 1, 1, 0, 0, 1, 0, 1, 1, 0: the fence waits are on the
slots 0, 1, 2, 0, 1, 2, 0, 1, 2, 0. -/
theorem loop_calls_per_frame_witness :
    (0 < desktop.frameNum ∧ desktop.frameNum < 2 ^ 32)
      ∧ ({ initState desktop with enableRSM := true } : State).currentFrame < desktop.frameNum
      ∧ (frames desktop
          [{ imageIndex := 0 }, { imageIndex := 1 }, { imageIndex := 1 }, { imageIndex := 0 },
           { imageIndex := 0 }, { imageIndex := 1 }, { imageIndex := 0 }, { imageIndex := 1 },
           { imageIndex := 1 }, { imageIndex := 0 }]
          { initState desktop with enableRSM := true }).outcome = .ok
      ∧ (loopCalls desktop
          [{ imageIndex := 0 }, { imageIndex := 1 }, { imageIndex := 1 }, { imageIndex := 0 },
           { imageIndex := 0 }, { imageIndex := 1 }, { imageIndex := 0 }, { imageIndex := 1 },
           { imageIndex := 1 }, { imageIndex := 0 }]
          { initState desktop with enableRSM := true }).filterMap Event.waitedSlot
        = [0, 1, 2, 0, 1, 2, 0, 1, 2, 0]
      ∧ (loopCalls desktop
          [{ imageIndex := 0 }, { imageIndex := 1 }, { imageIndex := 1 }, { imageIndex := 0 },
           { imageIndex := 0 }, { imageIndex := 1 }, { imageIndex := 0 }, { imageIndex := 1 },
           { imageIndex := 1 }, { imageIndex := 0 }]
          { initState desktop with enableRSM := true }).filterMap Event.recordedBuffer
        = [40, 41, 41, 40, 40, 41, 40, 41, 41, 40] :=
  ⟨by decide, by decide, by decide,
    (loop_calls_per_frame desktop (by decide)
      [{ imageIndex := 0 }, { imageIndex := 1 }, { imageIndex := 1 }, { imageIndex := 0 },
       { imageIndex := 0 }, { imageIndex := 1 }, { imageIndex := 0 }, { imageIndex := 1 },
       { imageIndex := 1 }, { imageIndex := 0 }]
      { initState desktop with enableRSM := true } (by decide) (by decide)).1,
    (loop_calls_per_frame desktop (by decide)
      [{ imageIndex := 0 }, { imageIndex := 1 }, { imageIndex := 1 }, { imageIndex := 0 },
       { imageIndex := 0 }, { imageIndex := 1 }, { imageIndex := 0 }, { imageIndex := 1 },
       { imageIndex := 1 }, { imageIndex := 0 }]
      { initState desktop with enableRSM := true } (by decide) (by decide)).2.2.2.1⟩

/-! ## Frames in flight -/

theorem FlightBounded.head {n : Nat} {pending : List Nat} {calls : List Event}
    (h : FlightBounded n pending calls) : FlightOK n pending := by
  cases calls with
  | nil => exact h
  | cons e es => exact h.1

theorem FlightBounded.append {n : Nat} {pending : List Nat} {a b : List Event}
    (ha : FlightBounded n pending a) (hb : FlightBounded n (a.foldl flightStep pending) b) :
    FlightBounded n pending (a ++ b) := by
  induction a generalizing pending with
  | nil => exact hb
  | cons e es ih => exact ⟨ha.1, ih ha.2 hb⟩

theorem FlightBounded.split {n : Nat} {pending : List Nat} {a b : List Event}
    (h : FlightBounded n pending (a ++ b)) :
    FlightBounded n (a.foldl flightStep pending) b := by
  induction a generalizing pending with
  | nil => exact h
  | cons e es ih => exact ih h.2

/-- The bound holds after every prefix of calls that are `FlightBounded`. -/
theorem FlightBounded.of_prefix {n : Nat} {calls pre : List Event}
    (h : FlightBounded n [] calls) (hpre : pre <+: calls) : FlightOK n (inFlight pre) := by
  obtain ⟨post, rfl⟩ := hpre
  exact (FlightBounded.split h).head

theorem flightStep_neutral (pending : List Nat) (e : Event) (he : e.isFlightNeutral = true) :
    flightStep pending e = pending := by
  cases e <;> first | rfl | exact Bool.noConfusion he

theorem foldl_flightStep_neutral (pending : List Nat) (calls : List Event)
    (h : ∀ e ∈ calls, e.isFlightNeutral = true) : calls.foldl flightStep pending = pending := by
  induction calls with
  | nil => rfl
  | cons e es ih =>
    rw [List.foldl_cons, flightStep_neutral pending e (h e (List.mem_cons_self _ _))]
    exact ih (fun x hx => h x (List.mem_cons_of_mem _ hx))

theorem FlightBounded.neutral {n : Nat} {pending : List Nat} (hp : FlightOK n pending)
    (calls : List Event) (h : ∀ e ∈ calls, e.isFlightNeutral = true) :
    FlightBounded n pending calls := by
  induction calls with
  | nil => exact hp
  | cons e es ih =>
    refine ⟨hp, ?_⟩
    rw [flightStep_neutral pending e (h e (List.mem_cons_self _ _))]
    exact ih (fun x hx => h x (List.mem_cons_of_mem _ hx))

theorem isFlightNeutral_of_isResourceCall (e : Event) (h : e.isResourceCall = true) :
    e.isFlightNeutral = true := by
  cases e <;> first | rfl | exact Bool.noConfusion h

theorem FlightOK.wait {n : Nat} {pending : List Nat} (hp : FlightOK n pending) (slot : Nat) :
    FlightOK n (pending.filter (fun fence => fence ≠ slot))
      ∧ slot ∉ pending.filter (fun fence => fence ≠ slot) := by
  refine ⟨⟨hp.1.filter _, ?_⟩, ?_⟩
  · intro f hf
    exact hp.2 f (List.mem_filter.mp hf).1
  · intro hf
    simpa using (List.mem_filter.mp hf).2

theorem FlightOK.submit {n : Nat} {pending : List Nat} (hp : FlightOK n pending) (slot : Nat)
    (hs : slot < n) (hnot : slot ∉ pending) : FlightOK n (pending ++ [slot]) := by
  refine ⟨?_, ?_⟩
  · rw [List.nodup_append]
    refine ⟨hp.1, List.nodup_singleton _, ?_⟩
    intro a ha hb
    rw [List.mem_singleton] at hb
    subst hb
    exact hnot ha
  · intro f hf
    rcases List.mem_append.mp hf with hf | hf
    · exact hp.2 f hf
    · rw [List.mem_singleton] at hf
      subst hf
      exact hs

/-- The number of submissions in flight is at most the number of slots. -/
theorem FlightOK.length_le {n : Nat} {pending : List Nat} (hp : FlightOK n pending) :
    pending.length ≤ n := by
  have hsub : pending ⊆ List.range n := fun f hf => List.mem_range.mpr (hp.2 f hf)
  have := (List.subperm_of_subset hp.1 hsub).length_le
  simpa using this

/-- The bound holds throughout a frame that starts with a slot below `n`. -/
theorem FlightBounded.ofFrame (cfg : Config) (inp : FrameInput) (s : State) {n : Nat}
    {pending : List Nat} (hp : FlightOK n pending) (hs : s.currentFrame < n) :
    FlightBounded n pending (frameCalls cfg inp s) := by
  obtain ⟨h1, hnot⟩ := hp.wait s.currentFrame
  have h2 := h1.submit s.currentFrame hs hnot
  have hneutral : ∀ e ∈ resizeEvents s ++
      [ Event.acquireNextImage s.currentFrame inp.imageIndex, .resetFences s.currentFrame,
        .uploadUniforms s.uniformBuffer (buildUniforms cfg (applyPendingResize s)) ],
      e.isFlightNeutral = true := by
    intro e he
    rcases List.mem_append.mp he with he | he
    · exact isFlightNeutral_of_isResourceCall e (resizeEvents_isResourceCall s e he)
    · simp only [List.mem_cons, List.mem_singleton, List.not_mem_nil, or_false] at he
      rcases he with rfl | rfl | rfl <;> rfl
  have htail : FlightBounded n (pending.filter (fun fence => fence ≠ s.currentFrame))
      (if indexInRange inp.imageIndex (applyPendingResize s) then
          frameBody cfg inp s ++
            (if inp.submitResult = VK_SUCCESS then
              [Event.presentImage inp.imageIndex s.currentFrame] else [])
        else []) := by
    split
    · split
      · exact ⟨h1, h1, h1, h2, h2⟩
      · exact ⟨h1, h1, h1, h2⟩
    · exact h1
  have hshape : frameCalls cfg inp s =
      [Event.waitForFences s.currentFrame true UINT64_MAX] ++
        ((resizeEvents s ++
          [ Event.acquireNextImage s.currentFrame inp.imageIndex, .resetFences s.currentFrame,
            .uploadUniforms s.uniformBuffer (buildUniforms cfg (applyPendingResize s)) ]) ++
          (if indexInRange inp.imageIndex (applyPendingResize s) then
            frameBody cfg inp s ++
              (if inp.submitResult = VK_SUCCESS then
                [Event.presentImage inp.imageIndex s.currentFrame] else [])
          else [])) := by
    rw [frameCalls_eq]
    simp only [frameHead, List.append_assoc]
  rw [hshape]
  refine FlightBounded.append (a := [Event.waitForFences s.currentFrame true UINT64_MAX]) ⟨hp, h1⟩ ?_
  refine FlightBounded.append (FlightBounded.neutral h1 _ hneutral) ?_
  rw [foldl_flightStep_neutral _ _ hneutral]
  exact htail

theorem FlightBounded.last {n : Nat} {pending : List Nat} {calls : List Event}
    (h : FlightBounded n pending calls) : FlightOK n (calls.foldl flightStep pending) := by
  induction calls generalizing pending with
  | nil => exact h
  | cons e es ih => exact ih h.2

/-- The bound holds throughout the loop. -/
theorem FlightBounded.ofLoop (cfg : Config) (hN : 0 < cfg.frameNum)
    (inputs : List FrameInput) (s : State) {pending : List Nat}
    (hp : FlightOK cfg.frameNum pending) (hs : s.currentFrame < cfg.frameNum) :
    FlightBounded cfg.frameNum pending (loopCalls cfg inputs s) := by
  induction inputs generalizing s pending with
  | nil =>
    rw [loopCalls_nil]
    exact hp
  | cons inp rest ih =>
    have hframe := FlightBounded.ofFrame cfg inp (s.log .pollEvents) hp hs
    by_cases hok : (drawFrame cfg inp (s.log .pollEvents)).outcome = .ok
    · rw [loopCalls_cons_ok cfg inp rest s hok]
      refine ⟨hp, FlightBounded.append hframe (ih _ hframe.last ?_)⟩
      have h2 := drawFrame_outcome_ok cfg inp _ hok
      rw [drawFrame_of_success cfg inp _ h2.1 h2.2]
      exact Nat.mod_lt _ hN
    · rw [loopCalls_cons_not_ok cfg inp rest s hok]
      exact ⟨hp, hframe⟩

theorem isFlightNeutral_of_isCreation (e : Event) (h : e.isCreation = true) :
    e.isFlightNeutral = true := by
  cases e <;> first | rfl | exact Bool.noConfusion h

/-- The bound holds throughout every run of the program. -/
theorem FlightBounded.ofProgram (cfg : Config) (hN : 0 < cfg.frameNum)
    (inputs : List FrameInput) :
    FlightBounded cfg.frameNum [] (run cfg inputs {}).state.trace := by
  have hnil : FlightOK cfg.frameNum [] := ⟨List.nodup_nil, fun f hf => by cases hf⟩
  cases hg : cfg.glfwInitOk
  · simp only [run, initVulkan, initVulkanPC, hg, if_true]
    exact hnil
  · have hinit := initVulkan_eq cfg hg
    have hneutral : ∀ e ∈ initEvents cfg, e.isFlightNeutral = true :=
      fun e he => isFlightNeutral_of_isCreation e (initEvents_isCreation cfg e he)
    have htrace := frames_trace cfg inputs (initState cfg)
    have hloop : FlightBounded cfg.frameNum [] (initEvents cfg ++ loopCalls cfg inputs (initState cfg)) := by
      refine FlightBounded.append (FlightBounded.neutral hnil _ hneutral) ?_
      rw [foldl_flightStep_neutral _ _ hneutral]
      exact FlightBounded.ofLoop cfg hN inputs (initState cfg) hnil hN
    have htrace2 : (frames cfg inputs (initState cfg)).state.trace
        = initEvents cfg ++ loopCalls cfg inputs (initState cfg) := htrace
    simp only [run, hinit, mainLoop]
    split
    · show FlightBounded cfg.frameNum []
        ((frames cfg inputs (initState cfg)).state.trace ++ [Event.deviceWaitIdle])
      rw [htrace2]
      refine FlightBounded.append hloop ?_
      exact ⟨hloop.last, hloop.last⟩
    · rw [htrace2]
      exact hloop

theorem flightStep_sublist {p q : List Nat} (h : p.Sublist q) (e : Event) :
    (flightStep p e).Sublist (flightStep q e) := by
  cases e <;> first | exact h | exact h.filter _ | exact h.append_right _

/-- Whatever the device completes on its own, the submissions in flight are among those of
`inFlight`. -/
theorem inFlightWith_sublist (calls : List Event) (signals : List (List Nat)) :
    (inFlightWith (calls.zip signals)).Sublist (inFlight (calls.take signals.length)) := by
  suffices h : ∀ (p q : List Nat), p.Sublist q →
      ((calls.zip signals).foldl
        (fun pending call => (flightStep pending call.1).filter (fun fence => fence ∉ call.2)) p).Sublist
        ((calls.take signals.length).foldl flightStep q) from h [] [] (List.Sublist.refl _)
  induction calls generalizing signals with
  | nil => intro p q h; simpa using h
  | cons e es ih =>
    intro p q h
    cases signals with
    | nil => simpa using h
    | cons d ds =>
      simp only [List.zip_cons_cons, List.foldl_cons, List.length_cons, List.take_succ_cons]
      exact ih ds _ _ ((List.filter_sublist _).trans (flightStep_sublist h e))

/-- C19: in every run of the program with a pipeline depth `frameNum > 0`, after every prefix
of the calls made, the submissions that may be incomplete (those submitted and not yet waited
for through their fence) use pairwise different fences, each the fence of one of the
`frameNum` slots, so there are at most `frameNum` of them.  The same bound holds when the
device completes submissions on its own: whatever fences it signals after each call, the
submissions still in flight are at most `frameNum`. -/
theorem frames_in_flight_bounded (cfg : Config) (hN : 0 < cfg.frameNum)
    (inputs : List FrameInput) (pre : List Event)
    (hpre : pre <+: (run cfg inputs {}).state.trace) (signals : List (List Nat)) :
    (inFlight pre).length ≤ cfg.frameNum
    ∧ (inFlight pre).Nodup
    ∧ (∀ fence ∈ inFlight pre, fence < cfg.frameNum)
    ∧ (inFlightWith (pre.zip signals)).length ≤ cfg.frameNum := by
  have hrun := FlightBounded.ofProgram cfg hN inputs
  have hok := hrun.of_prefix hpre
  have hok2 := hrun.of_prefix ((List.take_prefix signals.length pre).trans hpre)
  exact ⟨hok.length_le, hok.1, hok.2,
    (inFlightWith_sublist pre signals).length_le.trans hok2.length_le⟩

/-- C19 at four frames of the desktop configuration: at the end of the run the submissions
of the last three frames may be incomplete. -/
theorem frames_in_flight_bounded_witness :
    0 < desktop.frameNum
      ∧ (run desktop
            [{ imageIndex := 0 }, { imageIndex := 1 }, { imageIndex := 1 }, { imageIndex := 0 }]
            {}).state.trace
          <+: (run desktop
            [{ imageIndex := 0 }, { imageIndex := 1 }, { imageIndex := 1 }, { imageIndex := 0 }]
            {}).state.trace
      ∧ inFlight (run desktop
            [{ imageIndex := 0 }, { imageIndex := 1 }, { imageIndex := 1 }, { imageIndex := 0 }]
            {}).state.trace = [1, 2, 0]
      ∧ (inFlight (run desktop
            [{ imageIndex := 0 }, { imageIndex := 1 }, { imageIndex := 1 }, { imageIndex := 0 }]
            {}).state.trace).length ≤ desktop.frameNum :=
  ⟨by decide, List.prefix_rfl, by decide,
    (frames_in_flight_bounded desktop (by decide)
      [{ imageIndex := 0 }, { imageIndex := 1 }, { imageIndex := 1 }, { imageIndex := 0 }]
      _ List.prefix_rfl []).1⟩

/-! ## The objects of a swapchain image -/

theorem SharedUniform.ofResources {cfg : Config} {s t : State} (h : SharedUniform cfg s)
    (hres : s.resources = t.resources) : SharedUniform cfg t := by
  rw [State.eq_of_resources hres]
  exact h

theorem SharedUniform.resized {cfg : Config} {s : State} (h : SharedUniform cfg s) :
    SharedUniform cfg (applyPendingResize s) := by
  cases hp : s.rsmRecreatePending
  · rw [applyPendingResize_of_not_pending _ hp]
    exact h
  · rw [applyPendingResize_of_pending _ hp, recreateRSMResources_eq]
    refine ⟨h.1, h.2.1, ?_⟩
    intro d hd
    simp only [List.mem_map, List.mem_range] at hd
    obtain ⟨i, _, rfl⟩ := hd
    rfl

theorem SharedUniform.afterFrame {cfg : Config} {s : State} (h : SharedUniform cfg s)
    (inp : FrameInput) : SharedUniform cfg (drawFrame cfg inp s).state :=
  h.resized.ofResources (drawFrame_resources cfg inp s).symm

theorem SharedUniform.afterLoop {cfg : Config} {s : State} (h : SharedUniform cfg s)
    (inputs : List FrameInput) : SharedUniform cfg (frames cfg inputs s).state := by
  induction inputs generalizing s with
  | nil => exact h
  | cons inp rest ih =>
    have hlog : SharedUniform cfg (s.log .pollEvents) := h
    by_cases hok : (drawFrame cfg inp (s.log .pollEvents)).outcome = .ok
    · rw [frames_cons_ok cfg inp rest s hok]
      exact ih (hlog.afterFrame inp)
    · rw [frames_cons_not_ok cfg inp rest s hok]
      exact hlog.afterFrame inp

theorem SharedUniform.atInit (cfg : Config) : SharedUniform cfg (initState cfg) := by
  refine ⟨rfl, rfl, ?_⟩
  intro d hd
  simp only [initState, List.mem_map, List.mem_range] at hd
  obtain ⟨i, _, rfl⟩ := hd
  rfl

/-- The state in which `run` ends, when `glfwInit` succeeds: the invariants hold. -/
theorem run_state_invariants (cfg : Config) (hg : cfg.glfwInitOk = true)
    (inputs : List FrameInput) :
    Inv (run cfg inputs {}).state ∧ SharedUniform cfg (run cfg inputs {}).state := by
  have hinit := initVulkan_eq cfg hg
  have h1 := Inv.loop (Inv.init cfg) cfg inputs
  have h2 := (SharedUniform.atInit cfg).afterLoop inputs
  simp only [run, hinit, mainLoop]
  split
  · exact ⟨h1.logged _, h2⟩
  · exact ⟨h1, h2⟩

/-- The state in which `run` ends, when `glfwInit` fails: nothing was created. -/
theorem run_state_of_failure (cfg : Config) (hg : cfg.glfwInitOk = false)
    (inputs : List FrameInput) : (run cfg inputs {}).state = {} := by
  simp only [run, initVulkan, initVulkanPC, hg, if_true]

/-- Descriptor sets of different images are different objects. -/
theorem Inv.descriptorSets_distinct {s : State} (h : Inv s) (i j : Nat) (hij : i ≠ j)
    (hi : i < s.descriptorSets.length) (hj : j < s.descriptorSets.length) :
    s.descriptorSets[i].handle ≠ s.descriptorSets[j].handle := by
  intro heq
  have h1 : s.descriptorSets[i].handle ∈ s.registry (.descriptorSet i) := by
    rw [(h.sets i hi).1]; exact List.mem_singleton_self _
  have h2 : s.descriptorSets[i].handle ∈ s.registry (.descriptorSet j) := by
    rw [(h.sets j hj).1, heq]; exact List.mem_singleton_self _
  have := h.engine.registry_inj _ _ _ h1 h2
  simp only [ResName.descriptorSet.injEq] at this
  exact hij this

/-- Framebuffers of different images are different objects. -/
theorem Inv.framebuffers_distinct {s : State} (h : Inv s) (i j : Nat) (hij : i ≠ j)
    (hi : i < s.framebuffers.length) (hj : j < s.framebuffers.length) :
    s.framebuffers[i].handle ≠ s.framebuffers[j].handle := by
  intro heq
  have h1 : s.framebuffers[i].handle ∈ s.registry (.mainFb i) := by
    rw [(h.mainFbs i hi).1]; exact List.mem_singleton_self _
  have h2 : s.framebuffers[i].handle ∈ s.registry (.mainFb j) := by
    rw [(h.mainFbs j hj).1, heq]; exact List.mem_singleton_self _
  have := h.engine.registry_inj _ _ _ h1 h2
  simp only [ResName.mainFb.injEq] at this
  exact hij this

/-- Command buffers of different images are different objects. -/
theorem SharedUniform.commandBuffers_distinct {cfg : Config} {s : State}
    (h : SharedUniform cfg s) (i j : Nat) (hij : i ≠ j)
    (hi : i < s.commandBuffers.length) (hj : j < s.commandBuffers.length) :
    s.commandBuffers[i] ≠ s.commandBuffers[j] := by
  have hc := h.1
  have hi2 : i < (initState cfg).commandBuffers.length := hc ▸ hi
  have hj2 : j < (initState cfg).commandBuffers.length := hc ▸ hj
  have e1 : s.commandBuffers[i] = (initState cfg).commandBuffers[i] := by
    simp only [hc]
  have e2 : s.commandBuffers[j] = (initState cfg).commandBuffers[j] := by
    simp only [hc]
  rw [e1, e2]
  simp only [initState, List.getElem_map, List.getElem_range, Handle]
  omega

/-- C20, as the code has it: in the state in which a run of the program ends (so after
`initVulkan` and after every frame, recreations included), two different image indices `i` and
`j` have different descriptor sets, different command buffers and different framebuffers
(each pair where both indices are in range), but not different uniform buffers: binding 0 of
every descriptor set is the one buffer `uniformBuffer`, shared by all images. -/
theorem per_image_objects (cfg : Config) (inputs : List FrameInput) (i j : Nat) (hij : i ≠ j) :
    (∀ (hi : i < (run cfg inputs {}).state.descriptorSets.length)
        (hj : j < (run cfg inputs {}).state.descriptorSets.length),
        (run cfg inputs {}).state.descriptorSets[i].handle
            ≠ (run cfg inputs {}).state.descriptorSets[j].handle
          ∧ (run cfg inputs {}).state.descriptorSets[i].uniformBuffer
            = (run cfg inputs {}).state.uniformBuffer
          ∧ (run cfg inputs {}).state.descriptorSets[j].uniformBuffer
            = (run cfg inputs {}).state.uniformBuffer)
    ∧ (∀ (hi : i < (run cfg inputs {}).state.commandBuffers.length)
        (hj : j < (run cfg inputs {}).state.commandBuffers.length),
        (run cfg inputs {}).state.commandBuffers[i] ≠ (run cfg inputs {}).state.commandBuffers[j])
    ∧ (∀ (hi : i < (run cfg inputs {}).state.framebuffers.length)
        (hj : j < (run cfg inputs {}).state.framebuffers.length),
        (run cfg inputs {}).state.framebuffers[i].handle
          ≠ (run cfg inputs {}).state.framebuffers[j].handle) := by
  cases hg : cfg.glfwInitOk
  · rw [run_state_of_failure cfg hg inputs]
    refine ⟨?_, ?_, ?_⟩ <;> intro hi <;> exact absurd hi (Nat.not_lt_zero _)
  · obtain ⟨hinv, hshared⟩ := run_state_invariants cfg hg inputs
    refine ⟨?_, ?_, ?_⟩
    · intro hi hj
      exact ⟨hinv.descriptorSets_distinct i j hij hi hj,
        hshared.2.2 _ (List.getElem_mem hi), hshared.2.2 _ (List.getElem_mem hj)⟩
    · intro hi hj
      exact hshared.commandBuffers_distinct i j hij hi hj
    · intro hi hj
      exact hinv.framebuffers_distinct i j hij hi hj

/-- C20 fails as it is stated: after `initVulkan` on the desktop configuration the images 0 and
1 have descriptor sets that hold the same uniform buffer at binding 0. -/
theorem uniform_buffer_is_shared :
    (0 : Nat) ≠ 1
      ∧ ((initVulkan desktop {}).state.descriptorSets.getD 0 DescriptorSet.null).uniformBuffer
        = ((initVulkan desktop {}).state.descriptorSets.getD 1 DescriptorSet.null).uniformBuffer
      ∧ ((initVulkan desktop {}).state.descriptorSets.getD 0 DescriptorSet.null).uniformBuffer = 22
      ∧ (initVulkan desktop {}).state.descriptorSets.length = 2 := by
  decide

/-- C20, as the code has it, at a run of the desktop configuration in which 2048 is selected
during the first frame, for the images 0 and 1. -/
theorem per_image_objects_witness :
    (0 : Nat) ≠ 1
      ∧ ((run desktop
            [{ imageIndex := 0, ui := { rsmResolution := some 2 } }, { imageIndex := 1 }]
            {}).state.descriptorSets.map (fun d => (d.handle, d.uniformBuffer))
          = [(52, 22), (53, 22)])
      ∧ ∀ (hi : 0 < (run desktop
            [{ imageIndex := 0, ui := { rsmResolution := some 2 } }, { imageIndex := 1 }]
            {}).state.commandBuffers.length)
          (hj : 1 < (run desktop
            [{ imageIndex := 0, ui := { rsmResolution := some 2 } }, { imageIndex := 1 }]
            {}).state.commandBuffers.length),
          (run desktop
            [{ imageIndex := 0, ui := { rsmResolution := some 2 } }, { imageIndex := 1 }]
            {}).state.commandBuffers[0]
          ≠ (run desktop
            [{ imageIndex := 0, ui := { rsmResolution := some 2 } }, { imageIndex := 1 }]
            {}).state.commandBuffers[1] :=
  ⟨by decide, by decide,
    (per_image_objects desktop
      [{ imageIndex := 0, ui := { rsmResolution := some 2 } }, { imageIndex := 1 }] 0 1
      (by decide)).2.1⟩


/-! ## The synchronisation objects of a frame -/

theorem slots_of_resourceCall (e : Event) (h : e.isResourceCall = true) : e.slots = [] := by
  cases e <;> first | rfl | cases h

theorem fenceWait_of_resourceCall (e : Event) (h : e.isResourceCall = true) :
    e.fenceWait = none := by
  cases e <;> first | rfl | cases h

theorem slots_resizeEvents (s : State) : ∀ e ∈ resizeEvents s, e.slots = [] :=
  fun e he => slots_of_resourceCall e (resizeEvents_isResourceCall s e he)

theorem slots_frameHead (cfg : Config) (inp : FrameInput) (s : State) :
    ∀ e ∈ frameHead cfg inp s, ∀ k ∈ e.slots, k = s.currentFrame := by
  intro e he k hk
  simp only [frameHead, List.mem_append, List.mem_cons, List.mem_singleton,
    List.not_mem_nil, or_false] at he
  rcases he with (rfl | he) | rfl | rfl | rfl
  · simpa [Event.slots] using hk
  · rw [slots_resizeEvents s e he] at hk
    cases hk
  · simpa [Event.slots] using hk
  · simpa [Event.slots] using hk
  · simp [Event.slots] at hk

theorem slots_frameBody (cfg : Config) (inp : FrameInput) (s : State) :
    ∀ e ∈ frameBody cfg inp s, ∀ k ∈ e.slots, k = s.currentFrame := by
  intro e he k hk
  simp only [frameBody, List.mem_cons, List.mem_singleton, List.not_mem_nil, or_false] at he
  rcases he with rfl | rfl | rfl
  · simp [Event.slots] at hk
  · simp [Event.slots] at hk
  · simpa [Event.slots, frameSubmit] using hk

theorem slots_frameCalls (cfg : Config) (inp : FrameInput) (s : State) :
    ∀ e ∈ frameCalls cfg inp s, ∀ k ∈ e.slots, k = s.currentFrame := by
  intro e he k hk
  rw [frameCalls_eq] at he
  rcases List.mem_append.mp he with he | he
  · exact slots_frameHead cfg inp s e he k hk
  · split at he
    · rcases List.mem_append.mp he with he | he
      · exact slots_frameBody cfg inp s e he k hk
      · split at he
        · rcases List.mem_singleton.mp he with rfl
          simpa [Event.slots] using hk
        · cases he
    · cases he

/-- C21: the calls of a frame that starts with slot index `c = currentFrame`
are: the wait for fence `c`, called with `waitAll` set and the timeout
`UINT64_MAX`; the calls of a pending resize, none of which uses
a fence or a semaphore; the acquire with image-available semaphore `c`; the
reset of fence `c`; the upload; and, with the image index in range, the reset
and the recording of the command buffer and the submission that waits on
image-available semaphore `c`, signals render-finished semaphore `c` and is
given fence `c`, followed after a successful submission by the present that
waits on render-finished semaphore `c`.  So every fence and semaphore of the
frame is that of slot `c`, the only fence wait of the frame is the one for
fence `c`, its timeout is `2^64 - 1` nanoseconds, the largest value the
parameter can hold, and the reset of the fence comes before the submission,
which is the last call but the present. -/
theorem sync_objects_of_current_slot (cfg : Config) (inp : FrameInput) (s : State) :
    frameCalls cfg inp s =
        [Event.waitForFences s.currentFrame true UINT64_MAX] ++ resizeEvents s
          ++ [ .acquireNextImage s.currentFrame inp.imageIndex,
               .resetFences s.currentFrame,
               .uploadUniforms s.uniformBuffer (buildUniforms cfg (applyPendingResize s)) ]
          ++ (if indexInRange inp.imageIndex (applyPendingResize s) then
                [ Event.resetCommandBuffer (s.commandBuffers.getD inp.imageIndex VK_NULL_HANDLE),
                  .recordCommandBuffer (s.commandBuffers.getD inp.imageIndex VK_NULL_HANDLE)
                    (recordedCmds cfg (applyPendingResize s) inp.imageIndex),
                  .queueSubmit
                    { waitSemaphore := s.currentFrame, signalSemaphore := s.currentFrame,
                      commandBuffer := s.commandBuffers.getD inp.imageIndex VK_NULL_HANDLE,
                      fence := s.currentFrame, result := inp.submitResult } ]
                ++ (if inp.submitResult = VK_SUCCESS then
                      [Event.presentImage inp.imageIndex s.currentFrame] else [])
              else [])
    ∧ (∀ e ∈ resizeEvents s, e.slots = [] ∧ e.fenceWait = none)
    ∧ (∀ e ∈ frameCalls cfg inp s, ∀ k ∈ e.slots, k = s.currentFrame)
    ∧ (frameCalls cfg inp s).filterMap Event.fenceWait = [⟨s.currentFrame, true, 2 ^ 64 - 1⟩]
    ∧ (∀ submit, Event.queueSubmit submit ∈ frameCalls cfg inp s →
        submit.fence = s.currentFrame
        ∧ ∃ before after,
            frameCalls cfg inp s
              = before ++ [Event.resetFences s.currentFrame] ++ after
                ++ [Event.queueSubmit submit]
                ++ (if inp.submitResult = VK_SUCCESS then
                      [Event.presentImage inp.imageIndex s.currentFrame] else [])
            ∧ (∀ e ∈ before ++ after, e.isSubmit = false)) := by
  have hnone : ∀ e ∈ resizeEvents s, e.fenceWait = none :=
    fun e he => fenceWait_of_resourceCall e (resizeEvents_isResourceCall s e he)
  have hfm : (resizeEvents s).filterMap Event.fenceWait = [] :=
    filterMap_resizeEvents _ fenceWait_of_resourceCall s
  have hsub : ∀ e ∈ resizeEvents s, e.isSubmit = false := by
    intro e he
    have h := resizeEvents_isResourceCall s e he
    cases e <;> first | rfl | cases h
  refine ⟨?_, fun e he => ⟨slots_resizeEvents s e he, hnone e he⟩, slots_frameCalls cfg inp s,
    ?_, ?_⟩
  · rw [frameCalls_eq]
    rfl
  · rw [frameCalls_eq]
    simp only [frameHead, frameBody, List.filterMap_append, hfm]
    split
    · split <;> rfl
    · rfl
  · intro submit hmem
    rw [frameCalls_eq] at hmem ⊢
    by_cases hr : indexInRange inp.imageIndex (applyPendingResize s)
    · simp only [if_pos hr] at hmem ⊢
      have hsubmit : submit = frameSubmit inp s := by
        rcases List.mem_append.mp hmem with h | h
        · simp only [frameHead, List.mem_append, List.mem_cons, List.mem_singleton,
            List.not_mem_nil, or_false] at h
          rcases h with (h | h) | h | h | h
          · cases h
          · exact absurd (hsub _ h) (by simp [Event.isSubmit])
          · cases h
          · cases h
          · cases h
        · rcases List.mem_append.mp h with h | h
          · simp only [frameBody, List.mem_cons, List.mem_singleton, List.not_mem_nil,
              or_false] at h
            rcases h with h | h | h
            · cases h
            · cases h
            · injection h
          · split at h
            · rcases List.mem_singleton.mp h with h
              cases h
            · cases h
      subst hsubmit
      refine ⟨rfl, [Event.waitForFences s.currentFrame true UINT64_MAX] ++ resizeEvents s
          ++ [Event.acquireNextImage s.currentFrame inp.imageIndex],
        [ Event.uploadUniforms s.uniformBuffer (buildUniforms cfg (applyPendingResize s)),
          .resetCommandBuffer (frameCommandBuffer inp s),
          .recordCommandBuffer (frameCommandBuffer inp s)
            (recordedCmds cfg (applyPendingResize s) inp.imageIndex) ], ?_, ?_⟩
      · simp only [frameHead, frameBody, List.append_assoc, List.cons_append, List.nil_append]
      · intro e he
        simp only [List.mem_append, List.mem_cons, List.mem_singleton, List.not_mem_nil,
          or_false] at he
        rcases he with ((rfl | he) | rfl) | rfl | rfl | rfl
        · rfl
        · exact hsub e he
        · rfl
        · rfl
        · rfl
        · rfl
    · simp only [if_neg hr, List.append_nil] at hmem
      simp only [frameHead, List.mem_append, List.mem_cons, List.mem_singleton,
        List.not_mem_nil, or_false] at hmem
      rcases hmem with (h | h) | h | h | h
      · cases h
      · exact absurd (hsub _ h) (by simp [Event.isSubmit])
      · cases h
      · cases h
      · cases h


/-! ## The pointer position -/

/-- A property that every poll and every frame keeps holds after the loop. -/
theorem frames_invariant (P : State → Prop) (cfg : Config)
    (hpoll : ∀ s, P s → P (s.log .pollEvents))
    (hframe : ∀ (inp : FrameInput) (s : State), P s → P (drawFrame cfg inp s).state)
    (inputs : List FrameInput) (s : State) (h : P s) : P (frames cfg inputs s).state := by
  induction inputs generalizing s with
  | nil => exact h
  | cons inp rest ih =>
    by_cases hok : (drawFrame cfg inp (s.log .pollEvents)).outcome = .ok
    · rw [frames_cons_ok cfg inp rest s hok]
      exact ih _ (hframe inp _ (hpoll s h))
    · rw [frames_cons_not_ok cfg inp rest s hok]
      exact hframe inp _ (hpoll s h)

/-- A property of the state after `initVulkan` that every poll, every frame
and the final `vkDeviceWaitIdle` keep holds when `run` ends. -/
theorem run_invariant (P : State → Prop) (cfg : Config) (hg : cfg.glfwInitOk = true)
    (hinit : P (initState cfg))
    (hlog : ∀ s, P s → P (s.log .pollEvents) ∧ P (s.log .deviceWaitIdle))
    (hframe : ∀ (inp : FrameInput) (s : State), P s → P (drawFrame cfg inp s).state)
    (inputs : List FrameInput) : P (run cfg inputs {}).state := by
  have h := frames_invariant P cfg (fun s hs => (hlog s hs).1) hframe inputs _ hinit
  simp only [run, initVulkan_eq cfg hg, mainLoop]
  split
  · exact (hlog _ h).2
  · exact h

theorem ImageSized.sizedOfResources {cfg : Config} {s t : State} (h : ImageSized cfg s)
    (hres : s.resources = t.resources) : ImageSized cfg t := by
  rw [State.eq_of_resources hres]
  exact h

theorem ImageSized.sizedRecreated {cfg : Config} {s : State} (h : ImageSized cfg s) (n : Nat) :
    ImageSized cfg (recreateRSMResources n s) := by
  rw [recreateRSMResources_eq]
  refine ⟨h.1, h.2.1, ?_, h.2.2.2⟩
  simp only [List.length_map, List.length_range]
  exact h.1

theorem ImageSized.sizedResized {cfg : Config} {s : State} (h : ImageSized cfg s) :
    ImageSized cfg (applyPendingResize s) := by
  cases hp : s.rsmRecreatePending
  · rw [applyPendingResize_of_not_pending _ hp]
    exact h
  · rw [applyPendingResize_of_pending _ hp]
    exact h.sizedRecreated _

theorem ImageSized.sizedAfterFrame {cfg : Config} {s : State} (h : ImageSized cfg s)
    (inp : FrameInput) : ImageSized cfg (drawFrame cfg inp s).state :=
  h.sizedResized.sizedOfResources (drawFrame_resources cfg inp s).symm

theorem ImageSized.sizedAtInit (cfg : Config)
    (hviews : cfg.swapchainImageViewCount = cfg.swapchainImageCount) :
    ImageSized cfg (initState cfg) := by
  simp only [ImageSized, initState, List.length_map, List.length_range, hviews, and_self]

theorem ImageSized.inRange {cfg : Config} {s : State} (h : ImageSized cfg s) (i : Nat)
    (hi : i < cfg.swapchainImageCount) : indexInRange i (applyPendingResize s) := by
  obtain ⟨_, h2, h3, h4⟩ := h.sizedResized
  unfold indexInRange
  rw [h2, h3, h4]
  exact ⟨hi, hi, hi⟩

theorem drawFrame_outcome_of_inRange (cfg : Config) (inp : FrameInput) (s : State)
    (hr : indexInRange inp.imageIndex (applyPendingResize s)) :
    (drawFrame cfg inp s).outcome ≠ .outOfRange := by
  by_cases hs : inp.submitResult = VK_SUCCESS
  · rw [drawFrame_of_success cfg inp s hr hs]
    intro h
    cases h
  · rw [drawFrame_of_submit_failure cfg inp s hr hs]
    intro h
    cases h

theorem frames_in_range (cfg : Config) (inputs : List FrameInput)
    (hidx : ∀ inp ∈ inputs, inp.imageIndex < cfg.swapchainImageCount) (s : State)
    (h : ImageSized cfg s) : (frames cfg inputs s).outcome ≠ .outOfRange := by
  induction inputs generalizing s with
  | nil =>
    intro h
    cases h
  | cons inp rest ih =>
    have hlog : ImageSized cfg (s.log .pollEvents) := h
    have hr := hlog.inRange inp.imageIndex (hidx inp (List.mem_cons_self _ _))
    by_cases hok : (drawFrame cfg inp (s.log .pollEvents)).outcome = .ok
    · rw [frames_cons_ok cfg inp rest s hok]
      exact ih (fun x hx => hidx x (List.mem_cons_of_mem _ hx)) _ (hlog.sizedAfterFrame inp)
    · rw [frames_cons_not_ok cfg inp rest s hok]
      exact drawFrame_outcome_of_inRange cfg inp _ hr

theorem drawFrame_currentFrame_lt (cfg : Config) (hN : 0 < cfg.frameNum) (inp : FrameInput)
    (s : State) (hs : s.currentFrame < cfg.frameNum) :
    (drawFrame cfg inp s).state.currentFrame < cfg.frameNum := by
  rw [drawFrame_eq]
  split
  · split
    · show (controlPanel cfg inp.ui (applyPendingResize s)).currentFrame < _
      rw [controlPanel_currentFrame, applyPendingResize_currentFrame]
      exact hs
    · exact Nat.mod_lt _ hN
  · show (applyPendingResize s).currentFrame < _
    rw [applyPendingResize_currentFrame]
    exact hs

theorem SlotsBounded.slotsLogged {cfg : Config} {s : State} (h : SlotsBounded cfg s) (e : Event)
    (he : ∀ k ∈ e.slots, k < cfg.frameNum) : SlotsBounded cfg (s.log e) := by
  refine ⟨h.1, ?_⟩
  intro x hx k hk
  rcases List.mem_append.mp hx with hx | hx
  · exact h.2 x hx k hk
  · rcases List.mem_singleton.mp hx with rfl
    exact he k hk

theorem SlotsBounded.slotsAfterFrame {cfg : Config} {s : State} (h : SlotsBounded cfg s)
    (hN : 0 < cfg.frameNum) (inp : FrameInput) :
    SlotsBounded cfg (drawFrame cfg inp s).state := by
  refine ⟨drawFrame_currentFrame_lt cfg hN inp s h.1, ?_⟩
  rw [drawFrame_trace]
  intro e he k hk
  rcases List.mem_append.mp he with he | he
  · exact h.2 e he k hk
  · rw [slots_frameCalls cfg inp s e he k hk]
    exact h.1

theorem initEvents_isResourceCall (cfg : Config) :
    ∀ e ∈ initEvents cfg, e.isResourceCall = true := by
  intro e he
  simp only [initEvents, List.mem_append, List.mem_cons, List.mem_singleton, List.mem_map,
    List.mem_range, List.not_mem_nil, or_false] at he
  rcases he with (((he | he) | he) | he) | he
  · rcases he with rfl | rfl <;> rfl
  · obtain ⟨i, _, rfl⟩ := he
    rfl
  · rcases he with rfl | rfl | rfl | rfl | rfl | rfl | rfl | rfl | rfl | rfl | rfl <;> rfl
  · obtain ⟨i, _, rfl⟩ := he
    rfl
  · rcases he with rfl | rfl | rfl | rfl | rfl | rfl | rfl <;> rfl

theorem SlotsBounded.slotsAtInit (cfg : Config) (hN : 0 < cfg.frameNum) :
    SlotsBounded cfg (initState cfg) := by
  refine ⟨hN, ?_⟩
  intro e he k hk
  rw [slots_of_resourceCall e (initEvents_isResourceCall cfg e he)] at hk
  cases hk

/-- C24: let the engine hand out one image view per swapchain image, and let
the pipeline depth `N` be positive.  After `initVulkan` the arrays
`framebuffers`, `descriptorSets` and `commandBuffers` have one entry per
swapchain image, `recreateRSMResources` keeps this for every size, and it
holds in the state in which `run` ends.  Every fence and semaphore of the
trace was fetched with a slot index below `N`, and `currentFrame` is below
`N`.  Hence, when every acquired image index is below the image count, every
frame finds its index in range for the three arrays, and the program never
reads an array out of range.  Nothing is assumed about the image count and
`N` relative to each other. -/
theorem image_arrays_in_bounds (cfg : Config)
    (hviews : cfg.swapchainImageViewCount = cfg.swapchainImageCount)
    (hg : cfg.glfwInitOk = true) (hN : 0 < cfg.frameNum) (inputs : List FrameInput)
    (hidx : ∀ inp ∈ inputs, inp.imageIndex < cfg.swapchainImageCount) :
    ImageSized cfg (initVulkan cfg {}).state
    ∧ (∀ (s : State) (newSize : Nat), ImageSized cfg s →
        ImageSized cfg (recreateRSMResources newSize s))
    ∧ ImageSized cfg (run cfg inputs {}).state
    ∧ (∀ (s : State) (i : Nat), ImageSized cfg s → i < cfg.swapchainImageCount →
        indexInRange i (applyPendingResize s)
        ∧ ∀ inp : FrameInput, inp.imageIndex = i →
            (drawFrame cfg inp s).outcome ≠ .outOfRange)
    ∧ (run cfg inputs {}).outcome ≠ .outOfRange
    ∧ (run cfg inputs {}).state.currentFrame < cfg.frameNum
    ∧ (∀ e ∈ (run cfg inputs {}).state.trace, ∀ k ∈ e.slots, k < cfg.frameNum) := by
  have hinit := initVulkan_eq cfg hg
  have hsized : ImageSized cfg (run cfg inputs {}).state :=
    run_invariant (ImageSized cfg) cfg hg (ImageSized.sizedAtInit cfg hviews)
      (fun s hs => ⟨hs, hs⟩) (fun inp s hs => hs.sizedAfterFrame inp) inputs
  have hslots : SlotsBounded cfg (run cfg inputs {}).state :=
    run_invariant (SlotsBounded cfg) cfg hg (SlotsBounded.slotsAtInit cfg hN)
      (fun s hs => ⟨hs.slotsLogged _ (fun k hk => by cases hk),
        hs.slotsLogged _ (fun k hk => by cases hk)⟩)
      (fun inp s hs => hs.slotsAfterFrame hN inp) inputs
  refine ⟨?_, fun s n hs => hs.sizedRecreated n, hsized, ?_, ?_, hslots.1, hslots.2⟩
  · rw [hinit]
    exact ImageSized.sizedAtInit cfg hviews
  · intro s i hs hi
    refine ⟨hs.inRange i hi, ?_⟩
    rintro inp rfl
    exact drawFrame_outcome_of_inRange cfg inp s (hs.inRange _ hi)
  · have hloop := frames_in_range cfg inputs hidx _ (ImageSized.sizedAtInit cfg hviews)
    simp only [run, hinit, mainLoop]
    split
    · intro h
      cases h
    · exact hloop

/-- C24 evaluated for the desktop configuration, which has two swapchain
images and a pipeline depth of three, and three frames. -/
theorem image_arrays_in_bounds_witness :
    desktop.swapchainImageViewCount = desktop.swapchainImageCount
      ∧ desktop.glfwInitOk = true ∧ 0 < desktop.frameNum
      ∧ (run desktop [{ imageIndex := 0 }, { imageIndex := 1 }, { imageIndex := 1 }] {}).outcome
          ≠ .outOfRange
      ∧ (run desktop [{ imageIndex := 0 }, { imageIndex := 1 }, { imageIndex := 1 }]
          {}).state.currentFrame < desktop.frameNum :=
  have h := image_arrays_in_bounds desktop rfl rfl (by decide)
    [{ imageIndex := 0 }, { imageIndex := 1 }, { imageIndex := 1 }]
    (by
      intro inp hinp
      simp only [List.mem_cons, List.mem_singleton, List.not_mem_nil, or_false] at hinp
      rcases hinp with rfl | rfl | rfl <;> decide)
  ⟨rfl, rfl, by decide, h.2.2.2.2.1, h.2.2.2.2.2.1⟩

/-! ## The layout of the uniform block -/

/-- C25: with `float` and `int` of 4 bytes, the members of
`SDFCornellUniforms`, each put at the next multiple of its `alignas` value,
are at the byte offsets `iTime` 0, `iResolution` 8, `iMouse` 16, `iFrame` 24,
`sphereRotation` 32, then one every 16 bytes (`lightColors`, of 48 bytes, at
96 and `ambientColor` at 144) up to `baseColorFactors` at 352; every member
from `sphereRotation` on is at a multiple of 16; the size of the struct is
368.  A block that starts with `float`, `vec2`, `vec2`, `int` at their base
alignments 4, 8, 8, 4 and goes on with members aligned to 16 bytes has the
same offsets and the same size. -/
theorem uniform_block_layout :
    layoutFrom 0 uniformMembers =
      [ ("iTime", 0), ("iResolution", 8), ("iMouse", 16), ("iFrame", 24),
        ("sphereRotation", 32), ("sphereColor", 48), ("enableLights", 64), ("lightDir", 80),
        ("lightColors", 96), ("ambientColor", 144), ("shadowParams", 160),
        ("lightRight", 176), ("lightUp", 192), ("lightOrigin", 208),
        ("lightOrthoHalfSize", 224), ("rsmResolution", 240), ("rsmParams", 256),
        ("indirectParams", 272), ("debugParams", 288), ("pbrParams", 304),
        ("roughnessValues", 320), ("metallicValues", 336), ("baseColorFactors", 352) ]
    ∧ (∀ p ∈ (layoutFrom 0 uniformMembers).drop 4, p.2 % 16 = 0)
    ∧ structSize uniformMembers = 368
    ∧ layoutFrom 0 blockMembers = layoutFrom 0 uniformMembers
    ∧ structSize blockMembers = 368 := by
  refine ⟨by decide, by decide, by decide, by decide, by decide⟩

/-! ## The shadow flag and the offscreen pass -/

theorem begun_uiCmds (cfg : Config) : (uiCmds cfg).filterMap Cmd.begun = [] := by
  unfold uiCmds
  split <;> rfl

theorem transition_uiCmds (cfg : Config) : (uiCmds cfg).filterMap Cmd.transition = [] := by
  unfold uiCmds
  split <;> rfl

/-- The render pass instances that a recording begins. -/
theorem begun_recordedCmds (cfg : Config) (s : State) (i : Nat) :
    (recordedCmds cfg s i).filterMap Cmd.begun =
      (if s.enableRSM then [(s.rsmRenderPass, s.rsmFramebuffer)] else [])
        ++ [(s.renderPass, s.framebuffers.getD i Framebuffer.null)] := by
  simp only [recordedCmds, List.filterMap_append, begun_uiCmds, offscreenCmds, mainPassCmds]
  split <;> rfl

/-- The layout transitions of a recording. -/
theorem transition_recordedCmds (cfg : Config) (s : State) (i : Nat) :
    (recordedCmds cfg s i).filterMap Cmd.transition =
      if s.enableRSM then []
      else [ (s.rsmPositionImage, Layout.undefined, Layout.shaderReadOnlyOptimal),
             (s.rsmNormalImage, Layout.undefined, Layout.shaderReadOnlyOptimal),
             (s.rsmFluxImage, Layout.undefined, Layout.shaderReadOnlyOptimal) ] := by
  simp only [recordedCmds, List.filterMap_append, transition_uiCmds, offscreenCmds, mainPassCmds]
  split <;> rfl

theorem frameCalls_ui (cfg : Config) (inp : FrameInput) (ui : UiInput) (s : State) :
    frameCalls cfg { inp with ui := ui } s = frameCalls cfg inp s := by
  rw [frameCalls_eq, frameCalls_eq]
  rfl

theorem drawFrame_enableRSM (cfg : Config) (inp : FrameInput) (s : State)
    (hok : (drawFrame cfg inp s).outcome = .ok) :
    (drawFrame cfg inp s).state.enableRSM
      = if cfg.hasImGui then inp.ui.enableRSM.getD s.enableRSM else s.enableRSM := by
  obtain ⟨hr, hs⟩ := drawFrame_outcome_ok cfg inp s hok
  rw [drawFrame_of_success cfg inp s hr hs]
  show (controlPanel cfg inp.ui (applyPendingResize s)).enableRSM = _
  cases h : cfg.hasImGui
  · simp only [controlPanel, h, Bool.false_eq_true, if_false, applyPendingResize_enableRSM]
  · simp only [controlPanel, h, if_true, uiControls_eq, applyPendingResize_enableRSM]

/-- The flag and the recording of one frame, from the value of `enableRSM`
with which the frame starts. -/
theorem flag_and_passes (cfg : Config) (inp : FrameInput) (s : State) (b : Handle)
    (u : SDFCornellUniforms) (cb : Handle) (cmds : List Cmd)
    (hu : Event.uploadUniforms b u ∈ frameCalls cfg inp s)
    (hc : Event.recordCommandBuffer cb cmds ∈ frameCalls cfg inp s) :
    u.rsmParams[3]? = some (if s.enableRSM then 1 else 0)
    ∧ cmds.filterMap Cmd.begun =
        (if s.enableRSM then
          [((applyPendingResize s).rsmRenderPass, (applyPendingResize s).rsmFramebuffer)]
         else [])
        ++ [((applyPendingResize s).renderPass,
              (applyPendingResize s).framebuffers.getD inp.imageIndex Framebuffer.null)]
    ∧ cmds.filterMap Cmd.transition =
        if s.enableRSM then []
        else [ ((applyPendingResize s).rsmPositionImage, Layout.undefined,
                 Layout.shaderReadOnlyOptimal),
               ((applyPendingResize s).rsmNormalImage, Layout.undefined,
                 Layout.shaderReadOnlyOptimal),
               ((applyPendingResize s).rsmFluxImage, Layout.undefined,
                 Layout.shaderReadOnlyOptimal) ] := by
  obtain ⟨-, rfl⟩ := (upload_mem_frameCalls cfg inp s b u).mp hu
  obtain ⟨-, -, rfl⟩ := (record_mem_frameCalls cfg inp s cb cmds).mp hc
  refine ⟨?_, ?_, ?_⟩
  · simp only [buildUniforms, applyPendingResize_enableRSM]
    rfl
  · rw [begun_recordedCmds, applyPendingResize_enableRSM]
  · rw [transition_recordedCmds, applyPendingResize_enableRSM]

/-- C26: in every frame the uniform block is uploaded, and for the block `u`
that is uploaded and the command buffer that is recorded in the same frame:
`rsmParams[3]` is 1 or 0; it is 1 exactly when the recording begins two render
pass instances, first the RSM render pass on the RSM framebuffer and then the
main pass, and then it holds no layout transition; it is 0 exactly when the
recording holds the three transitions of the position, normal and flux images
from undefined to shader-read-only-optimal layout, and then it begins the main
pass only.  What the user does in the control panel during the frame changes
no call of that frame.  After a frame that ran the control panel with the
"Enable RSM" checkbox set to `v`, the next frame uploads the flag of `v` and
records the passes of `v`. -/
theorem shadow_flag_matches_pass (cfg : Config) (inp next : FrameInput) (s : State) :
    (∃ b u, Event.uploadUniforms b u ∈ frameCalls cfg inp s)
    ∧ (∀ b u cb cmds, Event.uploadUniforms b u ∈ frameCalls cfg inp s →
        Event.recordCommandBuffer cb cmds ∈ frameCalls cfg inp s →
        (u.rsmParams[3]? = some 1 ∨ u.rsmParams[3]? = some 0)
        ∧ (u.rsmParams[3]? = some 1 ↔
            cmds.filterMap Cmd.begun =
              [ ((applyPendingResize s).rsmRenderPass, (applyPendingResize s).rsmFramebuffer),
                ((applyPendingResize s).renderPass,
                  (applyPendingResize s).framebuffers.getD inp.imageIndex Framebuffer.null) ])
        ∧ (u.rsmParams[3]? = some 1 ↔ cmds.filterMap Cmd.transition = [])
        ∧ (u.rsmParams[3]? = some 0 ↔
            cmds.filterMap Cmd.transition =
              [ ((applyPendingResize s).rsmPositionImage, Layout.undefined,
                  Layout.shaderReadOnlyOptimal),
                ((applyPendingResize s).rsmNormalImage, Layout.undefined,
                  Layout.shaderReadOnlyOptimal),
                ((applyPendingResize s).rsmFluxImage, Layout.undefined,
                  Layout.shaderReadOnlyOptimal) ])
        ∧ (u.rsmParams[3]? = some 0 ↔
            cmds.filterMap Cmd.begun =
              [ ((applyPendingResize s).renderPass,
                  (applyPendingResize s).framebuffers.getD inp.imageIndex Framebuffer.null) ]))
    ∧ (∀ ui : UiInput, frameCalls cfg { inp with ui := ui } s = frameCalls cfg inp s)
    ∧ (∀ v : Bool, cfg.hasImGui = true → (drawFrame cfg inp s).outcome = .ok →
        inp.ui.enableRSM = some v →
        (drawFrame cfg inp s).state.enableRSM = v
        ∧ ∀ b u cb cmds,
            Event.uploadUniforms b u
                ∈ frameCalls cfg next ((drawFrame cfg inp s).state.log .pollEvents) →
            Event.recordCommandBuffer cb cmds
                ∈ frameCalls cfg next ((drawFrame cfg inp s).state.log .pollEvents) →
            u.rsmParams[3]? = some (if v then 1 else 0)
            ∧ (cmds.filterMap Cmd.begun).length = (if v then 2 else 1)
            ∧ (cmds.filterMap Cmd.transition).length = (if v then 0 else 3)) := by
  refine ⟨⟨_, _, (upload_mem_frameCalls cfg inp s _ _).mpr ⟨rfl, rfl⟩⟩, ?_,
    fun ui => frameCalls_ui cfg inp ui s, ?_⟩
  · intro b u cb cmds hu hc
    obtain ⟨hflag, hbegun, htrans⟩ := flag_and_passes cfg inp s b u cb cmds hu hc
    rw [hflag, hbegun, htrans]
    cases s.enableRSM <;> simp
  · intro v hui hok hv
    have hen : (drawFrame cfg inp s).state.enableRSM = v := by
      rw [drawFrame_enableRSM cfg inp s hok, hui, hv]
      rfl
    refine ⟨hen, ?_⟩
    intro b u cb cmds hu hc
    obtain ⟨hflag, hbegun, htrans⟩ := flag_and_passes cfg next _ b u cb cmds hu hc
    have hen2 : ((drawFrame cfg inp s).state.log .pollEvents).enableRSM = v := hen
    rw [hflag, hbegun, htrans, hen2]
    cases v <;> simp

/-! ## The size of the offscreen targets -/

theorem rsmSizeOfIndex_mem (i : Int) : rsmSizeOfIndex i ∈ [512, 1024, 2048, 4096] := by
  unfold rsmSizeOfIndex
  split_ifs <;> simp

theorem rsmSizeOfIndex_pow (i : Int) (h0 : 0 ≤ i) (h3 : i ≤ 3) :
    rsmSizeOfIndex i = 512 * 2 ^ i.toNat := by
  have h : i = 0 ∨ i = 1 ∨ i = 2 ∨ i = 3 := by omega
  rcases h with rfl | rfl | rfl | rfl <;> rfl

theorem SizeOK.sizeResized {s : State} (h : SizeOK s) : SizeOK (applyPendingResize s) := by
  cases hp : s.rsmRecreatePending
  · rw [applyPendingResize_of_not_pending _ hp]
    exact h
  · obtain ⟨hw, hh⟩ := applyPendingResize_size s hp
    have hsize := h.2.2.1 hp
    refine ⟨by rw [hw, hh], ?_, ?_, ?_⟩
    · rw [hw, hsize]
      exact rsmSizeOfIndex_mem _
    · intro h'
      rw [applyPendingResize_pending] at h'
      cases h'
    · intro _
      rw [hw, applyPendingResize_index, hsize]

theorem SizeOK.combo {s : State} (h : SizeOK s) (selection : Option Int) :
    SizeOK (rsmResolutionCombo selection s) := by
  unfold rsmResolutionCombo
  cases selection with
  | none => exact h
  | some i =>
    by_cases hi : i = s.rsmResolutionIndex
    · subst hi
      simp only [ne_eq, not_true_eq_false, if_false]
      exact h
    · simp only [ne_eq, hi, not_false_eq_true, if_true]
      exact ⟨h.1, h.2.1, fun _ => rfl, fun h' => Bool.noConfusion h'⟩

theorem SizeOK.panel {s : State} (h : SizeOK s) (cfg : Config) (ui : UiInput) :
    SizeOK (controlPanel cfg ui s) := by
  have hc := h.combo ui.rsmResolution
  rw [rsmResolutionCombo_eq] at hc
  cases hui : cfg.hasImGui
  · simp only [controlPanel, hui, Bool.false_eq_true, if_false]
    exact h
  · simp only [controlPanel, hui, if_true, uiControls_eq]
    exact hc

theorem SizeOK.sizeAfterFrame {s : State} (h : SizeOK s) (cfg : Config) (inp : FrameInput) :
    SizeOK (drawFrame cfg inp s).state := by
  have hp := h.sizeResized.panel cfg inp.ui
  rw [drawFrame_eq]
  split
  · split
    · exact hp
    · exact hp
  · exact h.sizeResized

theorem SizeOK.sizeAfterLoop {s : State} (h : SizeOK s) (cfg : Config) (inputs : List FrameInput) :
    SizeOK (frames cfg inputs s).state :=
  frames_invariant SizeOK cfg (fun _ hs => hs) (fun inp _ hs => hs.sizeAfterFrame cfg inp) inputs s h

theorem SizeOK.afterInit (cfg : Config) : SizeOK (initVulkan cfg {}).state := by
  cases hg : cfg.glfwInitOk
  · simp only [initVulkan, initVulkanPC, hg, if_true]
    decide
  · rw [initVulkan_eq cfg hg]
    simp only [SizeOK, initState]
    decide

theorem SizeOK.afterRun (cfg : Config) (inputs : List FrameInput) :
    SizeOK (run cfg inputs {}).state := by
  have h := (SizeOK.afterInit cfg).sizeAfterLoop cfg inputs
  simp only [run, mainLoop]
  split
  · split
    · exact h
    · exact h
  · exact SizeOK.afterInit cfg

/-- C27: in the state in which `run` ends, after any frames, and in the state
after any number of iterations of the loop, `rsmWidth = rsmHeight` and the
size is 512, 1024, 2048 or 4096.  In the state in which the control panel of
the next frame starts, that is after the poll and the deferred resize, the
same holds, no resize is pending, and the size is the one that the handler of
the combo assigns to the selected index; for an index `i` in 0..3 this is
`512 * 2^i`. -/
theorem rsm_size_matches_selection (cfg : Config) (inputs : List FrameInput) :
    ((run cfg inputs {}).state.rsmWidth = (run cfg inputs {}).state.rsmHeight
      ∧ (run cfg inputs {}).state.rsmWidth ∈ [512, 1024, 2048, 4096])
    ∧ ((frames cfg inputs (initVulkan cfg {}).state).state.rsmWidth
          = (frames cfg inputs (initVulkan cfg {}).state).state.rsmHeight
      ∧ (frames cfg inputs (initVulkan cfg {}).state).state.rsmWidth ∈ [512, 1024, 2048, 4096])
    ∧ (applyPendingResize (frameStart cfg inputs)).rsmWidth
        = (applyPendingResize (frameStart cfg inputs)).rsmHeight
    ∧ (applyPendingResize (frameStart cfg inputs)).rsmWidth ∈ [512, 1024, 2048, 4096]
    ∧ (applyPendingResize (frameStart cfg inputs)).rsmRecreatePending = false
    ∧ (applyPendingResize (frameStart cfg inputs)).rsmWidth
        = rsmSizeOfIndex (applyPendingResize (frameStart cfg inputs)).rsmResolutionIndex
    ∧ (∀ i : Int, 0 ≤ i → i ≤ 3 →
        (applyPendingResize (frameStart cfg inputs)).rsmResolutionIndex = i →
        (applyPendingResize (frameStart cfg inputs)).rsmWidth = 512 * 2 ^ i.toNat) := by
  have hrun := SizeOK.afterRun cfg inputs
  have hloop := (SizeOK.afterInit cfg).sizeAfterLoop cfg inputs
  have hlog : SizeOK (frameStart cfg inputs) := hloop
  have hui := hlog.sizeResized
  have hpend := applyPendingResize_pending (frameStart cfg inputs)
  refine ⟨⟨hrun.1, hrun.2.1⟩, ⟨hloop.1, hloop.2.1⟩, hui.1, hui.2.1, hpend, hui.2.2.2 hpend, ?_⟩
  intro i h0 h3 hi
  rw [hui.2.2.2 hpend, hi]
  exact rsmSizeOfIndex_pow i h0 h3

/-! ## The size with which the offscreen targets were created -/

theorem filterMap_none {α β : Type} (f : α → Option β) (l : List α)
    (h : ∀ a ∈ l, f a = none) : l.filterMap f = [] := by
  induction l with
  | nil => rfl
  | cons a rest ih =>
    rw [List.filterMap_cons, h a (List.mem_cons_self _ _)]
    exact ih (fun x hx => h x (List.mem_cons_of_mem _ hx))

theorem createdWith_of_not_resource (h : Handle) (e : Event) (he : e.isResourceCall = false) :
    e.createdWith h = none := by
  cases e <;> first | rfl | cases he

theorem createdWith_frameCalls (cfg : Config) (inp : FrameInput) (s : State) (h : Handle) :
    (frameCalls cfg inp s).filterMap (Event.createdWith h)
      = (resizeEvents s).filterMap (Event.createdWith h) := by
  rw [frameCalls_eq]
  have hbody : (frameBody cfg inp s).filterMap (Event.createdWith h) = [] :=
    filterMap_none _ _ (fun e he =>
      createdWith_of_not_resource h e (frameBody_not_resource cfg inp s e he))
  simp only [frameHead, List.filterMap_append]
  split
  · rw [List.filterMap_append, hbody]
    split <;> simp [Event.createdWith]
  · simp [Event.createdWith]

theorem createdSize_drawFrame (cfg : Config) (inp : FrameInput) (s : State) (h : Handle) :
    createdSize h (drawFrame cfg inp s).state.trace = createdSize h (applyPendingResize s).trace := by
  unfold createdSize
  rw [drawFrame_trace, applyPendingResize_trace, List.filterMap_append, List.filterMap_append,
    createdWith_frameCalls]

theorem createdWith_descriptorRebuildEvents (s : State) (h : Handle) :
    (descriptorRebuildEvents s).filterMap (Event.createdWith h) = [] := by
  apply filterMap_none
  intro e he
  simp only [descriptorRebuildEvents, List.mem_flatMap, List.mem_range, List.mem_cons,
    List.mem_singleton, List.not_mem_nil, or_false] at he
  obtain ⟨i, _, rfl | rfl⟩ := he <;> rfl

theorem createdWith_teardownEvents (s : State) (h : Handle) :
    (teardownEvents s).filterMap (Event.createdWith h) = [] := by
  apply filterMap_none
  intro e he
  simp only [teardownEvents, List.mem_cons, List.mem_singleton, List.not_mem_nil,
    or_false] at he
  rcases he with rfl | rfl | rfl | rfl <;> rfl

/-- After `recreateRSMResources newSize` the object created with handle
`nextHandle + k`, for `k` 0, 3, 6 (the images) or 9 (the framebuffer), has the
new size. -/
theorem createdSize_recreate (newSize : Nat) (s : State) (k : Nat)
    (hk : k = 0 ∨ k = 3 ∨ k = 6 ∨ k = 9) :
    createdSize (s.nextHandle + k) (s.trace ++ recreateEvents newSize s)
      = some (newSize, newSize) := by
  have hidle : (if deviceReady s then [Event.deviceWaitIdle] else []).filterMap
      (Event.createdWith (s.nextHandle + k)) = [] := by
    split <;> rfl
  have hcreate : (creationEvents newSize s).filterMap (Event.createdWith (s.nextHandle + k))
      = [(newSize, newSize)] := by
    simp only [Handle] at *
    rcases hk with rfl | rfl | rfl | rfl <;>
      simp [creationEvents, Event.createdWith, recreatedFramebuffer]
  unfold createdSize recreateEvents
  simp only [List.filterMap_append, hidle, hcreate, createdWith_teardownEvents,
    createdWith_descriptorRebuildEvents, List.append_nil, List.nil_append]
  exact List.getLast?_concat _

theorem TargetsSized.targetsRecreated (newSize : Nat) (s : State) :
    TargetsSized (recreateRSMResources newSize s) := by
  rw [recreateRSMResources_eq]
  exact ⟨rfl, rfl, createdSize_recreate newSize s 9 (by simp),
    createdSize_recreate newSize s 0 (by simp), createdSize_recreate newSize s 3 (by simp),
    createdSize_recreate newSize s 6 (by simp)⟩

theorem TargetsSized.targetsResized {s : State} (h : TargetsSized s) :
    TargetsSized (applyPendingResize s) := by
  cases hp : s.rsmRecreatePending
  · rw [applyPendingResize_of_not_pending _ hp]
    exact h
  · rw [applyPendingResize_of_pending _ hp]
    exact TargetsSized.targetsRecreated _ s

theorem TargetsSized.targetsAfterFrame {s : State} (h : TargetsSized s) (cfg : Config)
    (inp : FrameInput) : TargetsSized (drawFrame cfg inp s).state := by
  have hres := drawFrame_resources cfg inp s
  have h1 : (drawFrame cfg inp s).state.rsmFramebuffer
      = (applyPendingResize s).rsmFramebuffer := by
    have h := congrArg State.rsmFramebuffer hres
    exact h
  have h2 : (drawFrame cfg inp s).state.rsmPositionImage
      = (applyPendingResize s).rsmPositionImage := by
    have h := congrArg State.rsmPositionImage hres
    exact h
  have h3 : (drawFrame cfg inp s).state.rsmNormalImage
      = (applyPendingResize s).rsmNormalImage := by
    have h := congrArg State.rsmNormalImage hres
    exact h
  have h4 : (drawFrame cfg inp s).state.rsmFluxImage
      = (applyPendingResize s).rsmFluxImage := by
    have h := congrArg State.rsmFluxImage hres
    exact h
  have hr := h.targetsResized
  unfold TargetsSized at hr ⊢
  rw [h1, h2, h3, h4, drawFrame_rsmWidth, drawFrame_rsmHeight, createdSize_drawFrame,
    createdSize_drawFrame, createdSize_drawFrame, createdSize_drawFrame]
  exact hr

theorem TargetsSized.targetsLogged {s : State} (h : TargetsSized s) (e : Event)
    (he : e.isResourceCall = false) : TargetsSized (s.log e) := by
  have hc : ∀ x : Handle, createdSize x (s.log e).trace = createdSize x s.trace := by
    intro x
    show ((s.trace ++ [e]).filterMap _).getLast? = _
    rw [List.filterMap_append, filterMap_none _ [e] (fun a ha => by
      rcases List.mem_singleton.mp ha with rfl
      exact createdWith_of_not_resource x a he), List.append_nil]
    rfl
  unfold TargetsSized at h ⊢
  rw [hc, hc, hc, hc]
  exact h

theorem createdSize_initEvents (cfg : Config) (k : Nat) (hk : k = 0 ∨ k = 3 ∨ k = 6 ∨ k = 10) :
    createdSize (initOffscreen cfg + k) (initEvents cfg) = some (1024, 1024) := by
  have hsets : ((List.range cfg.swapchainImageCount).map
      (fun i => Event.buildDescriptorSet (.descriptorSet i) (initSet cfg i))).filterMap
        (Event.createdWith (initOffscreen cfg + k)) = [] := by
    apply filterMap_none
    intro e he
    simp only [List.mem_map, List.mem_range] at he
    obtain ⟨i, _, rfl⟩ := he
    rfl
  unfold createdSize initEvents
  simp only [List.filterMap_append, hsets, List.append_nil]
  simp only [Handle] at *
  rcases hk with rfl | rfl | rfl | rfl <;>
    simp [Event.createdWith, List.getLast?_append, List.getLast?_cons_cons]

theorem TargetsSized.targetsAtInit (cfg : Config) : TargetsSized (initState cfg) :=
  ⟨rfl, rfl, createdSize_initEvents cfg 10 (by simp), createdSize_initEvents cfg 0 (by simp),
    createdSize_initEvents cfg 3 (by simp), createdSize_initEvents cfg 6 (by simp)⟩

theorem extent_uiCmds (cfg : Config) : (uiCmds cfg).filterMap Cmd.extent = [] := by
  unfold uiCmds
  split <;> rfl

/-- The extents that a recording sets: those of the offscreen pass, if it is
recorded, and those of the main pass. -/
theorem extent_recordedCmds (cfg : Config) (s : State) (i : Nat) :
    (recordedCmds cfg s i).filterMap Cmd.extent =
      (if s.enableRSM then
        [(s.rsmWidth, s.rsmHeight), (s.rsmWidth, s.rsmHeight), (s.rsmWidth, s.rsmHeight)]
       else [])
        ++ [cfg.extent, cfg.extent, cfg.extent] := by
  simp only [recordedCmds, List.filterMap_append, extent_uiCmds, offscreenCmds, mainPassCmds]
  split <;> rfl

/-- C28: take the frame that follows `initVulkan` and any iterations of the
loop, and let `W x H` be `rsmWidth x rsmHeight` after the deferred resize of
that frame, which is the pending size if a resize was pending.  The frame
uploads a uniform block, and every block it uploads has
`rsmResolution = (W, H, 0, 0)`.  The command buffer it records sets, for the
offscreen pass if `enableRSM` is set, the render area `W x H`, the viewport
`W x H` and the scissor `W x H`, on the offscreen framebuffer the members
hold, and no other extent but that of the main pass.  That framebuffer and
the three offscreen images the members hold were created with the size
`W x H`, by the last call of the trace that created them, and none of them is
destroyed. -/
theorem rsm_resolution_is_target_size (cfg : Config) (hg : cfg.glfwInitOk = true)
    (inputs : List FrameInput) (inp : FrameInput) :
    (∃ b u, Event.uploadUniforms b u ∈ frameCalls cfg inp (frameStart cfg inputs))
    ∧ (∀ b u, Event.uploadUniforms b u ∈ frameCalls cfg inp (frameStart cfg inputs) →
        u.rsmResolution
          = [ (applyPendingResize (frameStart cfg inputs)).rsmWidth,
              (applyPendingResize (frameStart cfg inputs)).rsmHeight, 0, 0 ])
    ∧ (∀ cb cmds, Event.recordCommandBuffer cb cmds ∈ frameCalls cfg inp (frameStart cfg inputs) →
        cmds = [Cmd.beginCommandBuffer]
            ++ offscreenCmds (applyPendingResize (frameStart cfg inputs)) inp.imageIndex
            ++ mainPassCmds cfg (applyPendingResize (frameStart cfg inputs)) inp.imageIndex
            ++ uiCmds cfg ++ [.endRenderPass, .endCommandBuffer]
        ∧ ((applyPendingResize (frameStart cfg inputs)).enableRSM = true →
            (offscreenCmds (applyPendingResize (frameStart cfg inputs)) inp.imageIndex).take 4
              = [ .beginRenderPass (applyPendingResize (frameStart cfg inputs)).rsmRenderPass
                    (applyPendingResize (frameStart cfg inputs)).rsmFramebuffer
                    ((applyPendingResize (frameStart cfg inputs)).rsmWidth,
                      (applyPendingResize (frameStart cfg inputs)).rsmHeight)
                    [[0, 0, 0, 0], [0, 0, 0, 0], [0, 0, 0, 0]],
                  .bindPipeline (applyPendingResize (frameStart cfg inputs)).rsmPipeline,
                  .setViewport (applyPendingResize (frameStart cfg inputs)).rsmWidth
                    (applyPendingResize (frameStart cfg inputs)).rsmHeight,
                  .setScissor ((applyPendingResize (frameStart cfg inputs)).rsmWidth,
                    (applyPendingResize (frameStart cfg inputs)).rsmHeight) ])
        ∧ cmds.filterMap Cmd.extent
            = (if (applyPendingResize (frameStart cfg inputs)).enableRSM then
                List.replicate 3 ((applyPendingResize (frameStart cfg inputs)).rsmWidth,
                  (applyPendingResize (frameStart cfg inputs)).rsmHeight)
               else [])
              ++ List.replicate 3 cfg.extent)
    ∧ ((frameStart cfg inputs).rsmRecreatePending = true →
        (applyPendingResize (frameStart cfg inputs)).rsmWidth
            = (frameStart cfg inputs).rsmPendingSize
        ∧ (applyPendingResize (frameStart cfg inputs)).rsmHeight
            = (frameStart cfg inputs).rsmPendingSize)
    ∧ (applyPendingResize (frameStart cfg inputs)).rsmFramebuffer.width
        = (applyPendingResize (frameStart cfg inputs)).rsmWidth
    ∧ (applyPendingResize (frameStart cfg inputs)).rsmFramebuffer.height
        = (applyPendingResize (frameStart cfg inputs)).rsmHeight
    ∧ (∀ h ∈ [ (applyPendingResize (frameStart cfg inputs)).rsmFramebuffer.handle,
               (applyPendingResize (frameStart cfg inputs)).rsmPositionImage,
               (applyPendingResize (frameStart cfg inputs)).rsmNormalImage,
               (applyPendingResize (frameStart cfg inputs)).rsmFluxImage ],
        createdSize h (drawFrame cfg inp (frameStart cfg inputs)).state.trace
            = some ((applyPendingResize (frameStart cfg inputs)).rsmWidth,
                (applyPendingResize (frameStart cfg inputs)).rsmHeight)
        ∧ h ∉ (drawFrame cfg inp (frameStart cfg inputs)).state.destroyed) := by
  have hinit := initVulkan_eq cfg hg
  have hstart : frameStart cfg inputs
      = (frames cfg inputs (initState cfg)).state.log .pollEvents := by
    unfold frameStart
    rw [hinit]
  have hinv : Inv (applyPendingResize (frameStart cfg inputs)) := by
    rw [hstart]
    exact (((Inv.init cfg).loop cfg inputs).logged _).resize
  have hts : TargetsSized (applyPendingResize (frameStart cfg inputs)) := by
    rw [hstart]
    exact ((frames_invariant TargetsSized cfg (fun s hs => hs.targetsLogged _ rfl)
      (fun i s hs => hs.targetsAfterFrame cfg i) inputs _ (TargetsSized.targetsAtInit cfg)).targetsLogged
        Event.pollEvents rfl).targetsResized
  obtain ⟨hw, hh, hfb, hpos, hnormal, hflux⟩ := hts
  obtain ⟨lfb, -, lpos, lnormal, lflux⟩ := hinv.offscreen_live
  refine ⟨⟨_, _, (upload_mem_frameCalls cfg inp _ _ _).mpr ⟨rfl, rfl⟩⟩, ?_, ?_,
    fun hp => applyPendingResize_size _ hp, hw, hh, ?_⟩
  · intro b u hu
    obtain ⟨-, rfl⟩ := (upload_mem_frameCalls cfg inp _ b u).mp hu
    rfl
  · intro cb cmds hc
    obtain ⟨-, -, rfl⟩ := (record_mem_frameCalls cfg inp _ cb cmds).mp hc
    refine ⟨rfl, ?_, ?_⟩
    · intro hon
      simp only [offscreenCmds, hon, if_true, List.take]
    · rw [extent_recordedCmds]
      rfl
  · intro h hmem
    rw [createdSize_drawFrame, drawFrame_destroyed]
    simp only [List.mem_cons, List.mem_singleton, List.not_mem_nil, or_false] at hmem
    rcases hmem with rfl | rfl | rfl | rfl
    · exact ⟨hfb, lfb⟩
    · exact ⟨hpos, lpos⟩
    · exact ⟨hnormal, lnormal⟩
    · exact ⟨hflux, lflux⟩

/-- C28 evaluated for the desktop configuration: after a frame in which 2048
was selected, the next frame applies the resize and uploads 2048 x 2048. -/
theorem rsm_resolution_is_target_size_witness :
    desktop.glfwInitOk = true
      ∧ (applyPendingResize
          (frameStart desktop [{ imageIndex := 1, ui := { rsmResolution := some 2 } }])).rsmWidth
        = 2048
      ∧ ∀ b u, Event.uploadUniforms b u ∈ frameCalls desktop { imageIndex := 0 }
            (frameStart desktop [{ imageIndex := 1, ui := { rsmResolution := some 2 } }]) →
          u.rsmResolution = [2048, 2048, 0, 0] :=
  ⟨rfl, rfl,
    (rsm_resolution_is_target_size desktop rfl
      [{ imageIndex := 1, ui := { rsmResolution := some 2 } }] { imageIndex := 0 }).2.1⟩

/-! ## The light-direction widget -/

/-- A point inside the ellipse with half-axis `c` has a first coordinate of absolute value at most `c`. -/
theorem scaled_abs_le (a b c : ℝ) (hc : 0 < c) (h : (a / c) ^ 2 + b ^ 2 ≤ 1) : |a| ≤ c := by
  have h1 : (a / c) ^ 2 ≤ 1 := by nlinarith [sq_nonneg b]
  have h2 : |a / c| ≤ 1 := by
    rw [← abs_one]
    exact sq_le_sq.mp (by simpa using h1)
  rw [abs_div, abs_of_pos hc, div_le_one hc] at h2
  exact h2

theorem dragLight_sum (canvas_pos mouse_pos : ℝ × ℝ) (f : FloatMembers ℝ) :
    ((dragLight ⟨Real.sin, Real.cos, Real.sqrt⟩ canvas_pos mouse_pos f).lightAzimuth
        / (314 / 100)) ^ 2
      + ((dragLight ⟨Real.sin, Real.cos, Real.sqrt⟩ canvas_pos mouse_pos f).lightElevation
        / (157 / 100)) ^ 2 ≤ 1 := by
  unfold dragLight
  simp only
  set r := scaledOffset canvas_pos mouse_pos with hr
  have hnn : 0 ≤ r.1 * r.1 + r.2 * r.2 := by nlinarith [mul_self_nonneg r.1, mul_self_nonneg r.2]
  have hsq : Real.sqrt (r.1 * r.1 + r.2 * r.2) ^ 2 = r.1 * r.1 + r.2 * r.2 := Real.sq_sqrt hnn
  by_cases hd : Real.sqrt (r.1 * r.1 + r.2 * r.2) > 1
  · simp only [if_pos hd]
    have hpos : 0 < Real.sqrt (r.1 * r.1 + r.2 * r.2) := by linarith
    have h : (r.1 / Real.sqrt (r.1 * r.1 + r.2 * r.2) * (314 / 100) / (314 / 100)) ^ 2
        + (r.2 / Real.sqrt (r.1 * r.1 + r.2 * r.2) * (157 / 100) / (157 / 100)) ^ 2 = 1 := by
      field_simp
      nlinarith [hsq]
    exact le_of_eq h
  · simp only [if_neg hd]
    have hle : Real.sqrt (r.1 * r.1 + r.2 * r.2) ≤ 1 := not_lt.mp hd
    have h0 : 0 ≤ Real.sqrt (r.1 * r.1 + r.2 * r.2) := Real.sqrt_nonneg _
    have h : (r.1 * (314 / 100) / (314 / 100)) ^ 2 + (r.2 * (157 / 100) / (157 / 100)) ^ 2
        = r.1 * r.1 + r.2 * r.2 := by
      field_simp
      ring
    rw [h, ← hsq]
    nlinarith

theorem reset_sum :
    ((-(7 / 10) : ℝ) / (314 / 100)) ^ 2 + ((8 / 10 : ℝ) / (157 / 100)) ^ 2 ≤ 1 := by
  norm_num

/-- The widget leaves the angles inside the ellipse if they were inside. -/
theorem lightControl_sum (inp : LightInput ℝ) (f : FloatMembers ℝ)
    (h : (f.lightAzimuth / (314 / 100)) ^ 2 + (f.lightElevation / (157 / 100)) ^ 2 ≤ 1) :
    ((lightControl ⟨Real.sin, Real.cos, Real.sqrt⟩ inp f).lightAzimuth / (314 / 100)) ^ 2
      + ((lightControl ⟨Real.sin, Real.cos, Real.sqrt⟩ inp f).lightElevation / (157 / 100)) ^ 2
      ≤ 1 := by
  unfold lightControl
  cases hreset : inp.reset
  · cases hdrag : inp.drag with
    | none => simpa using h
    | some mouse_pos => simpa using dragLight_sum inp.canvas_pos mouse_pos f
  · simpa using reset_sum

theorem updateUniformFloats_angles {α : Type} [LinearOrderedField α] (m : CMath α) (t : α)
    (f : FloatMembers α) :
    (updateUniformFloats m t f).1.lightAzimuth = f.lightAzimuth
    ∧ (updateUniformFloats m t f).1.lightElevation = f.lightElevation :=
  ⟨rfl, rfl⟩

theorem lightFrames_sum (steps : List (ℝ × LightInput ℝ)) (f : FloatMembers ℝ)
    (h : (f.lightAzimuth / (314 / 100)) ^ 2 + (f.lightElevation / (157 / 100)) ^ 2 ≤ 1) :
    ((lightFrames ⟨Real.sin, Real.cos, Real.sqrt⟩ steps f).lightAzimuth / (314 / 100)) ^ 2
      + ((lightFrames ⟨Real.sin, Real.cos, Real.sqrt⟩ steps f).lightElevation / (157 / 100)) ^ 2
      ≤ 1 := by
  induction steps generalizing f with
  | nil => exact h
  | cons p rest ih =>
    exact ih _ (lightControl_sum p.2 _ h)

/-- C29: over the real numbers, start with `lightElevation = 0.8` and
`lightAzimuth = -0.7`, the values of the header, and run any number of frames,
each with its call of `updateUniformBuffer` and then the widget, in which the
user drags to any mouse position, presses "Reset Light", does both or does
nothing.  Then `(lightAzimuth / 3.14)^2 + (lightElevation / 1.57)^2 <= 1`,
hence `|lightElevation| <= 1.57 < pi / 2` and `|lightAzimuth| <= 3.14 < pi`.
A single drag establishes the bound whatever the angles were before. -/
theorem light_angles_stay_in_range (steps : List (ℝ × LightInput ℝ)) (f : FloatMembers ℝ)
    (canvas_pos mouse_pos : ℝ × ℝ) :
    ((lightFrames ⟨Real.sin, Real.cos, Real.sqrt⟩ steps
          { f with lightElevation := 8 / 10, lightAzimuth := -(7 / 10) }).lightAzimuth
        / (314 / 100)) ^ 2
      + ((lightFrames ⟨Real.sin, Real.cos, Real.sqrt⟩ steps
          { f with lightElevation := 8 / 10, lightAzimuth := -(7 / 10) }).lightElevation
        / (157 / 100)) ^ 2 ≤ 1
    ∧ |(lightFrames ⟨Real.sin, Real.cos, Real.sqrt⟩ steps
          { f with lightElevation := 8 / 10, lightAzimuth := -(7 / 10) }).lightElevation|
        ≤ 157 / 100
    ∧ (157 / 100 : ℝ) < Real.pi / 2
    ∧ |(lightFrames ⟨Real.sin, Real.cos, Real.sqrt⟩ steps
          { f with lightElevation := 8 / 10, lightAzimuth := -(7 / 10) }).lightAzimuth|
        ≤ 314 / 100
    ∧ (314 / 100 : ℝ) < Real.pi
    ∧ ((dragLight ⟨Real.sin, Real.cos, Real.sqrt⟩ canvas_pos mouse_pos f).lightAzimuth
          / (314 / 100)) ^ 2
        + ((dragLight ⟨Real.sin, Real.cos, Real.sqrt⟩ canvas_pos mouse_pos f).lightElevation
          / (157 / 100)) ^ 2 ≤ 1 := by
  have h := lightFrames_sum steps
    { f with lightElevation := 8 / 10, lightAzimuth := -(7 / 10) } reset_sum
  have hpi : (314 / 100 : ℝ) < Real.pi := by
    have := Real.pi_gt_d2
    norm_num at this ⊢
    linarith
  refine ⟨h, ?_, by linarith, ?_, hpi, dragLight_sum canvas_pos mouse_pos f⟩
  · exact scaled_abs_le _ _ _ (by norm_num) (by rw [add_comm]; exact h)
  · exact scaled_abs_le _ _ _ (by norm_num) h

theorem scaledOffset_eq {α : Type} [LinearOrderedField α] (c p : α × α) :
    scaledOffset c p
      = ((p.1 - (circleCenter c).1) / (384 / 10), ((circleCenter c).2 - p.2) / (384 / 10)) := by
  simp only [scaledOffset, circleRadius, Prod.mk.injEq]
  constructor <;> norm_num

/-- The angles that a drag stores, from the scaled offset `r` of the mouse. -/
theorem dragLight_angles {α : Type} [LinearOrderedField α] (m : CMath α) (c p : α × α)
    (f : FloatMembers α) (r : α × α) (d : α) (hr : scaledOffset c p = r)
    (hd : m.sqrt (r.1 * r.1 + r.2 * r.2) = d) :
    (dragLight m c p f).lightAzimuth = (if d > 1 then r.1 / d else r.1) * (314 / 100)
    ∧ (dragLight m c p f).lightElevation = (if d > 1 then r.2 / d else r.2) * (157 / 100) := by
  subst hr hd
  unfold dragLight
  simp only
  split <;> exact ⟨rfl, rfl⟩

/-- The point at which the indicator is drawn for angles `a * 3.14` and `b * 1.57`. -/
theorem lightIndicator_of_angles {α : Type} [LinearOrderedField α] (c : α × α)
    (f : FloatMembers α) (a b : α) (ha : f.lightAzimuth = a * (314 / 100))
    (hb : f.lightElevation = b * (157 / 100)) :
    lightIndicator c f
      = ((circleCenter c).1 + a * (384 / 10), (circleCenter c).2 - b * (384 / 10)) := by
  simp only [lightIndicator, circleRadius, ha, hb, Prod.mk.injEq]
  constructor <;> field_simp <;> ring

theorem scaledOffset_indicator {α : Type} [LinearOrderedField α] (c : α × α) (a b : α) :
    scaledOffset c ((circleCenter c).1 + a * (384 / 10), (circleCenter c).2 - b * (384 / 10))
      = (a, b) := by
  rw [scaledOffset_eq]
  simp only [Prod.mk.injEq]
  constructor
  · field_simp
    ring
  · field_simp

/-- C30: over the real numbers, let a drag at the mouse position `p` set the
angles, and let the indicator be drawn from them on the same canvas.  The
scaled offset of `p` is `((p.x - c.x) / 38.4, (c.y - p.y) / 38.4)` for the
circle centre `c`, and `dist` is its length.  If `dist <= 1`, the indicator is
drawn at `p`.  If `dist > 1`, the indicator is drawn at
`c + (p - c) / dist`, a point of the ray from `c` through `p`, and its scaled
offset has length 1. -/
theorem light_widget_round_trip (canvas_pos mouse_pos : ℝ × ℝ) (f : FloatMembers ℝ) :
    scaledOffset canvas_pos mouse_pos
        = ((mouse_pos.1 - (circleCenter canvas_pos).1) / (384 / 10),
           ((circleCenter canvas_pos).2 - mouse_pos.2) / (384 / 10))
    ∧ (Real.sqrt ((scaledOffset canvas_pos mouse_pos).1 * (scaledOffset canvas_pos mouse_pos).1
          + (scaledOffset canvas_pos mouse_pos).2 * (scaledOffset canvas_pos mouse_pos).2) ≤ 1 →
        lightIndicator canvas_pos
          (dragLight ⟨Real.sin, Real.cos, Real.sqrt⟩ canvas_pos mouse_pos f) = mouse_pos)
    ∧ (1 < Real.sqrt ((scaledOffset canvas_pos mouse_pos).1 * (scaledOffset canvas_pos mouse_pos).1
          + (scaledOffset canvas_pos mouse_pos).2 * (scaledOffset canvas_pos mouse_pos).2) →
        lightIndicator canvas_pos
            (dragLight ⟨Real.sin, Real.cos, Real.sqrt⟩ canvas_pos mouse_pos f)
          = ((circleCenter canvas_pos).1 + (mouse_pos.1 - (circleCenter canvas_pos).1)
                / Real.sqrt ((scaledOffset canvas_pos mouse_pos).1
                    * (scaledOffset canvas_pos mouse_pos).1
                  + (scaledOffset canvas_pos mouse_pos).2 * (scaledOffset canvas_pos mouse_pos).2),
             (circleCenter canvas_pos).2 + (mouse_pos.2 - (circleCenter canvas_pos).2)
                / Real.sqrt ((scaledOffset canvas_pos mouse_pos).1
                    * (scaledOffset canvas_pos mouse_pos).1
                  + (scaledOffset canvas_pos mouse_pos).2 * (scaledOffset canvas_pos mouse_pos).2))
        ∧ Real.sqrt
            ((scaledOffset canvas_pos (lightIndicator canvas_pos
                (dragLight ⟨Real.sin, Real.cos, Real.sqrt⟩ canvas_pos mouse_pos f))).1
              * (scaledOffset canvas_pos (lightIndicator canvas_pos
                (dragLight ⟨Real.sin, Real.cos, Real.sqrt⟩ canvas_pos mouse_pos f))).1
            + (scaledOffset canvas_pos (lightIndicator canvas_pos
                (dragLight ⟨Real.sin, Real.cos, Real.sqrt⟩ canvas_pos mouse_pos f))).2
              * (scaledOffset canvas_pos (lightIndicator canvas_pos
                (dragLight ⟨Real.sin, Real.cos, Real.sqrt⟩ canvas_pos mouse_pos f))).2) = 1) := by
  generalize hr : scaledOffset canvas_pos mouse_pos = r
  generalize hd : Real.sqrt (r.1 * r.1 + r.2 * r.2) = d
  have hreq := scaledOffset_eq canvas_pos mouse_pos
  rw [hr] at hreq
  obtain ⟨haz, hel⟩ := dragLight_angles ⟨Real.sin, Real.cos, Real.sqrt⟩ canvas_pos mouse_pos f
    r d hr hd
  have hnn : 0 ≤ r.1 * r.1 + r.2 * r.2 := by
    nlinarith [mul_self_nonneg r.1, mul_self_nonneg r.2]
  have hsq : d ^ 2 = r.1 * r.1 + r.2 * r.2 := by
    rw [← hd]
    exact Real.sq_sqrt hnn
  have hr1 : r.1 = (mouse_pos.1 - (circleCenter canvas_pos).1) / (384 / 10) :=
    congrArg Prod.fst hreq
  have hr2 : r.2 = ((circleCenter canvas_pos).2 - mouse_pos.2) / (384 / 10) :=
    congrArg Prod.snd hreq
  refine ⟨hreq, ?_, ?_⟩
  · intro hle
    rw [if_neg (not_lt.mpr hle)] at haz hel
    rw [lightIndicator_of_angles canvas_pos _ r.1 r.2 haz hel, hr1, hr2]
    apply Prod.ext
    · show _ = mouse_pos.1
      field_simp
    · show _ = mouse_pos.2
      field_simp
  · intro hgt
    have hpos : 0 < d := by linarith
    have hne := ne_of_gt hpos
    rw [if_pos hgt] at haz hel
    have hind := lightIndicator_of_angles canvas_pos _ (r.1 / d) (r.2 / d) haz hel
    constructor
    · rw [hind, hr1, hr2]
      apply Prod.ext
      · show _ = _ + _ / d
        field_simp
        ring
      · show _ = _ + _ / d
        field_simp
        ring
    · rw [hind, scaledOffset_indicator]
      have hone : r.1 / d * (r.1 / d) + r.2 / d * (r.2 / d) = 1 := by
        field_simp
        nlinarith [hsq]
      show Real.sqrt (r.1 / d * (r.1 / d) + r.2 / d * (r.2 / d)) = 1
      rw [hone, Real.sqrt_one]

end SDFCornell
